import Mathlib

/-!
Shallow embedding of the core of `multi-command-runner` (`src/app/main.py`)
for checking the natural-language specification against the code.

Conventions used throughout this development:
* Python `int` is modelled as `Int` (Python integers are unbounded).
* `time.time()` timestamps are modelled as `Int`; the alert resolver only
  compares and subtracts timestamps, so any linearly ordered ring works and
  the concrete scenarios in the spec use whole seconds.
* Python dictionaries keyed by strings are modelled as association lists.
* Side effects (broker `publish`, process spawning, the SQLite store) are
  modelled by explicit state passing and by returning lists of emitted
  events; a ghost counter counts `subprocess.Popen` invocations.
* The regular-expression engine is an external collaborator: functions that
  consume a compiled pattern or a match object are parametrised by them.
-/

/-! ## Python string primitives

`str.strip()`, `str.upper()`, `str.lower()` are modelled over the
character list (ASCII case mapping; the identifiers, case states and type
tags this program compares are ASCII). -/

/-- Python `str.strip()` over the character list. -/
def pyStrip (s : String) : String :=
  String.mk (((s.toList.dropWhile Char.isWhitespace).reverse.dropWhile
    Char.isWhitespace).reverse)

/-- Python `str.upper()`. -/
def pyUpper (s : String) : String :=
  String.mk (s.toList.map Char.toUpper)

/-- Python `str.lower()`. -/
def pyLower (s : String) : String :=
  String.mk (s.toList.map Char.toLower)

/-- `SAFE_ID_RE = ^[A-Za-z0-9_-]{1,120}$` (main.py:55). -/
def validSafeId (s : String) : Bool :=
  decide (1 ≤ s.toList.length) && decide (s.toList.length ≤ 120) &&
    s.toList.all (fun c => c.isAlphanum || c = '_' || c = '-')

/-! ## Case state normalisation (`normalize_case_state`, main.py:1161) -/

/-- `normalize_case_state`: trim, uppercase, and keep only the four known
alert states, mapping everything else to the empty string. -/
def normalize_case_state (value : String) : String :=
  let s := pyUpper (pyStrip value)
  if s = "UP" ∨ s = "DOWN" ∨ s = "WARN" ∨ s = "INFO" then s else ""

/-! ## Template rendering (`render_template_message`, main.py:1224)

A Python `re.Match` is modelled by the data the renderer reads from it:
the whole matched text (`m.group(0)`), the numbered groups (`m.groups()`,
entries are `None` for unmatched optional groups) and the named groups
(`m.groupdict()`). -/

structure RMatch where
  whole : String
  groups : List (Option String)
  named : List (String × Option String)
deriving Repr, DecidableEq

/-- Update an association list the way `dict.update` does: replace the value
of an existing key, append a fresh key. -/
def updateAssoc (l : List (String × Option String)) (k : String) (v : Option String) :
    List (String × Option String) :=
  if l.any (fun p => p.1 = k) then
    l.map (fun p => if p.1 = k then (k, v) else p)
  else
    l ++ [(k, v)]

/-- The mapping `render_template_message` builds: `match` bound to the whole
match, `g1..gn` bound to the numbered groups, then updated with the named
groups (`mapping.update(m.groupdict())`). -/
def renderMapping (m : RMatch) : List (String × Option String) :=
  let base : List (String × Option String) :=
    ("match", some m.whole) ::
      ((m.groups.enumFrom 1).map (fun p => ("g" ++ toString p.1, p.2)))
  m.named.foldl (fun acc p => updateAssoc acc p.1 p.2) base

/-- How Python's `str.format` prints a mapping value: strings verbatim,
`None` as the text `None` (unmatched optional groups). -/
def fmtVal (v : Option String) : String :=
  match v with
  | some s => s
  | none => "None"

/-- One identifier-like replacement-field lookup.  Fields containing
conversion or format-spec syntax are treated as a formatting error (the
caller then falls back to the raw template); the templates in this program
use plain `\x7bname\x7d` fields only. -/
def lookupField (mapping : List (String × Option String)) (field : String) :
    Option String :=
  if field.toList.any (fun c => c = '!' ∨ c = ':' ∨ c = '.' ∨ c = '[') then
    none
  else
    match mapping.find? (fun p => p.1 = field) with
    | some p => some (fmtVal p.2)
    | none => none

mutual

/-- The fragment of `str.format_map` the renderer relies on, over the
template's character list.  `\x7b\x7b` and `\x7d\x7d` are brace escapes, a
replacement field is the text up to the next `\x7d` (scanned by
`formatField`), an unknown field, an unclosed field or a stray `\x7d` is a
formatting error (`none`). -/
def formatMap (mapping : List (String × Option String)) : List Char → Option String
  | [] => some ""
  | '{' :: '{' :: rest =>
      (formatMap mapping rest).map (fun s => "\x7b" ++ s)
  | '{' :: rest => formatField mapping rest []
  | '}' :: '}' :: rest =>
      (formatMap mapping rest).map (fun s => "\x7d" ++ s)
  | '}' :: _ => none
  | c :: rest =>
      (formatMap mapping rest).map (fun s => String.mk [c] ++ s)
termination_by cs => cs.length
decreasing_by all_goals simp_wf <;> omega

/-- Scan a replacement field up to its closing brace, then substitute. -/
def formatField (mapping : List (String × Option String)) :
    List Char → List Char → Option String
  | [], _ => none
  | '}' :: rest, acc =>
      match lookupField mapping (String.mk acc.reverse) with
      | some v => (formatMap mapping rest).map (fun s => v ++ s)
      | none => none
  | c :: rest, acc => formatField mapping rest (c :: acc)
termination_by cs _ => cs.length
decreasing_by all_goals simp_wf

end

/-- `render_template_message`: substitute the match mapping into the
template; on any formatting error return the raw template. -/
def render_template_message (template : String) (m : RMatch) : String :=
  match formatMap (renderMapping m) template.toList with
  | some s => s
  | none => template

/-- The match of the pattern `(?P<name>\w+)-(\w+)` on the input line
`a-b`: the named group `name` is group 1 and captures `a`, the second
group captures `b`. -/
def c2Match : RMatch :=
  { whole := "a-b", groups := [some "a", some "b"], named := [("name", some "a")] }

/-! ## Stateful alert resolver (`RunnerManager._resolve_stateful_notification`,
main.py:1676) -/

/-- The per-runner alert bookkeeping the resolver reads and writes:
`self._alert_state[runner_id]` (default `""`) and
`self._last_alert_notify_ts[runner_id]` (default `0.0`). -/
structure AlertSt where
  alert_state : String
  last_alert_notify_ts : Int
deriving Repr, DecidableEq

/-- The two runtime-config fields the resolver reads. -/
structure AlertCfg where
  alert_cooldown_s : Int
  alert_escalation_s : Int
deriving Repr, DecidableEq

/-- `RunnerManager._resolve_stateful_notification`, with the runner's alert
slot passed and returned explicitly.  Returns the updated slot and the
message to enqueue (`none` = suppressed). -/
def resolve_stateful_notification (cfg : AlertCfg) (st : AlertSt) (now_ts : Int)
    (case_state message : String) : AlertSt × Option String :=
  let state := normalize_case_state case_state
  if state = "" then
    (st, some message)
  else
    let prev_state := st.alert_state
    if state ≠ prev_state then
      let st' : AlertSt := ⟨state, now_ts⟩
      if (prev_state = "DOWN" ∨ prev_state = "WARN") ∧ state = "UP" then
        (st', some ("RECOVERY: " ++ message))
      else
        (st', some message)
    else
      if state = "DOWN" ∨ state = "WARN" then
        let cooldown_s := max 0 cfg.alert_cooldown_s
        let escalation_s := max 0 cfg.alert_escalation_s
        let elapsed := now_ts - st.last_alert_notify_ts
        if elapsed < cooldown_s then
          (st, none)
        else if escalation_s ≤ 0 ∨ elapsed ≥ escalation_s then
          (⟨st.alert_state, now_ts⟩, some ("ESCALATION (" ++ state ++ "): " ++ message))
        else
          (st, none)
      else
        (st, none)

/-- Fold the resolver over a sequence of `(timestamp, case_state)` inputs
with a fixed message, collecting the emitted decisions. -/
def resolveChain (cfg : AlertCfg) (message : String) :
    AlertSt → List (Int × String) → List (Option String)
  | _, [] => []
  | st, (ts, cs) :: rest =>
      let r := resolve_stateful_notification cfg st ts cs message
      r.2 :: resolveChain cfg message r.1 rest

/-! ## Delivery-result recording (`StateStore.record_notify_delivery_result`,
main.py:825)

The store's raw-JSON reload and re-normalisation around the update are
elided: the function is modelled on the stored profile record it finds
(the claim concerns an existing profile).  Lines 851-859 re-clamp the
stored counters before updating, which the model reproduces. -/

/-- A stored notification profile as the delivery bookkeeping sees it. -/
structure StoredProfile where
  id : String
  name : String
  ty : String
  active : Bool
  failure_count : Int
  sent_count : Int
  user_key : String
  api_token : String
deriving Repr, DecidableEq

/-- The dictionary returned by `record_notify_delivery_result`. -/
structure DeliveryResult where
  found : Bool
  profile_id : String
  profile_name : String
  active : Bool
  failure_count : Int
  sent_count : Int
  auto_disabled : Bool
deriving Repr, DecidableEq

/-- The `found=False` result (profile id absent from the store). -/
def deliveryNotFound : DeliveryResult :=
  { found := false, profile_id := "", profile_name := "", active := true,
    failure_count := 0, sent_count := 0, auto_disabled := false }

/-- Core of `record_notify_delivery_result` on the profile it found:
clamp the stored counters, then on success increment `sent_count` and reset
`failure_count`; on failure increment `failure_count` and auto-disable an
active profile once the count reaches the threshold. -/
def recordDeliveryOnProfile (p : StoredProfile) (success : Bool)
    (failure_threshold : Int) : StoredProfile × DeliveryResult :=
  let fc0 : Int := max 0 p.failure_count
  let sc0 : Int := max 0 p.sent_count
  let p0 := { p with failure_count := fc0, sent_count := sc0 }
  let upd :=
    if success then
      ({ p0 with sent_count := sc0 + 1, failure_count := 0 }, false)
    else
      let fc1 := fc0 + 1
      if p0.active ∧ fc1 ≥ max 1 failure_threshold then
        ({ p0 with failure_count := fc1, active := false }, true)
      else
        ({ p0 with failure_count := fc1 }, false)
  (upd.1,
    { found := true, profile_id := upd.1.id, profile_name := upd.1.name,
      active := upd.1.active, failure_count := upd.1.failure_count,
      sent_count := upd.1.sent_count, auto_disabled := upd.2 })

/-- `record_notify_delivery_result` against a list of stored profiles:
find the profile by id, update it in place, return the result dict. -/
def record_notify_delivery_result (profiles : List StoredProfile)
    (profile_id : String) (success : Bool) (failure_threshold : Int) :
    List StoredProfile × DeliveryResult :=
  match profiles.find? (fun p => p.id = profile_id) with
  | none => (profiles, deliveryNotFound)
  | some p =>
      let r := recordDeliveryOnProfile p success failure_threshold
      (profiles.map (fun q => if q.id = profile_id then r.1 else q), r.2)

/-! ## Configuration compilation (`compile_runner_cfg`, main.py:2096)

The regex engine is external: compilation is a parameter
`rxCompile : String → Except String Rx` (`.error e` models `re.error`). -/

/-- A stored case rule (pydantic `CaseRule`). -/
structure CaseRule where
  id : String
  pattern : String
  message_template : String
  state : String
deriving Repr, DecidableEq

/-- A stored schedule (pydantic `ScheduleConfig`). -/
structure ScheduleConfig where
  hours : Int
  minutes : Int
  seconds : Int
deriving Repr, DecidableEq

/-- A stored runner (pydantic `RunnerConfig`). -/
structure RunnerConfig where
  id : String
  name : String
  command : String
  logging_enabled : Bool
  schedule : ScheduleConfig
  max_runs : Int
  alert_cooldown_s : Int
  alert_escalation_s : Int
  failure_pause_threshold : Int
  cases : List CaseRule
  notify_profile_ids : List String
  notify_profile_updates_only : List String
deriving Repr, DecidableEq

/-- A stored notification profile (pydantic `NotifyProfile`). -/
structure NotifyProfile where
  id : String
  name : String
  ty : String
  active : Bool
  config_user_key : String
  config_api_token : String
deriving Repr, DecidableEq

/-- The slice of `AppState` that `compile_runner_cfg` reads. -/
structure AppState where
  notify_profiles : List NotifyProfile
  runners : List RunnerConfig
deriving Repr, DecidableEq

/-- A compiled case (`CompiledCase`), generic in the compiled-regex type. -/
structure CompiledCase (Rx : Type) where
  pattern : String
  regex : Rx
  message_template : String
  state : String
deriving Repr, DecidableEq

/-- A notification target (`NotifyTarget`). -/
structure NotifyTarget where
  profile_id : String
  profile_name : String
  only_updates : Bool
  active : Bool
  user_key : String
  api_token : String
deriving Repr, DecidableEq

/-- The immutable per-runner runtime config (`RunnerRuntimeConfig`). -/
structure RunnerRuntimeConfig (Rx : Type) where
  runner_id : String
  runner_name : String
  command : String
  logging_enabled : Bool
  interval_s : Int
  max_runs : Int
  alert_cooldown_s : Int
  alert_escalation_s : Int
  failure_pause_threshold : Int
  send_last_line_on_finish : Bool
  cases : List (CompiledCase Rx)
  notify_targets : List NotifyTarget
deriving Repr, DecidableEq

/-- A `case_error` event published while compiling (runner id, pattern,
error text). -/
structure CaseErrorEvent where
  runner_id : String
  pattern : String
  error : String
deriving Repr, DecidableEq

/-- The case-compilation loop of `compile_runner_cfg`: skip cases with both
trimmed fields empty (sentinel) or exactly one empty (disabled); publish a
`case_error` and drop the case when the regex does not compile. -/
def compileCases {Rx : Type} (rxCompile : String → Except String Rx)
    (runner_id : String) :
    List CaseRule → List (CompiledCase Rx) × List CaseErrorEvent
  | [] => ([], [])
  | c :: rest =>
      let tailRes := compileCases rxCompile runner_id rest
      let pattern := pyStrip c.pattern
      let tmpl := pyStrip c.message_template
      let case_state := normalize_case_state c.state
      if pattern = "" ∧ tmpl = "" then tailRes
      else if pattern = "" ∨ tmpl = "" then tailRes
      else
        match rxCompile pattern with
        | .error e =>
            (tailRes.1,
              { runner_id := runner_id, pattern := pattern,
                error := "Invalid regex: " ++ e } :: tailRes.2)
        | .ok rx =>
            ({ pattern := pattern, regex := rx, message_template := tmpl,
               state := case_state } :: tailRes.1, tailRes.2)

/-- `compile_runner_cfg`: `.error` models the 404 `HTTPException` when the
runner id is absent; otherwise the compiled config together with the
`case_error` events published for invalid patterns. -/
def compile_runner_cfg {Rx : Type} (rxCompile : String → Except String Rx)
    (state : AppState) (runner_id : String) :
    Except String (RunnerRuntimeConfig Rx × List CaseErrorEvent) :=
  match state.runners.find? (fun r => r.id = runner_id) with
  | none => .error "Runner not found"
  | some runner =>
      let interval_s : Int :=
        max 0 (runner.schedule.hours * 3600 + runner.schedule.minutes * 60 +
          runner.schedule.seconds)
      let send_last_line :=
        runner.cases.any
          (fun c => pyStrip c.pattern = "" ∧ pyStrip c.message_template = "")
      let compiledRes := compileCases rxCompile runner_id runner.cases
      let max_runs : Int :=
        if runner.max_runs ≠ -1 then max 1 (min 100 runner.max_runs)
        else runner.max_runs
      let updates_only_ids := runner.notify_profile_updates_only
      let notify_targets :=
        runner.notify_profile_ids.foldr
          (fun profile_id acc =>
            match state.notify_profiles.find? (fun p => p.id = profile_id) with
            | some profile =>
                if profile.ty = "pushover" then
                  ({ profile_id := profile.id, profile_name := profile.name,
                     only_updates := updates_only_ids.contains profile.id,
                     active := profile.active,
                     user_key := profile.config_user_key,
                     api_token := profile.config_api_token } : NotifyTarget) :: acc
                else acc
            | none => acc)
          []
      .ok
        ({ runner_id := runner.id,
           runner_name :=
             (let base := pyStrip (if runner.name ≠ "" then runner.name else runner.id)
              if base = "" then runner.id else base),
           command := runner.command,
           logging_enabled := runner.logging_enabled,
           interval_s := interval_s,
           max_runs := max_runs,
           alert_cooldown_s := max 0 runner.alert_cooldown_s,
           alert_escalation_s := max 0 runner.alert_escalation_s,
           failure_pause_threshold := max 0 runner.failure_pause_threshold,
           send_last_line_on_finish := send_last_line,
           cases := compiledRes.1,
           notify_targets := notify_targets },
         compiledRes.2)

/-! ## Runner supervisor state machine (`RunnerManager`, main.py:1391)

The per-runner mutable slots that the scheduling, accounting and pause
logic reads (`_procs` liveness, `_stopped`, `_paused_due_failures`,
`_timers`, `_remaining`, `_run_count`, `_consecutive_failures`) are
gathered into one record; `spawns` is a ghost counter incremented at every
`subprocess.Popen` call.  Output buffers, timestamps and log files are not
part of these claims and are omitted. -/

/-- The runtime-config fields the scheduling and pause logic reads. -/
structure MachineCfg where
  interval_s : Int
  max_runs : Int
  failure_pause_threshold : Int
deriving Repr, DecidableEq

/-- Status events published by the supervisor (`type=status`). -/
inductive StatusEvt
  | started (run_count : Int) (remaining : Option Int)
  | scheduled (in_s : Int)
  | finished (exit_code : Int) (stopped : Bool) (consecutive_failures : Int)
  | pausedStatus (reason : String) (consecutive_failures : Int)
  | stopping
  | stoppedStatus
deriving Repr, DecidableEq

/-- The per-runner supervisor slot. -/
structure RState where
  running : Bool
  stopped : Bool
  paused : Bool
  timer : Bool
  remaining : Option Int
  run_count : Int
  consecutive_failures : Int
  spawns : Nat
deriving Repr, DecidableEq

/-- A runner slot that has never run (fresh ghost counter). -/
def rmIdle : RState :=
  { running := false, stopped := false, paused := false, timer := false,
    remaining := none, run_count := 0, consecutive_failures := 0, spawns := 0 }

/-- `subprocess.Popen` plus the bookkeeping around it in `_scheduled_start`
(main.py:1638-1658): clear stopped, record the live child, publish
`started`. -/
def rmSpawn (s : RState) : RState × List StatusEvt :=
  let s1 := { s with stopped := false, running := true, spawns := s.spawns + 1 }
  (s1, [.started s1.run_count s1.remaining])

/-- `RunnerManager.start` (main.py:1534).  `.error ()` models the 409
`HTTPException` raised while a child is alive. -/
def rmStart (cfg : MachineCfg) (reset_schedule : Bool) (s0 : RState) :
    Except Unit (RState × List StatusEvt) :=
  let s := if reset_schedule then { s0 with timer := false } else s0
  if s.running then .error ()
  else
    let s := { s with stopped := false, paused := false }
    let s :=
      if reset_schedule then
        { s with
          remaining := if cfg.max_runs = -1 then none else some cfg.max_runs,
          run_count := 1, consecutive_failures := 0 }
      else
        { s with run_count := s.run_count + 1 }
    match s.remaining with
    | some r =>
        if r ≤ 0 then .ok (s, [])
        else .ok (rmSpawn { s with remaining := some (r - 1) })
    | none => .ok (rmSpawn s)

/-- `RunnerManager._scheduled_start` (main.py:1614): the timer-fire
handler.  `cfg?` is `self._cfg.get(runner_id)`.  Note the order mirrored
from the source: the timer slot is popped, stop/pause abort, `remaining`
is decremented and `run_count` incremented, and only then is a still-alive
previous child detected (in which case the handler returns without
spawning and without publishing anything). -/
def rmScheduledStart (cfg? : Option MachineCfg) (s0 : RState) :
    RState × List StatusEvt :=
  let s := { s0 with timer := false }
  if s.stopped then (s, [])
  else if s.paused then (s, [])
  else
    match cfg? with
    | none => (s, [])
    | some _ =>
        match s.remaining with
        | some r =>
            if r ≤ 0 then (s, [])
            else
              let s1 := { s with remaining := some (r - 1),
                                 run_count := s.run_count + 1 }
              if s1.running then (s1, []) else rmSpawn s1
        | none =>
            let s1 := { s with run_count := s.run_count + 1 }
            if s1.running then (s1, []) else rmSpawn s1

/-- `RunnerManager._schedule_next` (main.py:1591): arm the interval timer
unless the runner has no interval, is stopped or paused, has exhausted its
remaining runs, or already has a timer. -/
def rmScheduleNext (cfg? : Option MachineCfg) (s : RState) :
    RState × List StatusEvt :=
  match cfg? with
  | none => (s, [])
  | some cfg =>
      if cfg.interval_s ≤ 0 then (s, [])
      else if s.stopped then (s, [])
      else if s.paused then (s, [])
      else
        let remOk :=
          match s.remaining with
          | some r => decide (0 < r)
          | none => true
        if remOk = false then (s, [])
        else if s.timer then (s, [])
        else ({ s with timer := true }, [.scheduled cfg.interval_s])

/-- The failure-accounting block of `RunnerManager._reader_thread`
(main.py:1769-1783): unless the run was stopped, a zero exit resets the
consecutive-failure counter and a non-zero exit increments it,
auto-pausing (and cancelling any pending timer) when the threshold is
reached; returns the pause decision. -/
def rmFailureAccounting (cfg : MachineCfg) (exit_code : Int) (s : RState) :
    RState × Bool :=
  if s.stopped then (s, false)
  else if exit_code = 0 then ({ s with consecutive_failures := 0 }, false)
  else
    let cf := s.consecutive_failures + 1
    let threshold := max 0 cfg.failure_pause_threshold
    if 0 < threshold ∧ threshold ≤ cf then
      ({ s with consecutive_failures := cf, paused := true,
                stopped := true, timer := false }, true)
    else
      ({ s with consecutive_failures := cf }, false)

/-- The tail of `RunnerManager._reader_thread` after `proc.wait()`
(main.py:1724-1814): release the child, run the failure accounting,
publish `finished`, then either publish the `paused` status with reason
`auto_pause_failures` or try to schedule the next run. -/
def rmFinish (cfg : MachineCfg) (exit_code : Int) (s0 : RState) :
    RState × List StatusEvt :=
  let s := { s0 with running := false }
  let stopped := s.stopped
  let st := rmFailureAccounting cfg exit_code s
  let s1 := st.1
  let finishedEvt := StatusEvt.finished exit_code stopped s1.consecutive_failures
  if st.2 then
    (s1, [finishedEvt, .pausedStatus "auto_pause_failures" s1.consecutive_failures])
  else
    let sched := rmScheduleNext (some cfg) s1
    (sched.1, finishedEvt :: sched.2)

/-- `RunnerManager.stop` (main.py:1510): cancel the timer, mark stopped,
clear the pause flag, reset the run counter, publish `stopping` (and
`stopped` at once when no child is alive; the signal escalation for a live
child is not modelled — its exit reaches `rmFinish` with `stopped=true`). -/
def rmStop (s : RState) : RState × List StatusEvt :=
  let s1 := { s with timer := false, stopped := true, paused := false,
                     run_count := 0 }
  if ¬ s1.running then (s1, [.stopping, .stoppedStatus])
  else (s1, [.stopping])

/-- Events a running session can receive after its manual start: a timer
firing, a child exiting with a code, or an operator stop. -/
inductive REvent
  | timerFire
  | childExit (exit_code : Int)
  | stopCmd
deriving Repr, DecidableEq

/-- One session step.  A `childExit` is handled by the reader-thread
finaliser; the supervisor itself never spawns on `childExit`. -/
def rmStep (cfg : MachineCfg) (s : RState) (e : REvent) : RState × List StatusEvt :=
  match e with
  | .timerFire => rmScheduledStart (some cfg) s
  | .childExit code => rmFinish cfg code s
  | .stopCmd => rmStop s

/-- Fold a session's event trace through the supervisor. -/
def rmRun (cfg : MachineCfg) (s : RState) : List REvent → RState
  | [] => s
  | e :: rest => rmRun cfg (rmStep cfg s e).1 rest

/-- Count the child-exit events of a trace. -/
def exitCount : List REvent → Nat
  | [] => 0
  | .childExit _ :: rest => exitCount rest + 1
  | _ :: rest => exitCount rest

/-! ## Group sequencer (`GroupSequenceManager._run_group`, main.py:2024)

The sequential member loop is modelled on the list of members together
with the terminal runner snapshot each member reaches (the polling loop is
elided: the snapshot fields `paused`, `stopped`, `last_exit_code` are read
once the member is neither running nor scheduled).  The group's
cooperative stop signal is never set in the traces these claims concern. -/

/-- What the sequencer observes for one member: the runner refused to
start, or it ran to a terminal snapshot. -/
inductive MemberResult
  | startFailed (err : String)
  | terminal (paused stopped : Bool) (last_exit_code : Option Int)
deriving Repr, DecidableEq

/-- A `group_status` event (the fields these claims are about). -/
structure GroupEvt where
  status : String
  current_runner_id : String
  current_index : Int
  completed_count : Int
deriving Repr, DecidableEq, Inhabited

/-- The failure test of main.py:2080. -/
def memberFailed (paused stopped : Bool) (last_exit_code : Option Int) : Bool :=
  paused || stopped ||
    (match last_exit_code with
     | some code => decide (code ≠ 0)
     | none => false)

/-- The member loop of `_run_group`, starting at 1-based index `idx` with
`completed` completed members; returns the published `group_status`
events in order.  `completed_count` is assigned the member's index as soon
as the member terminates, before the failure test (main.py:2065). -/
def runGroupAux (idx completed : Int) :
    List (String × MemberResult) → List GroupEvt
  | [] => [{ status := "finished", current_runner_id := "",
             current_index := 0, completed_count := completed }]
  | (rid, res) :: rest =>
      let runningEvt : GroupEvt :=
        { status := "running", current_runner_id := rid,
          current_index := idx, completed_count := completed }
      match res with
      | .startFailed _ =>
          [runningEvt,
           { status := "error", current_runner_id := rid,
             current_index := idx, completed_count := completed }]
      | .terminal paused stopped code =>
          let progressEvt : GroupEvt :=
            { status := "running", current_runner_id := rid,
              current_index := idx, completed_count := idx }
          if memberFailed paused stopped code then
            [runningEvt, progressEvt,
             { status := "error", current_runner_id := rid,
               current_index := idx, completed_count := idx }]
          else
            runningEvt :: progressEvt :: runGroupAux (idx + 1) idx rest

/-- `_run_group` for a whole member list (the `started` event published by
`start_group` before the loop is prepended; `current_runner_id` and
`current_index` of the final event repeat the runtime fields, which the
tail of `runGroupAux` reproduces). -/
def run_group (members : List (String × MemberResult)) : List GroupEvt :=
  { status := "started", current_runner_id := "", current_index := 0,
    completed_count := 0 } :: runGroupAux 1 0 members

/-- The final `group_status` event of a run (the list is never empty). -/
def finalGroupEvt (members : List (String × MemberResult)) : GroupEvt :=
  (run_group members).getLastD default

/-! ## Notification worker (`NotificationWorker`, main.py:1269)

The consumer loop `_run` is modelled per dequeued entry as a pure step
over `(profiles, last_sent_message)`.  The external Pushover transport is
a parameter: `sendOk = true` models `send_pushover_checked` returning,
`false` models it raising.  The bounded queue and the journal table are
not part of these claims. -/

/-- One tuple on the worker queue (main.py:1285). -/
structure QueueEntry where
  profile_id : String
  profile_name : String
  only_updates : Bool
  message : String
  title : String
  runner_id : String
  pattern : String
deriving Repr, DecidableEq

/-- Events the worker publishes. -/
inductive WEvt
  | notifyStatus (profile_id : String) (delivery : String) (auto_disabled : Bool)
  | caseError (runner_id : String) (pattern : String) (error : String)
  | autoDisabled (profile_id : String)
deriving Repr, DecidableEq

/-- `self._last_sent_message.get((runner_id, profile_id), "")`. -/
def lastSentGet (ls : List ((String × String) × String)) (key : String × String) :
    String :=
  match ls.find? (fun p => p.1 = key) with
  | some p => p.2
  | none => ""

/-- `self._last_sent_message[key] = message`. -/
def lastSentSet (ls : List ((String × String) × String)) (key : String × String)
    (message : String) : List ((String × String) × String) :=
  if ls.any (fun p => p.1 = key) then
    ls.map (fun p => if p.1 = key then (key, message) else p)
  else
    ls ++ [(key, message)]

/-- The result of one worker iteration: the updated store and dedupe map,
whether the transport was invoked (ghost), and the published events. -/
structure WorkerStep where
  profiles : List StoredProfile
  last_sent : List ((String × String) × String)
  attempted : Bool
  events : List WEvt
deriving Repr, DecidableEq

/-- One iteration of `NotificationWorker._run` (main.py:1291-1388) on a
dequeued entry: re-read the profile and skip when it is missing, inactive,
not pushover, or lacks credentials; skip when `only_updates` and the
message equals the last successfully sent one for `(runner_id,
profile_id)`; otherwise call the transport and record the delivery
result. -/
def workerStep (sendOk : Bool) (profiles : List StoredProfile)
    (last_sent : List ((String × String) × String)) (e : QueueEntry) :
    WorkerStep :=
  let skip : WorkerStep :=
    { profiles := profiles, last_sent := last_sent, attempted := false,
      events := [] }
  match profiles.find? (fun p => p.id = e.profile_id) with
  | none => skip
  | some profile =>
      if profile.active = false then skip
      else if profile.ty ≠ "pushover" then skip
      else if pyStrip profile.user_key = "" ∨ pyStrip profile.api_token = "" then skip
      else
        let dedupe_key := (e.runner_id, e.profile_id)
        if e.only_updates ∧ lastSentGet last_sent dedupe_key = e.message then skip
        else if sendOk then
          let ls1 := lastSentSet last_sent dedupe_key e.message
          let r := record_notify_delivery_result profiles e.profile_id true 3
          { profiles := r.1, last_sent := ls1, attempted := true,
            events :=
              if r.2.found then [.notifyStatus e.profile_id "success" false]
              else [] }
        else
          let r := record_notify_delivery_result profiles e.profile_id false 3
          { profiles := r.1, last_sent := last_sent, attempted := true,
            events :=
              (if r.2.found then
                [WEvt.notifyStatus e.profile_id "error" r.2.auto_disabled]
               else []) ++
              [WEvt.caseError e.runner_id e.pattern "Pushover failed"] ++
              (if r.2.auto_disabled then [WEvt.autoDisabled e.profile_id]
               else []) }

/-- Drain a queue through the worker, collecting the profile ids of the
entries for which the transport was actually invoked. -/
def workerDrain (sendOk : Bool) (profiles : List StoredProfile)
    (last_sent : List ((String × String) × String)) :
    List QueueEntry → List StoredProfile × List ((String × String) × String) × List String
  | [] => (profiles, last_sent, [])
  | e :: rest =>
      let st := workerStep sendOk profiles last_sent e
      let tail := workerDrain sendOk st.profiles st.last_sent rest
      (tail.1, tail.2.1,
        (if st.attempted then [e.profile_id] else []) ++ tail.2.2)

/-- `NotificationWorker.enqueue` (main.py:1277): one queue entry per
target that is active and fully configured (the bounded-queue overflow
drop is not exercised by these claims). -/
def notifyEnqueue (targets : List NotifyTarget) (message title runner_id pattern : String) :
    List QueueEntry :=
  targets.filterMap (fun t =>
    if t.active = false then none
    else if pyStrip t.user_key = "" ∨ pyStrip t.api_token = "" then none
    else some
      { profile_id := t.profile_id, profile_name := t.profile_name,
        only_updates := t.only_updates, message := message, title := title,
        runner_id := runner_id, pattern := pattern })

/-! ## Document normalisation (`StateStore._merge_defaults`, main.py:896)

The stored JSON document is modelled structurally.  Modelling choices
(each noted where it applies): scalar JSON values are represented
post-`str()`-coercion where Python's coercion is total; fields whose
`int()` coercion can raise are `Option (Option Int)` (outer `none` = key
absent, inner `none` = unparseable); keys unknown to the function are
carried verbatim by the source (`dict(...)` copies) and omitted here; a
non-`dict` list element is `RawEntry.junk` (skipped by every sanitising
loop); non-list values for `runners`/`cases` are outside the model (the
source coerces them to `[]`, and a non-list `runners` under the legacy
migration would crash the loader).

`_new_id` draws `uuid4` hex strings; the model takes a supply
`sup : Nat → String` together with a consumption index.  The source
regenerates in a `while id in seen` loop; the model performs one
regeneration and a ghost flag records that one generated id was valid and
fresh (with `uuid4` this is the overwhelmingly common case, and every
theorem below carries the flag). -/

/-- `dict.fromkeys` de-duplication: keep the first occurrence of each
element, preserving order. -/
def pyDedup : List String → List String
  | [] => []
  | x :: rest => x :: pyDedup (rest.filter (fun y => y ≠ x))
termination_by l => l.length
decreasing_by
  simp_wf
  have h := List.length_filter_le (fun y => !decide (y = x)) rest
  omega

/-- `_sanitize_entity_id` (main.py:74) followed by the caller's
`while id in seen: id = _new_id(...)` duplicate-regeneration loop,
unrolled to one regeneration.  Returns the chosen id, the next supply
index, and the ghost flag: `true` when no regeneration was needed or the
single generated id was valid and fresh. -/
def sanitizeEntityId (sup : Nat → String) (k : Nat) (seen : List String)
    (value : String) : String × Nat × Bool :=
  if validSafeId (pyStrip value) && !(seen.contains (pyStrip value)) then
    (pyStrip value, k, true)
  else
    (sup k, k + 1, validSafeId (sup k) && !(seen.contains (sup k)))

/-- A list element of the raw document: a JSON object or something else
(skipped by the sanitising loops). -/
inductive RawEntry (α : Type)
  | junk
  | entry (a : α)
deriving Repr, DecidableEq

/-- The raw `config` value of a profile. -/
inductive RawConfigVal
  | notDict
  | dict (user_key api_token : Option String)
deriving Repr, DecidableEq

/-- A raw notification profile (`none` = key absent). -/
structure RawProfile where
  id : String
  name : Option String
  ty : Option String
  active : Option Bool
  failure_count : Option (Option Int)
  sent_count : Option (Option Int)
  snoozed_until : Bool
  config : Option RawConfigVal
deriving Repr, DecidableEq

/-- A raw schedule object (only carried through by `_merge_defaults`). -/
structure RawSchedule where
  hours : Int
  minutes : Int
  seconds : Int
deriving Repr, DecidableEq

/-- A raw case rule. -/
structure RawCase where
  id : String
  pattern : Option String
  message_template : Option String
  state : Option String
deriving Repr, DecidableEq

/-- A raw runner. -/
structure RawRunner where
  id : String
  name : Option String
  command : Option String
  logging_enabled : Option Bool
  schedule : Option RawSchedule
  max_runs : Option Int
  alert_cooldown_s : Option (Option Int)
  alert_escalation_s : Option (Option Int)
  failure_pause_threshold : Option (Option Int)
  snoozed_until : Bool
  cases : Option (List (RawEntry RawCase))
  notify_profile_ids : Option (List String)
  notify_profile_updates_only : Option (List String)
deriving Repr, DecidableEq

/-- A raw runner group. -/
structure RawGroup where
  id : String
  name : Option String
  runner_ids : Option (List String)
deriving Repr, DecidableEq

/-- A raw layout item. -/
structure RawLayoutItem where
  ltype : Option String
  lid : Option String
deriving Repr, DecidableEq

/-- The raw document (top-level `none` = key absent or `null`, in which
case `merged.update` keeps the default). -/
structure RawDoc where
  pushover_user_key : Option String
  pushover_api_token : Option String
  notify_profiles : Option (List (RawEntry RawProfile))
  runners : Option (List (RawEntry RawRunner))
  runner_groups : Option (List (RawEntry RawGroup))
  runner_layout : Option (List (RawEntry RawLayoutItem))
deriving Repr, DecidableEq

/-- The two demo runners of `DEFAULT_STATE` (main.py:279). -/
def defaultRunner1 : RawRunner :=
  { id := "runner1", name := some "Passwort-Check-Demo",
    command := some "if [ $((RANDOM % 2)) -eq 0 ]; then\n  echo \"passwort: beispielpasswort\"\nelse\n  echo \"passwort nicht gefunden\"\nfi",
    logging_enabled := some true, schedule := some ⟨0, 0, 0⟩,
    max_runs := some 1, alert_cooldown_s := some (some 300),
    alert_escalation_s := some (some 1800),
    failure_pause_threshold := some (some 5), snoozed_until := false,
    cases := some
      [.entry { id := "case_pw", pattern := some "passwort:\\s*(?P<pw>\\S+)",
                message_template := some "Passwort: \x7bpw\x7d", state := some "" },
       .entry { id := "case_nf", pattern := some "passwort nicht gefunden",
                message_template := some "Passwort nicht gefunden", state := some "" }],
    notify_profile_ids := some [], notify_profile_updates_only := some [] }

/-- Second demo runner of `DEFAULT_STATE`. -/
def defaultRunner2 : RawRunner :=
  { id := "runner_ping_192_168_3_1", name := some "Ping 192.168.3.1 Demo",
    command := some "curl -sS --max-time 2 http://192.168.3.1 >/dev/null && echo OK || echo FAIL",
    logging_enabled := some true, schedule := some ⟨0, 0, 5⟩,
    max_runs := some (-1), alert_cooldown_s := some (some 300),
    alert_escalation_s := some (some 1800),
    failure_pause_threshold := some (some 5), snoozed_until := false,
    cases := some
      [.entry { id := "case_ping_ok", pattern := some "OK",
                message_template := some "192.168.3.1 ist erreichbar", state := some "" },
       .entry { id := "case_ping_fail", pattern := some "FAIL",
                message_template := some "192.168.3.1 ist NICHT erreichbar", state := some "" }],
    notify_profile_ids := some [], notify_profile_updates_only := some [] }

/-- `DEFAULT_STATE` (main.py:279): no profiles, two demo runners, no
groups, a layout listing both runners; no legacy pushover keys. -/
def DEFAULT_STATE : RawDoc :=
  { pushover_user_key := none, pushover_api_token := none,
    notify_profiles := some [],
    runners := some [.entry defaultRunner1, .entry defaultRunner2],
    runner_groups := some [],
    runner_layout := some
      [.entry { ltype := some "runner", lid := some "runner1" },
       .entry { ltype := some "runner", lid := some "runner_ping_192_168_3_1" }] }

/-- `merged = copy(DEFAULT_STATE); merged.update({k: v for k, v in
data.items() if v is not None})` (main.py:898-899). -/
def mergeTop (data : RawDoc) : RawDoc :=
  { pushover_user_key := data.pushover_user_key.or DEFAULT_STATE.pushover_user_key,
    pushover_api_token := data.pushover_api_token.or DEFAULT_STATE.pushover_api_token,
    notify_profiles := data.notify_profiles.or DEFAULT_STATE.notify_profiles,
    runners := data.runners.or DEFAULT_STATE.runners,
    runner_groups := data.runner_groups.or DEFAULT_STATE.runner_groups,
    runner_layout := data.runner_layout.or DEFAULT_STATE.runner_layout }

/-- Python truthiness of an optional string (`None` and `""` are falsy). -/
def truthyStr (v : Option String) : Bool :=
  match v with
  | none => false
  | some s => s ≠ ""

/-- Python truthiness of an optional list (`None` and `[]` are falsy). -/
def truthyList {α : Type} (v : Option (List α)) : Bool :=
  match v with
  | none => false
  | some l => !(l.isEmpty)

/-- The legacy-key migration (main.py:901-916): when a legacy pushover key
is set and no profile exists, create the `notify_default` profile and
assign it to every runner without profile references.  (The source
iterates `merged.get("runners", [])` with `.get` calls, so a non-dict
runner entry would crash here; `junk` entries are left untouched.) -/
def legacyMigration (merged : RawDoc) : RawDoc :=
  if (truthyStr merged.pushover_user_key || truthyStr merged.pushover_api_token) &&
      !(truthyList merged.notify_profiles) then
    let default_profile : RawProfile :=
      { id := "notify_default", name := some "Pushover (Standard)",
        ty := some "pushover", active := none, failure_count := none,
        sent_count := none, snoozed_until := false,
        config := some (.dict (some (merged.pushover_user_key.getD ""))
          (some (merged.pushover_api_token.getD ""))) }
    { merged with
      notify_profiles := some [.entry default_profile],
      runners := some ((merged.runners.getD []).map (fun e =>
        match e with
        | .junk => .junk
        | .entry r =>
            if (r.notify_profile_ids.getD []) = [] then
              .entry { r with notify_profile_ids := some ["notify_default"] }
            else .entry r)) }
  else merged

/-- `max(0, int(x))` with the `except` branch assigning the default
(main.py:982-993; for profiles the default is 0, main.py:939-946). -/
def intField (v : Option (Option Int)) (d : Int) : Int :=
  match v with
  | some (some n) => max 0 n
  | some none => d
  | none => max 0 d

/-- Sanitise one profile dict under its (already chosen) id
(main.py:931-953). -/
def saneProfile (npid : String) (np : RawProfile) : RawProfile :=
  { id := npid,
    name := some (np.name.getD "Pushover"),
    ty := some "pushover",
    active := some (np.active.getD true),
    failure_count := some (some (intField np.failure_count 0)),
    sent_count := some (some (intField np.sent_count 0)),
    snoozed_until := false,
    config := some
      (match np.config with
       | some (.dict u t) => .dict (some (u.getD "")) (some (t.getD ""))
       | _ => .dict (some "") (some "")) }

/-- The profile-sanitising loop (main.py:921-953): skip non-dicts, choose
a unique id, normalise fields.  Returns the sane profiles, the next
supply index, and the accumulated ghost generation flag. -/
def saneProfilesLoop (sup : Nat → String) :
    Nat → List String → List (RawEntry RawProfile) →
      List RawProfile × Nat × Bool
  | k, _, [] => ([], k, true)
  | k, seen, .junk :: rest => saneProfilesLoop sup k seen rest
  | k, seen, .entry np :: rest =>
      let pick := sanitizeEntityId sup k seen np.id
      let tail := saneProfilesLoop sup pick.2.1 (pick.1 :: seen) rest
      (saneProfile pick.1 np :: tail.1, tail.2.1, pick.2.2 && tail.2.2)

/-- Sanitise one case dict under its chosen id (main.py:1018-1024). -/
def saneCase (cid : String) (c : RawCase) : RawCase :=
  { id := cid,
    pattern := some (c.pattern.getD ""),
    message_template := some (c.message_template.getD ""),
    state := some (normalize_case_state (c.state.getD "")) }

/-- The per-runner case-sanitising loop (main.py:1009-1024). -/
def saneCasesLoop (sup : Nat → String) :
    Nat → List String → List (RawEntry RawCase) → List RawCase × Nat × Bool
  | k, _, [] => ([], k, true)
  | k, seen, .junk :: rest => saneCasesLoop sup k seen rest
  | k, seen, .entry c :: rest =>
      let pick := sanitizeEntityId sup k seen c.id
      let tail := saneCasesLoop sup pick.2.1 (pick.1 :: seen) rest
      (saneCase pick.1 c :: tail.1, tail.2.1, pick.2.2 && tail.2.2)

/-- Sanitise one runner dict under its chosen id (main.py:969-1026):
fill defaults, clamp the numeric fields, strip-and-filter the profile
reference lists, sanitise the cases. -/
def saneRunner (sup : Nat → String) (k : Nat) (rid : String) (r : RawRunner) :
    RawRunner × Nat × Bool :=
  let casesRes := saneCasesLoop sup k [] (r.cases.getD [])
  ({ id := rid,
     name := some (r.name.getD "Runner"),
     command := some (r.command.getD ""),
     logging_enabled := some (r.logging_enabled.getD true),
     schedule := some (r.schedule.getD ⟨0, 0, 0⟩),
     max_runs := some (r.max_runs.getD 1),
     alert_cooldown_s := some (some (intField r.alert_cooldown_s 300)),
     alert_escalation_s := some (some (intField r.alert_escalation_s 1800)),
     failure_pause_threshold := some (some (intField r.failure_pause_threshold 5)),
     snoozed_until := false,
     cases := some (casesRes.1.map .entry),
     notify_profile_ids := some
       ((r.notify_profile_ids.getD []).filterMap (fun v =>
         let s := pyStrip v
         if validSafeId s then some s else none)),
     notify_profile_updates_only := some
       ((r.notify_profile_updates_only.getD []).filterMap (fun v =>
         let s := pyStrip v
         if validSafeId s then some s else none)) },
   casesRes.2.1, casesRes.2.2)

/-- The runner-sanitising loop (main.py:961-1026). -/
def saneRunnersLoop (sup : Nat → String) :
    Nat → List String → List (RawEntry RawRunner) →
      List RawRunner × Nat × Bool
  | k, _, [] => ([], k, true)
  | k, seen, .junk :: rest => saneRunnersLoop sup k seen rest
  | k, seen, .entry r :: rest =>
      let pick := sanitizeEntityId sup k seen r.id
      let sane := saneRunner sup pick.2.1 pick.1 r
      let tail := saneRunnersLoop sup sane.2.1 (pick.1 :: seen) rest
      (sane.1 :: tail.1, tail.2.1, pick.2.2 && sane.2.2 && tail.2.2)

/-- The profile-reference post-filter (main.py:1028-1035): de-duplicate
and keep only references to existing profiles; `updates_only` must also
be referenced. -/
def filterRunnerRefs (valid_notify_ids : List String) (r : RawRunner) : RawRunner :=
  let ids := (pyDedup (r.notify_profile_ids.getD [])).filter
    (fun pid => valid_notify_ids.contains pid)
  { r with
    notify_profile_ids := some ids,
    notify_profile_updates_only := some
      ((pyDedup (r.notify_profile_updates_only.getD [])).filter
        (fun pid => ids.contains pid)) }

/-- The inner member-id loop of the group sanitiser (main.py:1054-1066):
keep ids that are valid, refer to an existing runner, are not yet
assigned to any group, and are not yet in this group.  Returns the kept
ids and the updated global `assigned` set. -/
def groupRunnerIdsLoop (validRunnerIds : List String) :
    List String → List String → List String → List String × List String
  | assigned, acc, [] => (acc.reverse, assigned)
  | assigned, acc, raw :: rest =>
      let rid := pyStrip raw
      if validSafeId rid = false then
        groupRunnerIdsLoop validRunnerIds assigned acc rest
      else if validRunnerIds.contains rid = false then
        groupRunnerIdsLoop validRunnerIds assigned acc rest
      else if assigned.contains rid then
        groupRunnerIdsLoop validRunnerIds assigned acc rest
      else if acc.contains rid then
        groupRunnerIdsLoop validRunnerIds assigned acc rest
      else
        groupRunnerIdsLoop validRunnerIds (rid :: assigned) (rid :: acc) rest

/-- The group-sanitising loop (main.py:1046-1074): choose a unique group
id, keep the filtered member list, rebuild the group dict with exactly
`id`, `name`, `runner_ids`. -/
def saneGroupsLoop (sup : Nat → String) (validRunnerIds : List String) :
    Nat → List String → List String → List (RawEntry RawGroup) →
      List RawGroup × List String × Nat × Bool
  | k, _, assigned, [] => ([], assigned, k, true)
  | k, seenG, assigned, .junk :: rest =>
      saneGroupsLoop sup validRunnerIds k seenG assigned rest
  | k, seenG, assigned, .entry g :: rest =>
      let pick := sanitizeEntityId sup k seenG g.id
      let mems := groupRunnerIdsLoop validRunnerIds assigned [] (g.runner_ids.getD [])
      let name0 := g.name.getD "Group"
      let sane : RawGroup :=
        { id := pick.1,
          name := some (if name0 = "" then "Group" else name0),
          runner_ids := some mems.1 }
      let tail := saneGroupsLoop sup validRunnerIds pick.2.1 (pick.1 :: seenG) mems.2 rest
      (sane :: tail.1, tail.2.1, tail.2.2.1, pick.2.2 && tail.2.2.2)

/-- The layout-sanitising loop (main.py:1087-1108): keep `runner` items
that refer to an existing, ungrouped, not-yet-seen runner and `group`
items that refer to an existing, not-yet-seen group. -/
def saneLayoutLoop (validRunnerIds validGroupIds groupedIds : List String) :
    List String → List String → List (RawEntry RawLayoutItem) →
      List RawLayoutItem × List String × List String
  | seenR, seenG, [] => ([], seenR, seenG)
  | seenR, seenG, .junk :: rest =>
      saneLayoutLoop validRunnerIds validGroupIds groupedIds seenR seenG rest
  | seenR, seenG, .entry item :: rest =>
      let t := pyLower (pyStrip (item.ltype.getD ""))
      let i := pyStrip (item.lid.getD "")
      if t = "runner" then
        if validRunnerIds.contains i = false ∨ groupedIds.contains i ∨
            seenR.contains i then
          saneLayoutLoop validRunnerIds validGroupIds groupedIds seenR seenG rest
        else
          let tail := saneLayoutLoop validRunnerIds validGroupIds groupedIds
            (i :: seenR) seenG rest
          (({ ltype := some "runner", lid := some i } : RawLayoutItem) :: tail.1,
            tail.2.1, tail.2.2)
      else if t = "group" then
        if validGroupIds.contains i = false ∨ seenG.contains i then
          saneLayoutLoop validRunnerIds validGroupIds groupedIds seenR seenG rest
        else
          let tail := saneLayoutLoop validRunnerIds validGroupIds groupedIds
            seenR (i :: seenG) rest
          (({ ltype := some "group", lid := some i } : RawLayoutItem) :: tail.1,
            tail.2.1, tail.2.2)
      else
        saneLayoutLoop validRunnerIds validGroupIds groupedIds seenR seenG rest

/-- The layout extension (main.py:1110-1122): append every ungrouped,
not-yet-laid-out runner (in runner order), then every not-yet-laid-out
group. -/
def extendLayout (groupedIds : List String) (runnerIds groupIds : List String)
    (seenR seenG : List String) : List RawLayoutItem :=
  (runnerIds.filterMap (fun rid =>
    if groupedIds.contains rid ∨ seenR.contains rid then none
    else some ({ ltype := some "runner", lid := some rid } : RawLayoutItem))) ++
  (groupIds.filterMap (fun gid =>
    if seenG.contains gid then none
    else some ({ ltype := some "group", lid := some gid } : RawLayoutItem)))

/-- Runner ids already used by the sane layout's runner items, in order
(the `seen_layout_runners` set after the main loop): used to keep the
extension faithful. -/
def mergeDefaultsAux (sup : Nat → String) (k : Nat) (data : RawDoc) :
    RawDoc × Nat × Bool :=
  let merged := legacyMigration (mergeTop data)
  let profRes := saneProfilesLoop sup k [] (merged.notify_profiles.getD [])
  let runRes := saneRunnersLoop sup profRes.2.1 [] (merged.runners.getD [])
  let sane_profiles := profRes.1
  let valid_notify_ids := (sane_profiles.map (fun p => p.id)).filter validSafeId
  let sane_runners := runRes.1.map (filterRunnerRefs valid_notify_ids)
  let valid_runner_ids := sane_runners.map (fun r => r.id)
  let grpRes := saneGroupsLoop sup valid_runner_ids runRes.2.1 [] []
    (merged.runner_groups.getD [])
  let sane_groups := grpRes.1
  let grouped_ids := (sane_groups.map (fun g => g.runner_ids.getD [])).flatten
  let valid_group_ids := sane_groups.map (fun g => g.id)
  let layoutRes := saneLayoutLoop valid_runner_ids valid_group_ids grouped_ids
    [] [] (merged.runner_layout.getD [])
  let sane_layout := layoutRes.1 ++
    extendLayout grouped_ids valid_runner_ids valid_group_ids
      layoutRes.2.1 layoutRes.2.2
  ({ pushover_user_key := merged.pushover_user_key,
     pushover_api_token := merged.pushover_api_token,
     notify_profiles := some (sane_profiles.map .entry),
     runners := some (sane_runners.map .entry),
     runner_groups := some (sane_groups.map .entry),
     runner_layout := some (sane_layout.map .entry) },
   grpRes.2.2.1, profRes.2.2 && runRes.2.2 && grpRes.2.2.2)

/-- `StateStore._merge_defaults`. -/
def merge_defaults (sup : Nat → String) (k : Nat) (data : RawDoc) : RawDoc :=
  (mergeDefaultsAux sup k data).1

/-- Ghost flag: every id generated while normalising `data` was valid and
fresh on the first draw. -/
def mergeGenOk (sup : Nat → String) (k : Nat) (data : RawDoc) : Bool :=
  (mergeDefaultsAux sup k data).2.2

/-! ### Normal forms of the stored document

The predicates below characterise the output of `_merge_defaults`; they
are what the idempotence argument rests on. -/

/-- The migration guard of main.py:902, as the source tests it. -/
def migrationFires (d : RawDoc) : Bool :=
  (truthyStr d.pushover_user_key || truthyStr d.pushover_api_token) &&
    !(truthyList d.notify_profiles)

/-- A profile as the sanitising loop leaves it. -/
def NormProfile (p : RawProfile) : Prop :=
  validSafeId p.id = true ∧
  (∃ n, p.name = some n) ∧ p.ty = some "pushover" ∧
  (∃ b, p.active = some b) ∧
  (∃ m, p.failure_count = some (some m) ∧ 0 ≤ m) ∧
  (∃ m, p.sent_count = some (some m) ∧ 0 ≤ m) ∧
  p.snoozed_until = false ∧
  (∃ u t, p.config = some (.dict (some u) (some t)))

/-- A case rule as the sanitising loop leaves it. -/
def NormCase (c : RawCase) : Prop :=
  validSafeId c.id = true ∧
  (∃ s, c.pattern = some s) ∧ (∃ s, c.message_template = some s) ∧
  (∃ s, c.state = some s ∧ normalize_case_state s = s)

/-- A runner as the sanitising loop and the reference post-filter leave
it, relative to the sane profile ids. -/
def NormRunner (profIds : List String) (r : RawRunner) : Prop :=
  validSafeId r.id = true ∧
  (∃ n, r.name = some n) ∧ (∃ s, r.command = some s) ∧
  (∃ b, r.logging_enabled = some b) ∧ (∃ sc, r.schedule = some sc) ∧
  (∃ m, r.max_runs = some m) ∧
  (∃ m, r.alert_cooldown_s = some (some m) ∧ 0 ≤ m) ∧
  (∃ m, r.alert_escalation_s = some (some m) ∧ 0 ≤ m) ∧
  (∃ m, r.failure_pause_threshold = some (some m) ∧ 0 ≤ m) ∧
  r.snoozed_until = false ∧
  (∃ cl : List RawCase, r.cases = some (cl.map .entry) ∧
    (∀ c ∈ cl, NormCase c) ∧ (cl.map (fun c => c.id)).Nodup) ∧
  (∃ ids : List String, r.notify_profile_ids = some ids ∧
    (∀ i ∈ ids, validSafeId i = true ∧ i ∈ profIds) ∧ ids.Nodup ∧
    (∃ upd : List String, r.notify_profile_updates_only = some upd ∧
      (∀ i ∈ upd, validSafeId i = true ∧ i ∈ ids) ∧ upd.Nodup))

/-- A runner as the sanitising loop alone leaves it (before the
profile-reference post-filter): like `NormRunner` but with the reference
lists only element-wise valid. -/
def PreNormRunner (r : RawRunner) : Prop :=
  validSafeId r.id = true ∧
  (∃ n, r.name = some n) ∧ (∃ s, r.command = some s) ∧
  (∃ b, r.logging_enabled = some b) ∧ (∃ sc, r.schedule = some sc) ∧
  (∃ m, r.max_runs = some m) ∧
  (∃ m, r.alert_cooldown_s = some (some m) ∧ 0 ≤ m) ∧
  (∃ m, r.alert_escalation_s = some (some m) ∧ 0 ≤ m) ∧
  (∃ m, r.failure_pause_threshold = some (some m) ∧ 0 ≤ m) ∧
  r.snoozed_until = false ∧
  (∃ cl : List RawCase, r.cases = some (cl.map .entry) ∧
    (∀ c ∈ cl, NormCase c) ∧ (cl.map (fun c => c.id)).Nodup) ∧
  (∃ ids : List String, r.notify_profile_ids = some ids ∧
    (∀ i ∈ ids, validSafeId i = true)) ∧
  (∃ upd : List String, r.notify_profile_updates_only = some upd ∧
    (∀ i ∈ upd, validSafeId i = true))

/-- A group as the sanitising loop leaves it, relative to the sane
runner ids. -/
def NormGroup (runnerIds : List String) (g : RawGroup) : Prop :=
  validSafeId g.id = true ∧
  (∃ n, g.name = some n ∧ n ≠ "") ∧
  (∃ mems : List String, g.runner_ids = some mems ∧
    (∀ i ∈ mems, validSafeId i = true ∧ i ∈ runnerIds) ∧ mems.Nodup)

/-- The runner ids referenced by a group list. -/
def groupsMemberIds (gl : List RawGroup) : List String :=
  (gl.map (fun g => g.runner_ids.getD [])).flatten

/-- The ids of a layout's runner items, in order. -/
def runnerItemIds (ll : List RawLayoutItem) : List String :=
  ll.filterMap (fun it =>
    if it.ltype = some "runner" then it.lid else none)

/-- The ids of a layout's group items, in order. -/
def groupItemIds (ll : List RawLayoutItem) : List String :=
  ll.filterMap (fun it =>
    if it.ltype = some "group" then it.lid else none)

/-- A layout as the sanitising loop plus the extension leave it: every
item refers to an existing ungrouped runner or an existing group, no
duplicates, and every ungrouped runner and every group is covered. -/
def NormLayout (runnerIds groupIds groupedIds : List String)
    (ll : List RawLayoutItem) : Prop :=
  (∀ item ∈ ll,
    (item.ltype = some "runner" ∧ ∃ i, item.lid = some i ∧
      validSafeId i = true ∧ i ∈ runnerIds ∧ i ∉ groupedIds) ∨
    (item.ltype = some "group" ∧ ∃ i, item.lid = some i ∧
      validSafeId i = true ∧ i ∈ groupIds)) ∧
  (runnerItemIds ll).Nodup ∧ (groupItemIds ll).Nodup ∧
  (∀ r ∈ runnerIds, r ∉ groupedIds → r ∈ runnerItemIds ll) ∧
  (∀ g ∈ groupIds, g ∈ groupItemIds ll)

/-- The whole document in normal form: every top-level key present, every
list free of junk entries, every section in its loop's normal form, the
group member lists pairwise disjoint, and the layout covering exactly the
ungrouped runners and the groups. -/
def NormDoc (y : RawDoc) : Prop :=
  ∃ (pl : List RawProfile) (rl : List RawRunner) (gl : List RawGroup)
    (ll : List RawLayoutItem),
    y.notify_profiles = some (pl.map .entry) ∧
    y.runners = some (rl.map .entry) ∧
    y.runner_groups = some (gl.map .entry) ∧
    y.runner_layout = some (ll.map .entry) ∧
    (∀ p ∈ pl, NormProfile p) ∧ (pl.map (fun p => p.id)).Nodup ∧
    (∀ r ∈ rl, NormRunner (pl.map (fun p => p.id)) r) ∧
    (rl.map (fun r => r.id)).Nodup ∧
    (∀ g ∈ gl, NormGroup (rl.map (fun r => r.id)) g) ∧
    (gl.map (fun g => g.id)).Nodup ∧
    List.Pairwise (fun g1 g2 =>
      ∀ x ∈ g1.runner_ids.getD [], x ∉ g2.runner_ids.getD []) gl ∧
    NormLayout (rl.map (fun r => r.id)) (gl.map (fun g => g.id))
      (groupsMemberIds gl) ll

/-- A supply of generated ids for concrete checks. -/
def c7Sup : Nat → String := fun n => "gen" ++ toString n

/-- A stored document carrying a legacy pushover key next to a profile
list whose only entry is not an object: normalisation drops the entry,
leaving the legacy key with an empty profile list, and a second
normalisation re-runs the one-shot migration. -/
def c7LegacyDoc : RawDoc :=
  { pushover_user_key := some "k", pushover_api_token := none,
    notify_profiles := some [.junk], runners := some [],
    runner_groups := some [], runner_layout := some [] }

/-- The per-case outcome of the compilation loop, as a single function:
`none` when the case is the sentinel (both fields empty after trimming),
disabled (exactly one empty), or its pattern does not compile. -/
def compileCaseFn {Rx : Type} (rxCompile : String → Except String Rx)
    (c : CaseRule) : Option (CompiledCase Rx) :=
  let pattern := pyStrip c.pattern
  let tmpl := pyStrip c.message_template
  if pattern = "" ∧ tmpl = "" then none
  else if pattern = "" ∨ tmpl = "" then none
  else
    match rxCompile pattern with
    | .error _ => none
    | .ok rx =>
        some { pattern := pattern, regex := rx, message_template := tmpl,
               state := normalize_case_state c.state }

/-- The per-case `case_error` emission of the compilation loop: exactly
the enabled cases whose pattern fails to compile produce one event. -/
def compileErrFn {Rx : Type} (rxCompile : String → Except String Rx)
    (runner_id : String) (c : CaseRule) : Option CaseErrorEvent :=
  let pattern := pyStrip c.pattern
  let tmpl := pyStrip c.message_template
  if pattern = "" ∧ tmpl = "" then none
  else if pattern = "" ∨ tmpl = "" then none
  else
    match rxCompile pattern with
    | .error e =>
        some { runner_id := runner_id, pattern := pattern,
               error := "Invalid regex: " ++ e }
    | .ok _ => none

/-- A regex compiler for concrete checks: `[` fails, everything else
compiles (to the trivial compiled-regex type). -/
def c8Rx : String → Except String Unit := fun s =>
  if s = "[" then .error "unbalanced bracket" else .ok ()

/-- A concrete runner for checking the compilation contract: one enabled
case, one disabled (half-empty) case, one sentinel case, one enabled case
with an invalid pattern; `max_runs` out of range. -/
def c8Runner : RunnerConfig :=
  { id := "r1", name := "Runner 1", command := "echo OK",
    logging_enabled := true, schedule := ⟨0, 0, 7⟩, max_runs := 500,
    alert_cooldown_s := 60, alert_escalation_s := 300,
    failure_pause_threshold := 3,
    cases :=
      [{ id := "c1", pattern := "OK", message_template := "up", state := "up" },
       { id := "c2", pattern := "", message_template := "half", state := "" },
       { id := "c3", pattern := " ", message_template := "", state := "" },
       { id := "c4", pattern := "[", message_template := "bad", state := "" }],
    notify_profile_ids := ["p1"], notify_profile_updates_only := [] }

/-- A concrete app state for the compilation checks. -/
def c8State : AppState :=
  { notify_profiles :=
      [{ id := "p1", name := "Push", ty := "pushover", active := true,
         config_user_key := "u", config_api_token := "t" }],
    runners := [c8Runner] }

/-! # Theorems -/

/-! ## C2: template rendering -/

/-- C2 counterexample: rendering `\x7bg1\x7d/\x7bname\x7d` against the match of
`(?P<name>\w+)-(\w+)` on `a-b` yields `a/a`, not `b/a` as claimed: the
named group `name` *is* group 1 (Python numbers named groups), so `g1`
substitutes `a`. -/
theorem c2_render_counterexample :
    render_template_message "\x7bg1\x7d/\x7bname\x7d" c2Match = "a/a" ∧
    render_template_message "\x7bg1\x7d/\x7bname\x7d" c2Match ≠ "b/a" := by
  have h1 : ("g" ++ toString (1 : Nat)) = "g1" := rfl
  have h2 : ("g" ++ toString (2 : Nat)) = "g2" := rfl
  constructor <;>
    simp [render_template_message, renderMapping, c2Match, updateAssoc,
      formatMap, formatField, lookupField, fmtVal, h1, h2]

/-- C2 (amended): rendering `\x7bg1\x7d/\x7bname\x7d` against the match of
`(?P<name>\w+)-(\w+)` on `a-b` yields `a/a`; `\x7bmatch\x7d` substitutes the
whole match, `\x7bg1..gn\x7d` the numbered groups (a named group counts in
the numbering), named groups substitute by name, and a missing
placeholder falls back to the raw template. -/
theorem c2_render_amended :
    render_template_message "\x7bg1\x7d/\x7bname\x7d" c2Match = "a/a" ∧
    render_template_message "\x7bmatch\x7d" c2Match = "a-b" ∧
    render_template_message "\x7bg1\x7d" c2Match = "a" ∧
    render_template_message "\x7bg2\x7d" c2Match = "b" ∧
    render_template_message "\x7bname\x7d" c2Match = "a" ∧
    render_template_message "\x7bmissing\x7d" c2Match = "\x7bmissing\x7d" := by
  have h1 : ("g" ++ toString (1 : Nat)) = "g1" := rfl
  have h2 : ("g" ++ toString (2 : Nat)) = "g2" := rfl
  refine ⟨?_, ?_, ?_, ?_, ?_, ?_⟩ <;>
    simp [render_template_message, renderMapping, c2Match, updateAssoc,
      formatMap, formatField, lookupField, fmtVal, h1, h2]

/-! ## C3: stateful alert resolver -/

/-- C3: the stateful alert resolver: an empty case state returns the
message unchanged without touching the slot; a state change updates the
slot and returns `RECOVERY:` + message exactly for DOWN/WARN → UP; an
unchanged UP/INFO state is suppressed; an unchanged DOWN/WARN state is
suppressed within the cooldown, escalates (updating the timestamp) when
the escalation window is zero or elapsed, and is suppressed otherwise;
and the concrete chain DOWN, DOWN at +30, DOWN at +400, UP with
cooldown 60 and escalation 300 emits `m`, nothing,
`ESCALATION (DOWN): m`, `RECOVERY: m`. -/
theorem c3_alert_resolver :
    (∀ (cfg : AlertCfg) (st : AlertSt) (now : Int) (cs msg : String),
      normalize_case_state cs = "" →
      resolve_stateful_notification cfg st now cs msg = (st, some msg)) ∧
    (∀ (cfg : AlertCfg) (st : AlertSt) (now : Int) (cs msg : String),
      normalize_case_state cs ≠ "" →
      normalize_case_state cs ≠ st.alert_state →
      resolve_stateful_notification cfg st now cs msg =
        (⟨normalize_case_state cs, now⟩,
          some (if (st.alert_state = "DOWN" ∨ st.alert_state = "WARN") ∧
              normalize_case_state cs = "UP"
            then "RECOVERY: " ++ msg else msg))) ∧
    (∀ (cfg : AlertCfg) (st : AlertSt) (now : Int) (cs msg : String),
      normalize_case_state cs = st.alert_state →
      (st.alert_state = "UP" ∨ st.alert_state = "INFO") →
      resolve_stateful_notification cfg st now cs msg = (st, none)) ∧
    (∀ (cfg : AlertCfg) (st : AlertSt) (now : Int) (cs msg : String),
      normalize_case_state cs = st.alert_state →
      (st.alert_state = "DOWN" ∨ st.alert_state = "WARN") →
      (now - st.last_alert_notify_ts < max 0 cfg.alert_cooldown_s →
        resolve_stateful_notification cfg st now cs msg = (st, none)) ∧
      (max 0 cfg.alert_cooldown_s ≤ now - st.last_alert_notify_ts →
        (max 0 cfg.alert_escalation_s = 0 ∨
          max 0 cfg.alert_escalation_s ≤ now - st.last_alert_notify_ts) →
        resolve_stateful_notification cfg st now cs msg =
          (⟨st.alert_state, now⟩,
            some ("ESCALATION (" ++ st.alert_state ++ "): " ++ msg))) ∧
      (max 0 cfg.alert_cooldown_s ≤ now - st.last_alert_notify_ts →
        0 < max 0 cfg.alert_escalation_s →
        now - st.last_alert_notify_ts < max 0 cfg.alert_escalation_s →
        resolve_stateful_notification cfg st now cs msg = (st, none))) ∧
    resolveChain ⟨60, 300⟩ "m" ⟨"", 0⟩
        [(0, "DOWN"), (30, "DOWN"), (400, "DOWN"), (500, "UP")] =
      [some "m", none, some "ESCALATION (DOWN): m", some "RECOVERY: m"] := by
  refine ⟨?_, ?_, ?_, ?_, by decide⟩
  · intro cfg st now cs msg h
    simp [resolve_stateful_notification, h]
  · intro cfg st now cs msg h hne
    simp only [resolve_stateful_notification]
    rw [if_neg h, if_pos hne]
    split <;> rename_i hrec
    · rfl
    · rfl
  · intro cfg st now cs msg heq hui
    have hne : ¬ normalize_case_state cs = "" := by
      rcases hui with h | h <;> simp [heq, h]
    simp only [resolve_stateful_notification]
    rw [if_neg hne, if_neg (by simp [heq])]
    have : ¬ (normalize_case_state cs = "DOWN" ∨ normalize_case_state cs = "WARN") := by
      rcases hui with h | h <;> simp [heq, h]
    rw [if_neg this]
  · intro cfg st now cs msg heq hdw
    have hne : ¬ normalize_case_state cs = "" := by
      rcases hdw with h | h <;> simp [heq, h]
    have hdw' : normalize_case_state cs = "DOWN" ∨ normalize_case_state cs = "WARN" := by
      rcases hdw with h | h <;> simp [heq, h]
    refine ⟨?_, ?_, ?_⟩
    · intro hcool
      simp only [resolve_stateful_notification]
      rw [if_neg hne, if_neg (by simp [heq]), if_pos hdw', if_pos hcool]
    · intro hcool hesc
      simp only [resolve_stateful_notification]
      rw [if_neg hne, if_neg (by simp [heq]), if_pos hdw',
        if_neg (by omega), if_pos (by omega), heq]
    · intro hcool hesc0 hesc
      simp only [resolve_stateful_notification]
      rw [if_neg hne, if_neg (by simp [heq]), if_pos hdw',
        if_neg (by omega), if_neg (by omega)]

/-- C3 witness: the universally quantified branches of `c3_alert_resolver`
instantiated at concrete inputs. -/
theorem c3_alert_resolver_witness :
    resolve_stateful_notification ⟨60, 300⟩ ⟨"", 0⟩ 5 "" "m" = (⟨"", 0⟩, some "m") ∧
    resolve_stateful_notification ⟨60, 300⟩ ⟨"", 0⟩ 5 "down" "m" =
      (⟨"DOWN", 5⟩, some "m") ∧
    resolve_stateful_notification ⟨60, 300⟩ ⟨"UP", 0⟩ 5 "UP" "m" = (⟨"UP", 0⟩, none) ∧
    resolve_stateful_notification ⟨60, 300⟩ ⟨"DOWN", 0⟩ 30 "DOWN" "m" =
      (⟨"DOWN", 0⟩, none) := by
  refine ⟨c3_alert_resolver.1 ⟨60, 300⟩ ⟨"", 0⟩ 5 "" "m" (by decide), ?_, ?_, ?_⟩
  · have h := c3_alert_resolver.2.1 ⟨60, 300⟩ ⟨"", 0⟩ 5 "down" "m"
      (by decide) (by decide)
    rw [h]
    decide
  · exact c3_alert_resolver.2.2.1 ⟨60, 300⟩ ⟨"UP", 0⟩ 5 "UP" "m" (by decide) (by decide)
  · exact (c3_alert_resolver.2.2.2.1 ⟨60, 300⟩ ⟨"DOWN", 0⟩ 30 "DOWN" "m"
      (by decide) (by decide)).1 (by decide)

/-! ## C6: delivery counters and auto-disable -/

/-- Helper: updating the found profile in place is visible through
`find?`. -/
theorem find_update_eq {profiles : List StoredProfile} {pid : String}
    {p q : StoredProfile} (hfind : profiles.find? (fun r => r.id = pid) = some p)
    (hid : q.id = pid) :
    (profiles.map (fun r => if r.id = pid then q else r)).find?
        (fun r => r.id = pid) = some q := by
  induction profiles with
  | nil => simp at hfind
  | cons a rest ih =>
      by_cases ha : a.id = pid
      · simp [List.find?_cons_of_pos, ha, hid]
      · rw [List.find?_cons_of_neg _ (by simp [ha])] at hfind
        simpa [ha, List.find?_cons_of_neg, hid] using ih hfind

/-- C6: recording a delivery result against an existing profile: success
increments `sent_count` and resets `failure_count`; failure increments
`failure_count` and, exactly when the profile was active and the new
count has reached 3, clears `active` in the same stored update, reporting
`auto_disabled` on that edge. -/
theorem c6_delivery_result (profiles : List StoredProfile) (pid : String)
    (p : StoredProfile)
    (hfind : profiles.find? (fun r => r.id = pid) = some p)
    (hfc : 0 ≤ p.failure_count) (hsc : 0 ≤ p.sent_count) :
    ((record_notify_delivery_result profiles pid true 3).2.found = true ∧
     (record_notify_delivery_result profiles pid true 3).2.sent_count =
       p.sent_count + 1 ∧
     (record_notify_delivery_result profiles pid true 3).2.failure_count = 0 ∧
     (record_notify_delivery_result profiles pid true 3).2.active = p.active ∧
     (record_notify_delivery_result profiles pid true 3).2.auto_disabled = false ∧
     (record_notify_delivery_result profiles pid true 3).1.find?
         (fun q => q.id = pid) =
       some { p with sent_count := p.sent_count + 1, failure_count := 0 }) ∧
    ((record_notify_delivery_result profiles pid false 3).2.found = true ∧
     (record_notify_delivery_result profiles pid false 3).2.failure_count =
       p.failure_count + 1 ∧
     (record_notify_delivery_result profiles pid false 3).2.sent_count =
       p.sent_count ∧
     ((record_notify_delivery_result profiles pid false 3).2.auto_disabled = true ↔
       (p.active = true ∧ 3 ≤ p.failure_count + 1)) ∧
     (record_notify_delivery_result profiles pid false 3).2.active =
       (p.active && decide (p.failure_count + 1 < 3)) ∧
     (record_notify_delivery_result profiles pid false 3).1.find?
         (fun q => q.id = pid) =
       some { p with failure_count := p.failure_count + 1,
                     active := p.active && decide (p.failure_count + 1 < 3) }) := by
  have hpid : p.id = pid := by
    have h := List.find?_some hfind
    simpa using h
  have hm1 : max (0 : Int) p.failure_count = p.failure_count := max_eq_right hfc
  have hm2 : max (0 : Int) p.sent_count = p.sent_count := max_eq_right hsc
  have hm3 : max (1 : Int) 3 = 3 := by norm_num
  constructor
  · simp only [record_notify_delivery_result, hfind, recordDeliveryOnProfile,
      hm1, hm2, if_pos rfl]
    refine ⟨by simp, by simp, by simp, by simp, by simp, ?_⟩
    exact find_update_eq hfind (by simpa using hpid)
  · simp only [record_notify_delivery_result, hfind, recordDeliveryOnProfile,
      hm1, hm2, hm3]
    by_cases hcond : p.active = true ∧ 3 ≤ p.failure_count + 1
    · have hlt : ¬ (p.failure_count + 1 < 3) := by omega
      simp only [if_neg (by simp : ¬ (false = true)), if_pos hcond]
      refine ⟨by simp, by simp, by simp, by simp [hcond], ?_, ?_⟩
      · simp [hlt]
      · have hfalse : (p.active && decide (p.failure_count + 1 < 3)) = false := by
          simp [hlt]
        rw [hfalse]
        exact find_update_eq hfind (by simpa using hpid)
    · simp only [if_neg (by simp : ¬ (false = true)), if_neg hcond]
      have hact : (p.active && decide (p.failure_count + 1 < 3)) = p.active := by
        by_cases h : p.active = true
        · have hlt : p.failure_count + 1 < 3 := by
            by_contra hge
            exact hcond ⟨h, by omega⟩
          simp [h, hlt]
        · have hf : p.active = false := by
            cases hb : p.active
            · rfl
            · exact absurd hb h
          simp [hf]
      refine ⟨by simp, by simp, by simp, by simp [hcond], ?_, ?_⟩
      · rw [hact]
      · rw [hact]
        exact find_update_eq hfind (by simpa using hpid)

/-- C6 witness: `c6_delivery_result` at a concrete one-profile store. -/
theorem c6_delivery_result_witness :
    ((record_notify_delivery_result
        [{ id := "p1", name := "P", ty := "pushover", active := true,
           failure_count := 2, sent_count := 7, user_key := "u",
           api_token := "t" }] "p1" true 3).2.sent_count = 8) ∧
    ((record_notify_delivery_result
        [{ id := "p1", name := "P", ty := "pushover", active := true,
           failure_count := 2, sent_count := 7, user_key := "u",
           api_token := "t" }] "p1" false 3).2.auto_disabled = true) := by
  have h := c6_delivery_result
    [{ id := "p1", name := "P", ty := "pushover", active := true,
       failure_count := 2, sent_count := 7, user_key := "u", api_token := "t" }]
    "p1"
    { id := "p1", name := "P", ty := "pushover", active := true,
      failure_count := 2, sent_count := 7, user_key := "u", api_token := "t" }
    (by decide) (by decide) (by decide)
  refine ⟨?_, ?_⟩
  · rw [h.1.2.1]
    norm_num
  · exact h.2.2.2.2.1.mpr ⟨rfl, by norm_num⟩

/-! ## C1: group failure propagation -/

/-- A member outcome that does not end the group: a terminal snapshot that
is neither paused nor stopped nor a non-zero exit. -/
def memberOk (m : String × MemberResult) : Prop :=
  ∃ p s c, m.2 = MemberResult.terminal p s c ∧ memberFailed p s c = false

/-- Helper: the last `group_status` event when every member before the
failing one succeeds: the loop passes the prefix, then ends in `error`
carrying `completed_count = current_index =` the failing member's index
(which was assigned to `completed_count` before the failure test). -/
theorem runGroupAux_final_error (pre : List (String × MemberResult))
    (post : List (String × MemberResult)) (rid : String) (p st : Bool)
    (code : Int) (hok : ∀ m ∈ pre, memberOk m) (hcode : code ≠ 0) :
    ∀ (idx : Int) (completed : Int) (d : GroupEvt),
      (runGroupAux idx completed
          (pre ++ (rid, MemberResult.terminal p st (some code)) :: post)).getLastD d =
        { status := "error", current_runner_id := rid,
          current_index := idx + pre.length, completed_count := idx + pre.length } := by
  induction pre with
  | nil =>
      intro idx completed d
      have hfail : memberFailed p st (some code) = true := by
        simp [memberFailed, hcode]
      simp [runGroupAux, hfail]
  | cons m rest ih =>
      intro idx completed d
      obtain ⟨p0, s0, c0, hm, hfail⟩ := hok m (List.mem_cons_self m rest)
      have hok' : ∀ x ∈ rest, memberOk x := fun x hx => hok x (List.mem_cons_of_mem m hx)
      obtain ⟨rid0, res0⟩ := m
      simp only at hm
      subst hm
      simp only [List.cons_append, runGroupAux, hfail]
      rw [if_neg (by simp)]
      rw [List.getLastD_cons, List.getLastD_cons]
      rw [show rest.append ((rid, MemberResult.terminal p st (some code)) :: post) =
        rest ++ (rid, MemberResult.terminal p st (some code)) :: post from rfl]
      rw [ih hok' (idx + 1) idx _]
      have hlen : ((rid0, MemberResult.terminal p0 s0 c0) :: rest).length =
          rest.length + 1 := by simp
      rw [hlen]
      congr 1 <;> push_cast <;> omega

/-- C1 counterexample: a one-member group whose member exits 1 ends at
`error`, but the final `group_status` event carries `completed_count = 1`,
not `k-1 = 0` as claimed: `_run_group` assigns `completed_count = idx`
before the failure test (main.py:2065). -/
theorem c1_group_claim_counterexample :
    finalGroupEvt [("r1", MemberResult.terminal false false (some 1))] =
      { status := "error", current_runner_id := "r1", current_index := 1,
        completed_count := 1 } ∧
    (finalGroupEvt [("r1", MemberResult.terminal false false (some 1))]).completed_count ≠ 0 := by
  constructor
  · decide
  · decide

/-- C1 (amended): if every member before the k-th succeeds and member k
(1-based) exits non-zero, the group ends at `error` and the final
`group_status` event carries `completed_count = k` (the count is set to
the member's index when it terminates, before the failure test, so the
failing member is counted too). -/
theorem c1_group_error_completed_count (pre post : List (String × MemberResult))
    (rid : String) (p st : Bool) (code : Int)
    (hok : ∀ m ∈ pre, memberOk m) (hcode : code ≠ 0) :
    finalGroupEvt (pre ++ (rid, MemberResult.terminal p st (some code)) :: post) =
      { status := "error", current_runner_id := rid,
        current_index := (pre.length : Int) + 1,
        completed_count := (pre.length : Int) + 1 } := by
  unfold finalGroupEvt run_group
  rw [List.getLastD_cons]
  rw [runGroupAux_final_error pre post rid p st code hok hcode 1 0 _]
  congr 1 <;> omega

/-- C1 witness: `c1_group_error_completed_count` on a two-member group
whose first member succeeds and whose second exits 5: the final event is
`error` with `completed_count = 2`. -/
theorem c1_group_error_completed_count_witness :
    finalGroupEvt
        [("a", MemberResult.terminal false false (some 0)),
         ("b", MemberResult.terminal false false (some 5))] =
      { status := "error", current_runner_id := "b", current_index := 2,
        completed_count := 2 } := by
  have h := c1_group_error_completed_count
    [("a", MemberResult.terminal false false (some 0))] [] "b" false false 5
    (by
      intro m hm
      simp only [List.mem_singleton] at hm
      subst hm
      exact ⟨false, false, some 0, rfl, by decide⟩)
    (by decide)
  simpa using h

/-! ## C10: overlapping timer fire consumes a run -/

/-- C10: when the timer fires while the previous child is still alive
(and the runner is neither stopped nor paused, with runs remaining), the
scheduled start pops the timer, decrements `remaining` (when bounded) and
increments `run_count`, then detects the live child and returns without
spawning and without publishing any event. -/
theorem c10_overlap_skip (cfg : MachineCfg) (s : RState)
    (hstop : s.stopped = false) (hpause : s.paused = false)
    (hrun : s.running = true)
    (hrem : s.remaining = none ∨ ∃ r, s.remaining = some r ∧ 0 < r) :
    rmScheduledStart (some cfg) s =
      ({ s with timer := false,
                remaining := s.remaining.map (fun r => r - 1),
                run_count := s.run_count + 1 }, []) := by
  rcases hrem with hnone | ⟨r, hsome, hpos⟩
  · simp [rmScheduledStart, hstop, hpause, hnone, hrun]
  · simp [rmScheduledStart, hstop, hpause, hsome, hrun, not_le.mpr hpos]

/-- C10 witness: `c10_overlap_skip` at a concrete state with 3 runs
remaining and a live child. -/
theorem c10_overlap_skip_witness :
    rmScheduledStart (some ⟨10, 5, 0⟩)
        { running := true, stopped := false, paused := false, timer := true,
          remaining := some 3, run_count := 2, consecutive_failures := 0,
          spawns := 2 } =
      ({ running := true, stopped := false, paused := false, timer := false,
         remaining := some 2, run_count := 3, consecutive_failures := 0,
         spawns := 2 }, []) := by
  have h := c10_overlap_skip ⟨10, 5, 0⟩
    { running := true, stopped := false, paused := false, timer := true,
      remaining := some 3, run_count := 2, consecutive_failures := 0,
      spawns := 2 }
    rfl rfl rfl (Or.inr ⟨3, rfl, by norm_num⟩)
  simpa using h

/-! ## C4: run accounting -/

/-- Bounded-session invariant: `remaining` holds a nonnegative count and
spawns so far plus remaining runs never exceed the budget. -/
def SpawnBudget (N : Int) (s : RState) : Prop :=
  ∃ r, s.remaining = some r ∧ 0 ≤ r ∧ (s.spawns : Int) + r ≤ N

/-- The reader-thread finaliser never touches `remaining` or the spawn
counter (it only spawns via the separate timer path). -/
theorem rmFailureAccounting_frame (cfg : MachineCfg) (code : Int) (s : RState) :
    (rmFailureAccounting cfg code s).1.remaining = s.remaining ∧
    (rmFailureAccounting cfg code s).1.spawns = s.spawns := by
  simp only [rmFailureAccounting]
  split_ifs <;> simp

/-- The reader-thread finaliser never touches `remaining` or the spawn
counter. -/
theorem rmFinish_frame (cfg : MachineCfg) (code : Int) (s : RState) :
    (rmFinish cfg code s).1.remaining = s.remaining ∧
    (rmFinish cfg code s).1.spawns = s.spawns := by
  have hacc := rmFailureAccounting_frame cfg code { s with running := false }
  simp only [rmFinish]
  split
  · simpa using hacc
  · simp only [rmScheduleNext]
    split_ifs <;> simpa using hacc

/-- Every session event preserves the spawn budget: a dispatch trades one
unit of `remaining` for one spawn, a skipped dispatch only loses a unit,
and nothing else touches either quantity. -/
theorem rmStep_spawn_budget (cfg : MachineCfg) (N : Int) (s : RState)
    (e : REvent) (h : SpawnBudget N s) : SpawnBudget N (rmStep cfg s e).1 := by
  obtain ⟨r, hr, hr0, hle⟩ := h
  cases e with
  | timerFire =>
      simp only [rmStep, rmScheduledStart, rmSpawn, hr]
      by_cases h1 : s.stopped <;> simp only [h1, if_true, if_false]
      · exact ⟨r, by simp [hr], hr0, by simpa using hle⟩
      · by_cases h2 : s.paused <;> simp only [h2, if_true, if_false]
        · exact ⟨r, by simp [hr], hr0, by simpa using hle⟩
        · by_cases h3 : r ≤ 0 <;> simp only [h3, if_true, if_false]
          · exact ⟨r, by simp [hr], hr0, by simpa using hle⟩
          · by_cases h4 : s.running <;> simp only [h4, if_true, if_false]
            · exact ⟨r - 1, by simp, by omega, by simp; omega⟩
            · exact ⟨r - 1, by simp, by omega, by simp; omega⟩
  | childExit code =>
      have hfr := rmFinish_frame cfg code s
      exact ⟨r, by rw [rmStep, hfr.1, hr], hr0, by rw [rmStep, hfr.2]; exact hle⟩
  | stopCmd =>
      refine ⟨r, ?_, hr0, ?_⟩
      · simp only [rmStep, rmStop]
        split <;> simpa using hr
      · simp only [rmStep, rmStop]
        split <;> simpa using hle

/-- Running a concatenated trace is running the pieces in turn. -/
theorem rmRun_append (cfg : MachineCfg) :
    ∀ (t1 t2 : List REvent) (s : RState),
      rmRun cfg s (t1 ++ t2) = rmRun cfg (rmRun cfg s t1) t2
  | [], _, _ => rfl
  | e :: rest, t2, s => by
      simp only [List.cons_append, rmRun]
      exact rmRun_append cfg rest t2 (rmStep cfg s e).1

/-- The spawn budget is preserved along any session trace. -/
theorem rmRun_spawn_budget (cfg : MachineCfg) (N : Int) :
    ∀ (trace : List REvent) (s : RState),
      SpawnBudget N s → SpawnBudget N (rmRun cfg s trace)
  | [], _, h => h
  | e :: rest, s, h =>
      rmRun_spawn_budget cfg N rest (rmStep cfg s e).1
        (rmStep_spawn_budget cfg N s e h)

/-- What a manual start does when the budget is positive: reset the
session counters, set `remaining` to `max_runs`, consume one unit and
spawn. -/
theorem rmStart_manual_bounded (cfg : MachineCfg) (s0 : RState)
    (hN : 1 ≤ cfg.max_runs) (hrun : s0.running = false) :
    rmStart cfg true s0 =
      .ok ({ s0 with
               timer := false, stopped := false, paused := false,
               remaining := some (cfg.max_runs - 1), run_count := 1,
               consecutive_failures := 0, running := true,
               spawns := s0.spawns + 1 },
        [.started 1 (some (cfg.max_runs - 1))]) := by
  have h1 : ¬ cfg.max_runs = -1 := by omega
  have h2 : ¬ cfg.max_runs ≤ 0 := by omega
  simp [rmStart, rmSpawn, hrun, h1, h2]

/-- What a manual start does for an unbounded runner: `remaining` is
`none` and one spawn happens. -/
theorem rmStart_manual_infinite (cfg : MachineCfg) (s0 : RState)
    (hN : cfg.max_runs = -1) (hrun : s0.running = false) :
    rmStart cfg true s0 =
      .ok ({ s0 with
               timer := false, stopped := false, paused := false,
               remaining := none, run_count := 1,
               consecutive_failures := 0, running := true,
               spawns := s0.spawns + 1 },
        [.started 1 none]) := by
  simp [rmStart, rmSpawn, hrun, hN]

/-- No session event ever writes `remaining` when it is `none`: the
counter of an unbounded runner is never decremented. -/
theorem rmStep_remaining_none (cfg : MachineCfg) (s : RState) (e : REvent)
    (h : s.remaining = none) : (rmStep cfg s e).1.remaining = none := by
  cases e with
  | timerFire =>
      simp only [rmStep, rmScheduledStart, rmSpawn, h]
      split_ifs <;> simp [h]
  | childExit code => rw [rmStep, (rmFinish_frame cfg code s).1, h]
  | stopCmd =>
      simp only [rmStep, rmStop]
      split <;> simp [h]

/-- `remaining = none` along any trace. -/
theorem rmRun_remaining_none (cfg : MachineCfg) :
    ∀ (trace : List REvent) (s : RState),
      s.remaining = none → (rmRun cfg s trace).remaining = none
  | [], _, h => h
  | e :: rest, s, h =>
      rmRun_remaining_none cfg rest (rmStep cfg s e).1
        (rmStep_remaining_none cfg s e h)

/-- The state shape an unbounded interval runner returns to after each
finish-and-refire cycle. -/
def CycleShape (s : RState) : Prop :=
  s.running = true ∧ s.stopped = false ∧ s.paused = false ∧
    s.timer = false ∧ s.remaining = none

/-- One clean exit followed by the timer firing spawns exactly once and
restores the cycle shape. -/
theorem rmCycle (cfg : MachineCfg) (hint : 0 < cfg.interval_s) (s : RState)
    (h : CycleShape s) :
    CycleShape (rmRun cfg s [REvent.childExit 0, REvent.timerFire]) ∧
    (rmRun cfg s [REvent.childExit 0, REvent.timerFire]).spawns = s.spawns + 1 := by
  obtain ⟨h1, h2, h3, h4, h5⟩ := h
  have hint' : ¬ cfg.interval_s ≤ 0 := by omega
  simp [rmRun, rmStep, rmFinish, rmFailureAccounting, rmScheduleNext,
    rmScheduledStart, rmSpawn, CycleShape, h1, h2, h3, h4, h5, hint']

/-- C4: run accounting.  (1) After a manual start with `max_runs = N ≥ 1`
(which sets `remaining` to `N` and consumes one unit for its own
dispatch), at most `N` child processes are spawned over any sequence of
timer fires, child exits and stops — scheduling and dispatch refuse once
`remaining` hits 0.  (2) With `max_runs = -1` the session starts with
`remaining = none` and no event ever decrements it.  (3) With
`max_runs = -1` and a positive interval, every spawn count is reachable:
runs are unbounded. -/
theorem c4_run_accounting :
    (∀ (cfg : MachineCfg) (s0 s1 : RState) (evs : List StatusEvt)
        (trace : List REvent),
      1 ≤ cfg.max_runs → s0.running = false → s0.spawns = 0 →
      rmStart cfg true s0 = .ok (s1, evs) →
      ((rmRun cfg s1 trace).spawns : Int) ≤ cfg.max_runs) ∧
    (∀ (cfg : MachineCfg) (s0 s1 : RState) (evs : List StatusEvt)
        (trace : List REvent),
      cfg.max_runs = -1 → s0.running = false →
      rmStart cfg true s0 = .ok (s1, evs) →
      s1.remaining = none ∧ (rmRun cfg s1 trace).remaining = none) ∧
    (∀ (cfg : MachineCfg) (s0 s1 : RState) (evs : List StatusEvt),
      cfg.max_runs = -1 → 0 < cfg.interval_s → s0.running = false →
      rmStart cfg true s0 = .ok (s1, evs) →
      ∀ n : Nat, ∃ trace : List REvent, n ≤ (rmRun cfg s1 trace).spawns) := by
  refine ⟨?_, ?_, ?_⟩
  · intro cfg s0 s1 evs trace hN hrun hsp hstart
    rw [rmStart_manual_bounded cfg s0 hN hrun] at hstart
    obtain ⟨h1, _⟩ : s1 = _ ∧ evs = _ := by
      constructor <;> [exact congrArg Prod.fst (Except.ok.inj hstart).symm;
        exact congrArg Prod.snd (Except.ok.inj hstart).symm]
    have hbud : SpawnBudget cfg.max_runs s1 := by
      refine ⟨cfg.max_runs - 1, ?_, by omega, ?_⟩ <;> (rw [h1]; try simp [hsp])
    obtain ⟨r, hr, hr0, hle⟩ := rmRun_spawn_budget cfg cfg.max_runs trace s1 hbud
    omega
  · intro cfg s0 s1 evs trace hN hrun hstart
    rw [rmStart_manual_infinite cfg s0 hN hrun] at hstart
    have h1 : s1 = _ := congrArg Prod.fst (Except.ok.inj hstart).symm
    have hnone : s1.remaining = none := by rw [h1]
    exact ⟨hnone, rmRun_remaining_none cfg trace s1 hnone⟩
  · intro cfg s0 s1 evs hN hint hrun hstart
    rw [rmStart_manual_infinite cfg s0 hN hrun] at hstart
    have h1 : s1 = _ := congrArg Prod.fst (Except.ok.inj hstart).symm
    have hshape : CycleShape s1 := by rw [h1]; exact ⟨rfl, rfl, rfl, rfl, rfl⟩
    intro n
    have key : ∀ m : Nat, ∃ tr : List REvent,
        CycleShape (rmRun cfg s1 tr) ∧ m ≤ (rmRun cfg s1 tr).spawns := by
      intro m
      induction m with
      | zero => exact ⟨[], hshape, by omega⟩
      | succ m ih =>
          obtain ⟨tr, hsh, hsp⟩ := ih
          refine ⟨tr ++ [REvent.childExit 0, REvent.timerFire], ?_, ?_⟩
          · rw [rmRun_append]
            exact (rmCycle cfg hint _ hsh).1
          · rw [rmRun_append]
            have hc := (rmCycle cfg hint _ hsh).2
            omega
    obtain ⟨tr, _, hsp⟩ := key n
    exact ⟨tr, hsp⟩

/-- C4 witness: `c4_run_accounting` on a runner with `max_runs = 2`
manually started from idle (one timer fire), and on an unbounded runner
with a 5-second interval. -/
theorem c4_run_accounting_witness :
    (((rmRun ⟨0, 2, 0⟩
        { running := true, stopped := false, paused := false, timer := false,
          remaining := some 1, run_count := 1, consecutive_failures := 0,
          spawns := 1 }
        [REvent.timerFire]).spawns : Int) ≤ 2) ∧
    ((rmRun ⟨5, -1, 0⟩
        { running := true, stopped := false, paused := false, timer := false,
          remaining := none, run_count := 1, consecutive_failures := 0,
          spawns := 1 }
        [REvent.childExit 0, REvent.timerFire]).remaining = none) ∧
    (∃ trace : List REvent, 3 ≤ (rmRun ⟨5, -1, 0⟩
        { running := true, stopped := false, paused := false, timer := false,
          remaining := none, run_count := 1, consecutive_failures := 0,
          spawns := 1 }
        trace).spawns) := by
  refine ⟨?_, ?_, ?_⟩
  · exact c4_run_accounting.1 ⟨0, 2, 0⟩ rmIdle _ [.started 1 (some 1)]
      [REvent.timerFire] (by norm_num) rfl rfl rfl
  · exact (c4_run_accounting.2.1 ⟨5, -1, 0⟩ rmIdle _ [.started 1 none]
      [REvent.childExit 0, REvent.timerFire] rfl rfl rfl).2
  · exact c4_run_accounting.2.2 ⟨5, -1, 0⟩ rmIdle _ [.started 1 none]
      rfl (by norm_num) rfl rfl 3

/-! ## C5: auto-pause on consecutive failures -/

/-- The paused-and-stopped sink state the auto-pause enters. -/
def Absorbed (s : RState) : Prop :=
  s.paused = true ∧ s.stopped = true ∧ s.timer = false

/-- `_schedule_next` never changes anything but the timer slot. -/
theorem rmScheduleNext_fields (cfg? : Option MachineCfg) (s : RState) :
    (rmScheduleNext cfg? s).1.stopped = s.stopped ∧
    (rmScheduleNext cfg? s).1.paused = s.paused ∧
    (rmScheduleNext cfg? s).1.consecutive_failures = s.consecutive_failures ∧
    (rmScheduleNext cfg? s).1.running = s.running := by
  rcases cfg? with _ | cfg
  · exact ⟨rfl, rfl, rfl, rfl⟩
  · simp only [rmScheduleNext]
    split_ifs <;> simp

/-- A timer fire from a non-stopped, non-paused state leaves the runner
non-stopped and non-paused and does not touch the failure counter. -/
theorem rmScheduledStart_fields (cfg? : Option MachineCfg) (s : RState)
    (h1 : s.stopped = false) (h2 : s.paused = false) :
    (rmScheduledStart cfg? s).1.stopped = false ∧
    (rmScheduledStart cfg? s).1.paused = false ∧
    (rmScheduledStart cfg? s).1.consecutive_failures = s.consecutive_failures := by
  rcases cfg? with _ | cfg <;>
    simp only [rmScheduledStart, rmSpawn, h1, h2] <;>
    rcases hrem : s.remaining with _ | r <;>
    simp [h1, h2, hrem] <;>
    split_ifs <;> simp [h2]

/-- The failure accounting on a stopped run: untouched. -/
theorem rmFailureAccounting_stopped (cfg : MachineCfg) (code : Int)
    (s : RState) (hs : s.stopped = true) :
    rmFailureAccounting cfg code s = (s, false) := by
  simp [rmFailureAccounting, hs]

/-- The failure accounting on a clean exit: reset the counter. -/
theorem rmFailureAccounting_zero (cfg : MachineCfg) (s : RState)
    (hs : s.stopped = false) :
    rmFailureAccounting cfg 0 s =
      ({ s with consecutive_failures := 0 }, false) := by
  simp [rmFailureAccounting, hs]

/-- The failure accounting on a failing exit that reaches the threshold:
increment, pause, stop, cancel the timer. -/
theorem rmFailureAccounting_pause (cfg : MachineCfg) (code : Int) (s : RState)
    (hs : s.stopped = false) (hcode : code ≠ 0)
    (hth : 0 < cfg.failure_pause_threshold)
    (hhit : cfg.failure_pause_threshold ≤ s.consecutive_failures + 1) :
    rmFailureAccounting cfg code s =
      ({ s with consecutive_failures := s.consecutive_failures + 1,
                paused := true, stopped := true, timer := false }, true) := by
  have hmax : max 0 cfg.failure_pause_threshold = cfg.failure_pause_threshold :=
    max_eq_right (by omega)
  simp [rmFailureAccounting, hs, hcode, hmax, hth, hhit]

/-- The failure accounting on a failing exit below the threshold: just
increment. -/
theorem rmFailureAccounting_count (cfg : MachineCfg) (code : Int) (s : RState)
    (hs : s.stopped = false) (hcode : code ≠ 0)
    (hmiss : ¬ (0 < max 0 cfg.failure_pause_threshold ∧
      max 0 cfg.failure_pause_threshold ≤ s.consecutive_failures + 1)) :
    rmFailureAccounting cfg code s =
      ({ s with consecutive_failures := s.consecutive_failures + 1 }, false) := by
  simp only [rmFailureAccounting, hs]
  rw [if_neg (by simp), if_neg hcode, if_neg hmiss]

/-- The finaliser on a failing exit that reaches the threshold: the
runner pauses, the timer is cancelled, and a `paused` status with reason
`auto_pause_failures` follows the `finished` status. -/
theorem rmFinish_pause (cfg : MachineCfg) (code : Int) (s : RState)
    (hs : s.stopped = false) (hcode : code ≠ 0)
    (hth : 0 < cfg.failure_pause_threshold)
    (hhit : cfg.failure_pause_threshold ≤ s.consecutive_failures + 1) :
    rmFinish cfg code s =
      ({ s with running := false,
                consecutive_failures := s.consecutive_failures + 1,
                paused := true, stopped := true, timer := false },
        [.finished code false (s.consecutive_failures + 1),
         .pausedStatus "auto_pause_failures" (s.consecutive_failures + 1)]) := by
  simp only [rmFinish]
  rw [rmFailureAccounting_pause cfg code { s with running := false } hs hcode hth
    (by simpa using hhit)]
  simp [hs]

/-- Once paused-and-stopped with no timer, timer fires and child exits
keep the runner there (`stop` and a manual start are the only ways out). -/
theorem rmStep_absorb (cfg : MachineCfg) (s : RState) (e : REvent)
    (h : Absorbed s) (he : e ≠ REvent.stopCmd) :
    Absorbed (rmStep cfg s e).1 := by
  obtain ⟨hp, hs, ht⟩ := h
  cases e with
  | timerFire => simp [rmStep, rmScheduledStart, hs, hp, Absorbed, ht]
  | childExit code =>
      simp only [rmStep, rmFinish]
      rw [rmFailureAccounting_stopped cfg code { s with running := false }
        (by simpa using hs)]
      rw [if_neg (show ¬ (false = true) by simp)]
      have hf := rmScheduleNext_fields (some cfg) { s with running := false }
      refine ⟨?_, ?_, ?_⟩
      · rw [hf.2.1]; simpa using hp
      · rw [hf.1]; simpa using hs
      · simp only [rmScheduleNext]
        split_ifs <;> simp_all
  | stopCmd => exact absurd rfl he

/-- `Absorbed` is preserved along any stop-free trace. -/
theorem rmRun_absorb (cfg : MachineCfg) :
    ∀ (trace : List REvent) (s : RState),
      (∀ e ∈ trace, e ≠ REvent.stopCmd) → Absorbed s →
      Absorbed (rmRun cfg s trace)
  | [], _, _, h => h
  | e :: rest, s, hns, h =>
      rmRun_absorb cfg rest (rmStep cfg s e).1
        (fun x hx => hns x (List.mem_cons_of_mem e hx))
        (rmStep_absorb cfg s e h (hns e (List.mem_cons_self e rest)))

/-- Along a stop-free trace of non-zero exits, once the failure counter
can reach the threshold the runner ends paused-and-stopped. -/
theorem rmRun_pause_after_failures (cfg : MachineCfg) :
    ∀ (trace : List REvent) (s : RState),
      (∀ e ∈ trace, e ≠ REvent.stopCmd) →
      (∀ c : Int, REvent.childExit c ∈ trace → c ≠ 0) →
      s.stopped = false → s.paused = false →
      0 ≤ s.consecutive_failures →
      s.consecutive_failures < cfg.failure_pause_threshold →
      cfg.failure_pause_threshold ≤ s.consecutive_failures + (exitCount trace : Int) →
      Absorbed (rmRun cfg s trace) := by
  intro trace
  induction trace with
  | nil =>
      intro s _ _ _ _ _ hlt hge
      simp [exitCount] at hge
      omega
  | cons e rest ih =>
      intro s hns hnz hstop hpause hcf0 hlt hge
      have hns' : ∀ x ∈ rest, x ≠ REvent.stopCmd :=
        fun x hx => hns x (List.mem_cons_of_mem e hx)
      have hnz' : ∀ c : Int, REvent.childExit c ∈ rest → c ≠ 0 :=
        fun c hc => hnz c (List.mem_cons_of_mem e hc)
      cases e with
      | timerFire =>
          have hf := rmScheduledStart_fields (some cfg) s hstop hpause
          simp only [rmRun, rmStep]
          refine ih _ hns' hnz' hf.1 hf.2.1 ?_ ?_ ?_
          · rw [hf.2.2]; exact hcf0
          · rw [hf.2.2]; exact hlt
          · rw [hf.2.2]
            simpa [exitCount] using hge
      | childExit code =>
          have hcode : code ≠ 0 := hnz code (List.mem_cons_self _ rest)
          have hth : 0 < cfg.failure_pause_threshold := by omega
          by_cases hhit : cfg.failure_pause_threshold ≤ s.consecutive_failures + 1
          · have habs : Absorbed (rmStep cfg s (REvent.childExit code)).1 := by
              rw [rmStep, rmFinish_pause cfg code s hstop hcode hth hhit]
              exact ⟨rfl, rfl, rfl⟩
            exact rmRun_absorb cfg rest _ hns' habs
          · have hstep : (rmStep cfg s (REvent.childExit code)).1 =
                (rmScheduleNext (some cfg)
                  { s with running := false,
                           consecutive_failures := s.consecutive_failures + 1 }).1 := by
              rw [rmStep, rmFinish]
              rw [rmFailureAccounting_count cfg code { s with running := false }
                (by simpa using hstop) hcode
                (by
                  intro hc
                  have hmax : max 0 cfg.failure_pause_threshold =
                      cfg.failure_pause_threshold := max_eq_right (by omega)
                  rw [hmax] at hc
                  exact hhit (by simpa using hc.2))]
              simp
            have hf := rmScheduleNext_fields (some cfg)
              { s with running := false,
                       consecutive_failures := s.consecutive_failures + 1 }
            simp only [rmRun, hstep]
            refine ih _ hns' hnz' ?_ ?_ ?_ ?_ ?_
            · rw [hf.1]; exact hstop
            · rw [hf.2.1]; exact hpause
            · rw [hf.2.2.1]; simp; omega
            · rw [hf.2.2.1]; simp; omega
            · rw [hf.2.2.1]
              have hproj : ({ s with
                  running := false,
                  consecutive_failures := s.consecutive_failures + 1 } :
                    RState).consecutive_failures =
                  s.consecutive_failures + 1 := rfl
              rw [hproj]
              simp only [exitCount] at hge
              push_cast at hge ⊢
              omega
      | stopCmd =>
          exact absurd rfl (hns _ (List.mem_cons_self _ rest))

/-- C5: with `failure_pause_threshold = K > 0`: (1) a non-stopped,
non-zero exit that brings the consecutive-failure count to the threshold
pauses the runner — the timer is cancelled and a `paused` status with
reason `auto_pause_failures` is published; (2) starting from a fresh
counter, any stop-free trace containing K non-zero exits and no zero exit
ends paused-and-stopped with no timer; (3) while paused, a timer fire
dispatches nothing and publishes nothing, and `_schedule_next` refuses to
arm a timer, so nothing runs until a new manual start; (4) a non-stopped
zero exit resets the consecutive-failure counter. -/
theorem c5_auto_pause :
    (∀ (cfg : MachineCfg) (code : Int) (s : RState),
      s.stopped = false → code ≠ 0 → 0 < cfg.failure_pause_threshold →
      cfg.failure_pause_threshold ≤ s.consecutive_failures + 1 →
      rmFinish cfg code s =
        ({ s with
           running := false,
           consecutive_failures := s.consecutive_failures + 1,
           paused := true, stopped := true, timer := false },
          [.finished code false (s.consecutive_failures + 1),
           .pausedStatus "auto_pause_failures" (s.consecutive_failures + 1)])) ∧
    (∀ (cfg : MachineCfg) (trace : List REvent) (s : RState),
      (∀ e ∈ trace, e ≠ REvent.stopCmd) →
      (∀ c : Int, REvent.childExit c ∈ trace → c ≠ 0) →
      s.stopped = false → s.paused = false → s.consecutive_failures = 0 →
      0 < cfg.failure_pause_threshold →
      cfg.failure_pause_threshold ≤ (exitCount trace : Int) →
      (rmRun cfg s trace).paused = true ∧ (rmRun cfg s trace).stopped = true ∧
        (rmRun cfg s trace).timer = false) ∧
    (∀ (cfg : MachineCfg) (s : RState), s.paused = true →
      rmScheduledStart (some cfg) s = ({ s with timer := false }, []) ∧
      rmScheduleNext (some cfg) s = (s, [])) ∧
    (∀ (cfg : MachineCfg) (s : RState), s.stopped = false →
      (rmFinish cfg 0 s).1.consecutive_failures = 0) := by
  refine ⟨?_, ?_, ?_, ?_⟩
  · intro cfg code s hs hcode hth hhit
    exact rmFinish_pause cfg code s hs hcode hth hhit
  · intro cfg trace s hns hnz hs hp hcf hth hge
    exact rmRun_pause_after_failures cfg trace s hns hnz hs hp
      (by omega) (by omega) (by omega)
  · intro cfg s hp
    constructor
    · by_cases hs : s.stopped <;> simp [rmScheduledStart, hp, hs]
    · simp only [rmScheduleNext]
      split_ifs <;> simp_all
  · intro cfg s hs
    simp only [rmFinish]
    rw [rmFailureAccounting_zero cfg { s with running := false }
      (by simpa using hs)]
    rw [if_neg (show ¬ (false = true) by simp)]
    exact (rmScheduleNext_fields (some cfg) _).2.2.1

/-- C5 witness: `c5_auto_pause` at threshold 2: the second failing exit
pauses; a paused runner ignores a timer fire; a clean exit resets the
counter. -/
theorem c5_auto_pause_witness :
    (rmRun ⟨0, -1, 2⟩
        { running := true, stopped := false, paused := false, timer := false,
          remaining := none, run_count := 1, consecutive_failures := 0,
          spawns := 1 }
        [REvent.childExit 1, REvent.childExit 7]).paused = true ∧
    rmScheduledStart (some ⟨0, -1, 2⟩)
        { running := false, stopped := true, paused := true, timer := false,
          remaining := none, run_count := 1, consecutive_failures := 2,
          spawns := 2 } =
      ({ running := false, stopped := true, paused := true, timer := false,
         remaining := none, run_count := 1, consecutive_failures := 2,
         spawns := 2 }, []) ∧
    (rmFinish ⟨0, -1, 2⟩ 0
        { running := true, stopped := false, paused := false, timer := false,
          remaining := none, run_count := 1, consecutive_failures := 1,
          spawns := 1 }).1.consecutive_failures = 0 := by
  refine ⟨?_, ?_, ?_⟩
  · exact (c5_auto_pause.2.1 ⟨0, -1, 2⟩ [REvent.childExit 1, REvent.childExit 7]
      { running := true, stopped := false, paused := false, timer := false,
        remaining := none, run_count := 1, consecutive_failures := 0, spawns := 1 }
      (by intro e he; fin_cases he <;> simp)
      (by intro c hc; fin_cases hc <;> norm_num)
      rfl rfl rfl (by norm_num) (by norm_num [exitCount])).1
  · have h := (c5_auto_pause.2.2.1 ⟨0, -1, 2⟩
      { running := false, stopped := true, paused := true, timer := false,
        remaining := none, run_count := 1, consecutive_failures := 2,
        spawns := 2 } rfl).1
    simpa using h
  · exact c5_auto_pause.2.2.2 ⟨0, -1, 2⟩
      { running := true, stopped := false, paused := false, timer := false,
        remaining := none, run_count := 1, consecutive_failures := 1,
        spawns := 1 } rfl

/-! ## C9: only_updates suppression -/

/-- C9: (1) when a dequeued entry's target has `only_updates` and the
message equals the last successfully sent message for `(runner_id,
profile_id)`, the worker skips: the transport is not invoked, the profile
store (hence `failure_count` and `sent_count`), the stored
`last_sent_message` map and the published event list are all unchanged —
the worker never touches the runner's alert state, which lives in the
supervisor; (2) a deliverable entry without `only_updates` always reaches
the transport; (3) with two targets, the second `only_updates`, the same
rendered message enqueued twice reaches profile A twice and profile B
once. -/
theorem c9_only_updates :
    (∀ (sendOk : Bool) (profiles : List StoredProfile)
        (last_sent : List ((String × String) × String)) (e : QueueEntry)
        (profile : StoredProfile),
      profiles.find? (fun p => p.id = e.profile_id) = some profile →
      profile.active = true → profile.ty = "pushover" →
      pyStrip profile.user_key ≠ "" → pyStrip profile.api_token ≠ "" →
      e.only_updates = true →
      lastSentGet last_sent (e.runner_id, e.profile_id) = e.message →
      workerStep sendOk profiles last_sent e =
        { profiles := profiles, last_sent := last_sent, attempted := false,
          events := [] }) ∧
    (∀ (sendOk : Bool) (profiles : List StoredProfile)
        (last_sent : List ((String × String) × String)) (e : QueueEntry)
        (profile : StoredProfile),
      profiles.find? (fun p => p.id = e.profile_id) = some profile →
      profile.active = true → profile.ty = "pushover" →
      pyStrip profile.user_key ≠ "" → pyStrip profile.api_token ≠ "" →
      e.only_updates = false →
      (workerStep sendOk profiles last_sent e).attempted = true) ∧
    ((workerDrain true
        [{ id := "A", name := "A", ty := "pushover", active := true,
           failure_count := 0, sent_count := 0, user_key := "u",
           api_token := "t" },
         { id := "B", name := "B", ty := "pushover", active := true,
           failure_count := 0, sent_count := 0, user_key := "u",
           api_token := "t" }] []
        [{ profile_id := "A", profile_name := "A", only_updates := false,
           message := "m", title := "T", runner_id := "r", pattern := "p" },
         { profile_id := "B", profile_name := "B", only_updates := true,
           message := "m", title := "T", runner_id := "r", pattern := "p" },
         { profile_id := "A", profile_name := "A", only_updates := false,
           message := "m", title := "T", runner_id := "r", pattern := "p" },
         { profile_id := "B", profile_name := "B", only_updates := true,
           message := "m", title := "T", runner_id := "r", pattern := "p" }]).2.2 =
      ["A", "B", "A"]) := by
  refine ⟨?_, ?_, by decide⟩
  · intro sendOk profiles last_sent e profile hfind hact hty hu ht honly hlast
    simp only [workerStep, hfind]
    rw [if_neg (by simp [hact]), if_neg (by simp [hty]),
      if_neg (by simp [hu, ht]), if_pos (by simp [honly, hlast])]
  · intro sendOk profiles last_sent e profile hfind hact hty hu ht honly
    simp only [workerStep, hfind]
    rw [if_neg (by simp [hact]), if_neg (by simp [hty]),
      if_neg (by simp [hu, ht]), if_neg (by simp [honly])]
    by_cases hs : sendOk <;> simp [hs]

/-- C9 witness: the suppression and delivery branches of
`c9_only_updates` at a concrete profile and entry. -/
theorem c9_only_updates_witness :
    (workerStep true
        [{ id := "B", name := "B", ty := "pushover", active := true,
           failure_count := 0, sent_count := 0, user_key := "u",
           api_token := "t" }]
        [(("r", "B"), "m")]
        { profile_id := "B", profile_name := "B", only_updates := true,
          message := "m", title := "T", runner_id := "r", pattern := "p" } =
      { profiles :=
          [{ id := "B", name := "B", ty := "pushover", active := true,
             failure_count := 0, sent_count := 0, user_key := "u",
             api_token := "t" }],
        last_sent := [(("r", "B"), "m")], attempted := false,
        events := [] }) ∧
    ((workerStep true
        [{ id := "A", name := "A", ty := "pushover", active := true,
           failure_count := 0, sent_count := 0, user_key := "u",
           api_token := "t" }]
        [(("r", "A"), "m")]
        { profile_id := "A", profile_name := "A", only_updates := false,
          message := "m", title := "T", runner_id := "r", pattern := "p" }).attempted
      = true) := by
  constructor
  · exact c9_only_updates.1 true _ _ _
      { id := "B", name := "B", ty := "pushover", active := true,
        failure_count := 0, sent_count := 0, user_key := "u", api_token := "t" }
      (by decide) rfl rfl (by decide) (by decide) rfl (by decide)
  · exact c9_only_updates.2.1 true _ _ _
      { id := "A", name := "A", ty := "pushover", active := true,
        failure_count := 0, sent_count := 0, user_key := "u", api_token := "t" }
      (by decide) rfl rfl (by decide) (by decide) rfl

/-! ## C8: config compilation -/

/-- The case-compilation loop is the per-case outcome functions mapped
over the case list. -/
theorem compileCases_eq {Rx : Type} (rxCompile : String → Except String Rx)
    (rid : String) (cases : List CaseRule) :
    compileCases rxCompile rid cases =
      (cases.filterMap (compileCaseFn rxCompile),
       cases.filterMap (compileErrFn rxCompile rid)) := by
  induction cases with
  | nil => rfl
  | cons c rest ih =>
      simp only [compileCases, ih, List.filterMap_cons, compileCaseFn, compileErrFn]
      by_cases h1 : pyStrip c.pattern = "" ∧ pyStrip c.message_template = ""
      · simp [h1]
      · by_cases h2 : pyStrip c.pattern = "" ∨ pyStrip c.message_template = ""
        · simp [h1, h2]
        · rcases hrx : rxCompile (pyStrip c.pattern) with e | rx <;>
            simp [h1, h2, hrx]

/-- C8: compiling a found runner: `send_last_line_on_finish` holds iff
some case has both fields empty after trimming; the compiled case list
keeps exactly the enabled, compilable cases (half-empty cases are
excluded, every kept pattern and template is non-empty); exactly one
`case_error` is emitted per enabled case whose pattern fails to compile;
and the compiled `max_runs` is `-1` or clamped into `[1, 100]`. -/
theorem c8_compile {Rx : Type} (rxCompile : String → Except String Rx)
    (st : AppState) (rid : String) (runner : RunnerConfig)
    (rc : RunnerRuntimeConfig Rx) (evs : List CaseErrorEvent)
    (hfind : st.runners.find? (fun r => r.id = rid) = some runner)
    (hok : compile_runner_cfg rxCompile st rid = .ok (rc, evs)) :
    (rc.send_last_line_on_finish = true ↔
      ∃ c ∈ runner.cases,
        pyStrip c.pattern = "" ∧ pyStrip c.message_template = "") ∧
    rc.cases = runner.cases.filterMap (compileCaseFn rxCompile) ∧
    (∀ cc ∈ rc.cases, cc.pattern ≠ "" ∧ cc.message_template ≠ "") ∧
    evs = runner.cases.filterMap (compileErrFn rxCompile rid) ∧
    (rc.max_runs = -1 ∨ (1 ≤ rc.max_runs ∧ rc.max_runs ≤ 100)) := by
  simp only [compile_runner_cfg, hfind, compileCases_eq] at hok
  have hpair := Except.ok.inj hok
  have hrc : rc = _ := (congrArg Prod.fst hpair).symm
  have hevs : evs = _ := (congrArg Prod.snd hpair).symm
  have hcases : rc.cases = runner.cases.filterMap (compileCaseFn rxCompile) := by
    rw [hrc]
  refine ⟨?_, hcases, ?_, by rw [hevs], ?_⟩
  · rw [hrc]
    simp only [List.any_eq_true, decide_eq_true_eq]
  · intro cc hcc
    rw [hcases] at hcc
    obtain ⟨c, _, hc⟩ := List.mem_filterMap.mp hcc
    simp only [compileCaseFn] at hc
    split_ifs at hc with h1 h2
    · rcases hrx : rxCompile (pyStrip c.pattern) with e | rx <;> rw [hrx] at hc
      · exact absurd hc (by simp)
      · have hcc' : cc = _ := (Option.some.inj hc).symm
        rw [hcc']
        push_neg at h2
        exact ⟨h2.1, h2.2⟩
  · rw [hrc]
    by_cases hm : runner.max_runs = -1 <;> simp only [hm] <;>
      [left; right]
    · simp
    · constructor <;> simp [hm]

/-- C8 witness: `c8_compile` on `c8State`: the sentinel case sets the
flag, the half-empty case is dropped, the invalid pattern emits one
`case_error`, and `max_runs = 500` clamps to 100. -/
theorem c8_compile_witness :
    ((compile_runner_cfg c8Rx c8State "r1" =
      .ok ({ runner_id := "r1", runner_name := "Runner 1", command := "echo OK",
             logging_enabled := true, interval_s := 7, max_runs := 100,
             alert_cooldown_s := 60, alert_escalation_s := 300,
             failure_pause_threshold := 3, send_last_line_on_finish := true,
             cases := [{ pattern := "OK", regex := (), message_template := "up",
                         state := "UP" }],
             notify_targets := [{ profile_id := "p1", profile_name := "Push",
                                  only_updates := false, active := true,
                                  user_key := "u", api_token := "t" }] },
        [{ runner_id := "r1", pattern := "[",
           error := "Invalid regex: unbalanced bracket" }])) ∧
     (1 ≤ (100 : Int) ∧ (100 : Int) ≤ 100)) := by
  constructor
  · rfl
  · have h := c8_compile c8Rx c8State "r1" c8Runner _ _ (by rfl) rfl
    rcases h.2.2.2.2 with hneg | hpos
    · exact absurd hneg (by decide)
    · exact hpos

/-! ## C7: normalisation idempotence -/

/-- A safe-id character is not whitespace. -/
theorem safe_char_not_ws (c : Char)
    (h : (c.isAlphanum || c = '_' || c = '-') = true) :
    c.isWhitespace = false := by
  by_contra hws
  have hws' : c.isWhitespace = true := by
    cases hcw : c.isWhitespace
    · exact absurd hcw hws
    · rfl
  have hmem : ((c = ' ' ∨ c = '\t') ∨ c = '\x0d') ∨ c = '\n' := by
    simpa [Char.isWhitespace] using hws'
  rcases hmem with ((rfl | rfl) | rfl) | rfl <;> simp_all

/-- Dropping leading whitespace from a whitespace-free list is the
identity. -/
theorem dropWhile_ws_eq_self (l : List Char)
    (h : ∀ c ∈ l, c.isWhitespace = false) :
    l.dropWhile Char.isWhitespace = l := by
  cases l with
  | nil => rfl
  | cons c rest =>
      rw [List.dropWhile_cons_of_neg]
      simp [h c (List.mem_cons_self c rest)]

/-- `str.strip()` is the identity on safe ids. -/
theorem pyStrip_validSafeId (s : String) (h : validSafeId s = true) :
    pyStrip s = s := by
  have hall : ∀ c ∈ s.toList, c.isWhitespace = false := by
    intro c hc
    have h3 := (List.all_eq_true.mp (by
      simp only [validSafeId, Bool.and_eq_true] at h
      exact h.2)) c hc
    exact safe_char_not_ws c (by simpa using h3)
  unfold pyStrip
  rw [dropWhile_ws_eq_self _ hall,
    dropWhile_ws_eq_self _ (by intro c hc; exact hall c (by simpa using hc)),
    List.reverse_reverse]
  cases s
  simp [String.toList]

/-- The possible outputs of `normalize_case_state`. -/
theorem normalize_case_state_mem (x : String) :
    normalize_case_state x = "" ∨ normalize_case_state x = "UP" ∨
    normalize_case_state x = "DOWN" ∨ normalize_case_state x = "WARN" ∨
    normalize_case_state x = "INFO" := by
  unfold normalize_case_state
  by_cases h : pyUpper (pyStrip x) = "UP" ∨ pyUpper (pyStrip x) = "DOWN" ∨
      pyUpper (pyStrip x) = "WARN" ∨ pyUpper (pyStrip x) = "INFO"
  · rcases h with h | h | h | h <;> simp [h]
  · simp [h]

/-- `normalize_case_state` is idempotent. -/
theorem normalize_case_state_idem (x : String) :
    normalize_case_state (normalize_case_state x) = normalize_case_state x := by
  rcases normalize_case_state_mem x with h | h | h | h | h <;> rw [h] <;> decide

/-- `dict.fromkeys` de-duplication is the identity on duplicate-free
lists. -/
theorem pyDedup_nodup_id (l : List String) (h : l.Nodup) : pyDedup l = l := by
  induction l with
  | nil => rw [pyDedup]
  | cons x rest ih =>
      rw [pyDedup]
      have hx : x ∉ rest := (List.nodup_cons.mp h).1
      have hfil : rest.filter (fun y => y ≠ x) = rest := by
        rw [List.filter_eq_self]
        intro a ha
        simp
        intro heq
        exact hx (heq ▸ ha)
      rw [hfil, ih (List.nodup_cons.mp h).2]

/-- The strip-and-validate comprehension of main.py:995-1004 is the
identity on lists of safe ids. -/
theorem filterMap_strip_id (l : List String)
    (h : ∀ x ∈ l, validSafeId x = true) :
    l.filterMap (fun v =>
      let s := pyStrip v
      if validSafeId s then some s else none) = l := by
  induction l with
  | nil => rfl
  | cons x rest ih =>
      have hx := h x (List.mem_cons_self x rest)
      rw [List.filterMap_cons]
      simp only [pyStrip_validSafeId x hx, hx, if_pos]
      rw [ih (fun a ha => h a (List.mem_cons_of_mem x ha))]

/-- `List.contains` in terms of membership. -/
theorem contains_false_iff (l : List String) (x : String) :
    l.contains x = false ↔ x ∉ l := by
  constructor
  · intro h hmem
    have h2 : l.contains x = true := List.elem_eq_true_of_mem hmem
    rw [h2] at h
    exact Bool.true_eq_false.mp h
  · intro h
    cases hc : l.contains x
    · rfl
    · exact absurd (List.mem_of_elem_eq_true hc) h

/-- A successful id pick is valid and fresh. -/
theorem sanitizeEntityId_ok (sup : Nat → String) (k : Nat) (seen : List String)
    (v : String) (h : (sanitizeEntityId sup k seen v).2.2 = true) :
    validSafeId (sanitizeEntityId sup k seen v).1 = true ∧
    seen.contains (sanitizeEntityId sup k seen v).1 = false := by
  unfold sanitizeEntityId at h ⊢
  split_ifs at h ⊢ with hc
  · have hc2 := (Bool.and_eq_true _ _).mp hc
    exact ⟨hc2.1, by simpa using hc2.2⟩
  · have hc2 := (Bool.and_eq_true _ _).mp h
    exact ⟨hc2.1, by simpa using hc2.2⟩

/-- Sanitising a valid, fresh id keeps it and consumes nothing. -/
theorem sanitizeEntityId_id (sup : Nat → String) (k : Nat) (seen : List String)
    (v : String) (hv : validSafeId v = true) (hf : seen.contains v = false) :
    sanitizeEntityId sup k seen v = (v, k, true) := by
  unfold sanitizeEntityId
  rw [pyStrip_validSafeId v hv]
  rw [if_pos (by simp only [hv, hf, Bool.not_false, Bool.and_self])]

/-- `intField` of a present, clamped value. -/
theorem intField_some (m d : Int) (hm : 0 ≤ m) :
    intField (some (some m)) d = m := by
  simp [intField, max_eq_right hm]

/-- `intField` is nonnegative when the default is. -/
theorem intField_nonneg (v : Option (Option Int)) (d : Int) (hd : 0 ≤ d) :
    0 ≤ intField v d := by
  rcases v with _ | v
  · simp [intField]
  · rcases v with _ | m
    · simpa [intField] using hd
    · simp [intField]

/-- The sanitised profile is in normal form. -/
theorem saneProfile_norm (i : String) (np : RawProfile)
    (hi : validSafeId i = true) : NormProfile (saneProfile i np) := by
  refine ⟨hi, ⟨_, rfl⟩, rfl, ⟨_, rfl⟩,
    ⟨_, rfl, intField_nonneg _ _ (by norm_num)⟩,
    ⟨_, rfl, intField_nonneg _ _ (by norm_num)⟩, rfl, ?_⟩
  rcases hc : np.config with _ | cv
  · exact ⟨"", "", by simp [saneProfile, hc]⟩
  · rcases cv with _ | ⟨u, t⟩
    · exact ⟨"", "", by simp [saneProfile, hc]⟩
    · exact ⟨u.getD "", t.getD "", by simp [saneProfile, hc]⟩

/-- Sanitising a normal-form profile under its own id is the identity. -/
theorem saneProfile_fixpoint (p : RawProfile) (h : NormProfile p) :
    saneProfile p.id p = p := by
  obtain ⟨hid, ⟨n, hn⟩, hty, ⟨b, hb⟩, ⟨m1, hm1, hm1n⟩, ⟨m2, hm2, hm2n⟩,
    hsz, ⟨u, t, hc⟩⟩ := h
  cases p
  simp only at hn hty hb hm1 hm2 hsz hc
  simp [saneProfile, hn, hty, hb, hm1, hm2, hsz, hc,
    intField_some _ _ hm1n, intField_some _ _ hm2n]

/-- The profile loop's output under a clean generation run: every profile
normal, every id fresh with respect to the incoming seen set, ids
duplicate-free. -/
theorem saneProfilesLoop_sound (sup : Nat → String) :
    ∀ (entries : List (RawEntry RawProfile)) (k : Nat) (seen : List String),
      (saneProfilesLoop sup k seen entries).2.2 = true →
      (∀ p ∈ (saneProfilesLoop sup k seen entries).1,
        NormProfile p ∧ seen.contains p.id = false) ∧
      ((saneProfilesLoop sup k seen entries).1.map
        (fun p => p.id)).Nodup := by
  intro entries
  induction entries with
  | nil => intro k seen _; exact ⟨by simp [saneProfilesLoop], by
      simp [saneProfilesLoop]⟩
  | cons e rest ih =>
      intro k seen hok
      cases e with
      | junk =>
          simpa [saneProfilesLoop] using ih k seen (by
            simpa [saneProfilesLoop] using hok)
      | entry np =>
          simp only [saneProfilesLoop] at hok ⊢
          have hok2 := (Bool.and_eq_true _ _).mp hok
          have hpick := sanitizeEntityId_ok sup k seen np.id hok2.1
          have htail := ih (sanitizeEntityId sup k seen np.id).2.1
            ((sanitizeEntityId sup k seen np.id).1 :: seen) hok2.2
          refine ⟨?_, ?_⟩
          · intro p hp
            rcases List.mem_cons.mp hp with rfl | hp'
            · exact ⟨saneProfile_norm _ np hpick.1, by
                simpa [saneProfile] using hpick.2⟩
            · have h3 := (htail.1 p hp').2
              refine ⟨(htail.1 p hp').1, ?_⟩
              rw [contains_false_iff] at h3 ⊢
              exact fun hmem => h3 (List.mem_cons_of_mem _ hmem)
          · rw [List.map_cons, List.nodup_cons]
            refine ⟨?_, htail.2⟩
            intro hmem
            obtain ⟨q, hq, hqid⟩ := List.mem_map.mp hmem
            have h3 := (htail.1 q hq).2
            rw [contains_false_iff] at h3
            apply h3
            rw [show (saneProfile (sanitizeEntityId sup k seen np.id).1 np).id =
              (sanitizeEntityId sup k seen np.id).1 from rfl] at hqid
            rw [← hqid]
            exact List.mem_cons_self _ _

/-- The profile loop is the identity on a junk-free, normal-form,
duplicate-free, fresh profile list, and consumes no generated ids. -/
theorem saneProfilesLoop_id (sup : Nat → String) :
    ∀ (l : List RawProfile) (k : Nat) (seen : List String),
      (∀ p ∈ l, NormProfile p) → (l.map (fun p => p.id)).Nodup →
      (∀ p ∈ l, seen.contains p.id = false) →
      saneProfilesLoop sup k seen (l.map .entry) = (l, k, true) := by
  intro l
  induction l with
  | nil => intro k seen _ _ _; simp [saneProfilesLoop]
  | cons p rest ih =>
      intro k seen hnorm hnodup hfresh
      have hp := hnorm p (List.mem_cons_self p rest)
      have hpid : validSafeId p.id = true := hp.1
      simp only [List.map_cons, saneProfilesLoop]
      rw [sanitizeEntityId_id sup k seen p.id hpid
        (hfresh p (List.mem_cons_self p rest))]
      have htail := ih k (p.id :: seen)
        (fun q hq => hnorm q (List.mem_cons_of_mem p hq))
        (List.nodup_cons.mp (by simpa using hnodup)).2
        (by
          intro q hq
          rw [contains_false_iff]
          intro hmem
          rcases List.mem_cons.mp hmem with heq | hmem'
          · have hne : p.id ∉ rest.map (fun r => r.id) :=
              (List.nodup_cons.mp (by simpa using hnodup)).1
            exact hne (heq ▸ List.mem_map.mpr ⟨q, hq, rfl⟩)
          · have h3 := hfresh q (List.mem_cons_of_mem p hq)
            rw [contains_false_iff] at h3
            exact h3 hmem')
      rw [htail]
      simp [saneProfile_fixpoint p hp]

/-- The sanitised case is in normal form. -/
theorem saneCase_norm (i : String) (c : RawCase)
    (hi : validSafeId i = true) : NormCase (saneCase i c) :=
  ⟨hi, ⟨_, rfl⟩, ⟨_, rfl⟩,
    ⟨_, rfl, normalize_case_state_idem (c.state.getD "")⟩⟩

/-- Sanitising a normal-form case under its own id is the identity. -/
theorem saneCase_fixpoint (c : RawCase) (h : NormCase c) :
    saneCase c.id c = c := by
  obtain ⟨hid, ⟨p, hp⟩, ⟨t, ht⟩, ⟨s, hs, hnorm⟩⟩ := h
  cases c
  simp only at hp ht hs
  simp [saneCase, hp, ht, hs, hnorm]

/-- The case loop's output under a clean generation run. -/
theorem saneCasesLoop_sound (sup : Nat → String) :
    ∀ (entries : List (RawEntry RawCase)) (k : Nat) (seen : List String),
      (saneCasesLoop sup k seen entries).2.2 = true →
      (∀ c ∈ (saneCasesLoop sup k seen entries).1,
        NormCase c ∧ seen.contains c.id = false) ∧
      ((saneCasesLoop sup k seen entries).1.map (fun c => c.id)).Nodup := by
  intro entries
  induction entries with
  | nil => intro k seen _; exact ⟨by simp [saneCasesLoop], by simp [saneCasesLoop]⟩
  | cons e rest ih =>
      intro k seen hok
      cases e with
      | junk =>
          simpa [saneCasesLoop] using ih k seen (by
            simpa [saneCasesLoop] using hok)
      | entry c =>
          simp only [saneCasesLoop] at hok ⊢
          have hok2 := (Bool.and_eq_true _ _).mp hok
          have hpick := sanitizeEntityId_ok sup k seen c.id hok2.1
          have htail := ih (sanitizeEntityId sup k seen c.id).2.1
            ((sanitizeEntityId sup k seen c.id).1 :: seen) hok2.2
          refine ⟨?_, ?_⟩
          · intro q hq
            rcases List.mem_cons.mp hq with rfl | hq'
            · exact ⟨saneCase_norm _ c hpick.1, by
                simpa [saneCase] using hpick.2⟩
            · have h3 := (htail.1 q hq').2
              refine ⟨(htail.1 q hq').1, ?_⟩
              rw [contains_false_iff] at h3 ⊢
              exact fun hmem => h3 (List.mem_cons_of_mem _ hmem)
          · rw [List.map_cons, List.nodup_cons]
            refine ⟨?_, htail.2⟩
            intro hmem
            obtain ⟨q, hq, hqid⟩ := List.mem_map.mp hmem
            have h3 := (htail.1 q hq).2
            rw [contains_false_iff] at h3
            apply h3
            rw [show (saneCase (sanitizeEntityId sup k seen c.id).1 c).id =
              (sanitizeEntityId sup k seen c.id).1 from rfl] at hqid
            rw [← hqid]
            exact List.mem_cons_self _ _

/-- The case loop is the identity on a junk-free, normal-form,
duplicate-free case list. -/
theorem saneCasesLoop_id (sup : Nat → String) :
    ∀ (l : List RawCase) (k : Nat) (seen : List String),
      (∀ c ∈ l, NormCase c) → (l.map (fun c => c.id)).Nodup →
      (∀ c ∈ l, seen.contains c.id = false) →
      saneCasesLoop sup k seen (l.map .entry) = (l, k, true) := by
  intro l
  induction l with
  | nil => intro k seen _ _ _; simp [saneCasesLoop]
  | cons c rest ih =>
      intro k seen hnorm hnodup hfresh
      have hc := hnorm c (List.mem_cons_self c rest)
      simp only [List.map_cons, saneCasesLoop]
      rw [sanitizeEntityId_id sup k seen c.id hc.1
        (hfresh c (List.mem_cons_self c rest))]
      have htail := ih k (c.id :: seen)
        (fun q hq => hnorm q (List.mem_cons_of_mem c hq))
        (List.nodup_cons.mp (by simpa using hnodup)).2
        (by
          intro q hq
          rw [contains_false_iff]
          intro hmem
          rcases List.mem_cons.mp hmem with heq | hmem'
          · have hne : c.id ∉ rest.map (fun x => x.id) :=
              (List.nodup_cons.mp (by simpa using hnodup)).1
            exact hne (heq ▸ List.mem_map.mpr ⟨q, hq, rfl⟩)
          · have h3 := hfresh q (List.mem_cons_of_mem c hq)
            rw [contains_false_iff] at h3
            exact h3 hmem')
      rw [htail]
      simp [saneCase_fixpoint c hc]

/-- Members of the de-duplicated list come from the original. -/
theorem pyDedup_subset : ∀ (l : List String) (x : String),
    x ∈ pyDedup l → x ∈ l := by
  intro l
  induction l using pyDedup.induct with
  | case1 => intro x hx; rw [pyDedup] at hx; exact absurd hx (by simp)
  | case2 y rest ih =>
      intro x hx
      rw [pyDedup] at hx
      rcases List.mem_cons.mp hx with rfl | hx'
      · exact List.mem_cons_self _ _
      · exact List.mem_cons_of_mem _ (List.mem_of_mem_filter (ih x hx'))

/-- De-duplication yields a duplicate-free list. -/
theorem pyDedup_nodup : ∀ (l : List String), (pyDedup l).Nodup := by
  intro l
  induction l using pyDedup.induct with
  | case1 => rw [pyDedup]; exact List.nodup_nil
  | case2 y rest ih =>
      rw [pyDedup]
      rw [List.nodup_cons]
      refine ⟨?_, ih⟩
      intro hmem
      have h2 := pyDedup_subset _ _ hmem
      have h3 := List.of_mem_filter h2
      simp at h3

/-- Every survivor of the strip-and-validate comprehension is valid. -/
theorem filterMap_strip_valid (l : List String) (x : String)
    (hx : x ∈ l.filterMap (fun v =>
      let s := pyStrip v
      if validSafeId s then some s else none)) :
    validSafeId x = true := by
  obtain ⟨v, _, hv⟩ := List.mem_filterMap.mp hx
  simp only at hv
  split_ifs at hv with h
  · exact (Option.some.inj hv) ▸ h

/-- Filtering by membership keeps a list whose members all qualify. -/
theorem filter_contains_id (l vids : List String)
    (h : ∀ x ∈ l, x ∈ vids) :
    l.filter (fun pid => vids.contains pid) = l := by
  rw [List.filter_eq_self]
  intro a ha
  exact List.elem_eq_true_of_mem (h a ha)

/-- The sanitised runner is in pre-normal form when the case generation
was clean. -/
theorem saneRunner_norm (sup : Nat → String) (k : Nat) (i : String)
    (r : RawRunner) (hi : validSafeId i = true)
    (hok : (saneRunner sup k i r).2.2 = true) :
    PreNormRunner (saneRunner sup k i r).1 := by
  have hcases := saneCasesLoop_sound sup (r.cases.getD []) k [] (by
    simpa [saneRunner] using hok)
  refine ⟨hi, ⟨_, rfl⟩, ⟨_, rfl⟩, ⟨_, rfl⟩, ⟨_, rfl⟩, ⟨_, rfl⟩,
    ⟨_, rfl, intField_nonneg _ _ (by norm_num)⟩,
    ⟨_, rfl, intField_nonneg _ _ (by norm_num)⟩,
    ⟨_, rfl, intField_nonneg _ _ (by norm_num)⟩, rfl,
    ⟨(saneCasesLoop sup k [] (r.cases.getD [])).1, rfl,
      fun c hc => (hcases.1 c hc).1, hcases.2⟩,
    ⟨_, rfl, fun x hx => filterMap_strip_valid _ x hx⟩,
    ⟨_, rfl, fun x hx => filterMap_strip_valid _ x hx⟩⟩

/-- Sanitising a pre-normal runner under its own id is the identity and
consumes no generated ids. -/
theorem saneRunner_fixpoint (sup : Nat → String) (k : Nat) (r : RawRunner)
    (h : PreNormRunner r) : saneRunner sup k r.id r = (r, k, true) := by
  obtain ⟨hid, ⟨n, hn⟩, ⟨cm, hcm⟩, ⟨lg, hlg⟩, ⟨sc, hsc⟩, ⟨mr, hmr⟩,
    ⟨m1, hm1, hm1n⟩, ⟨m2, hm2, hm2n⟩, ⟨m3, hm3, hm3n⟩, hsz,
    ⟨cl, hcl, hclnorm, hclnodup⟩, ⟨ids, hids, hidsv⟩,
    ⟨upd, hupd, hupdv⟩⟩ := h
  have hcases := saneCasesLoop_id sup cl k [] hclnorm hclnodup
    (by intro c _; rfl)
  cases r
  simp only at hn hcm hlg hsc hmr hm1 hm2 hm3 hsz hcl hids hupd
  subst hn hcm hlg hsc hmr hm1 hm2 hm3 hcl hids hupd
  simp only [saneRunner, Option.getD_some, hcases]
  simp [intField_some _ _ hm1n, intField_some _ _ hm2n,
    intField_some _ _ hm3n, filterMap_strip_id _ hidsv,
    filterMap_strip_id _ hupdv, hsz]

/-- The runner loop's output under a clean generation run. -/
theorem saneRunnersLoop_sound (sup : Nat → String) :
    ∀ (entries : List (RawEntry RawRunner)) (k : Nat) (seen : List String),
      (saneRunnersLoop sup k seen entries).2.2 = true →
      (∀ r ∈ (saneRunnersLoop sup k seen entries).1,
        PreNormRunner r ∧ seen.contains r.id = false) ∧
      ((saneRunnersLoop sup k seen entries).1.map (fun r => r.id)).Nodup := by
  intro entries
  induction entries with
  | nil => intro k seen _; exact ⟨by simp [saneRunnersLoop], by
      simp [saneRunnersLoop]⟩
  | cons e rest ih =>
      intro k seen hok
      cases e with
      | junk =>
          simpa [saneRunnersLoop] using ih k seen (by
            simpa [saneRunnersLoop] using hok)
      | entry r =>
          simp only [saneRunnersLoop] at hok ⊢
          have hok2 := (Bool.and_eq_true _ _).mp hok
          have hok3 := (Bool.and_eq_true _ _).mp hok2.1
          have hpick := sanitizeEntityId_ok sup k seen r.id hok3.1
          have htail := ih _ ((sanitizeEntityId sup k seen r.id).1 :: seen)
            hok2.2
          refine ⟨?_, ?_⟩
          · intro q hq
            rcases List.mem_cons.mp hq with rfl | hq'
            · refine ⟨saneRunner_norm sup _ _ r hpick.1 hok3.2, ?_⟩
              have hidq : (saneRunner sup
                  (sanitizeEntityId sup k seen r.id).2.1
                  (sanitizeEntityId sup k seen r.id).1 r).1.id =
                  (sanitizeEntityId sup k seen r.id).1 := by
                simp [saneRunner]
              rw [hidq]
              exact hpick.2
            · have h3 := (htail.1 q hq').2
              refine ⟨(htail.1 q hq').1, ?_⟩
              rw [contains_false_iff] at h3 ⊢
              exact fun hmem => h3 (List.mem_cons_of_mem _ hmem)
          · rw [List.map_cons, List.nodup_cons]
            refine ⟨?_, htail.2⟩
            intro hmem
            obtain ⟨q, hq, hqid⟩ := List.mem_map.mp hmem
            have h3 := (htail.1 q hq).2
            rw [contains_false_iff] at h3
            apply h3
            have hidq : (saneRunner sup
                (sanitizeEntityId sup k seen r.id).2.1
                (sanitizeEntityId sup k seen r.id).1 r).1.id =
                (sanitizeEntityId sup k seen r.id).1 := by
              simp [saneRunner]
            rw [hidq] at hqid
            rw [← hqid]
            exact List.mem_cons_self _ _

/-- The runner loop is the identity on a junk-free, pre-normal,
duplicate-free runner list. -/
theorem saneRunnersLoop_id (sup : Nat → String) :
    ∀ (l : List RawRunner) (k : Nat) (seen : List String),
      (∀ r ∈ l, PreNormRunner r) → (l.map (fun r => r.id)).Nodup →
      (∀ r ∈ l, seen.contains r.id = false) →
      saneRunnersLoop sup k seen (l.map .entry) = (l, k, true) := by
  intro l
  induction l with
  | nil => intro k seen _ _ _; simp [saneRunnersLoop]
  | cons r rest ih =>
      intro k seen hnorm hnodup hfresh
      have hr := hnorm r (List.mem_cons_self r rest)
      simp only [List.map_cons, saneRunnersLoop]
      rw [sanitizeEntityId_id sup k seen r.id hr.1
        (hfresh r (List.mem_cons_self r rest))]
      rw [saneRunner_fixpoint sup k r hr]
      have htail := ih k (r.id :: seen)
        (fun q hq => hnorm q (List.mem_cons_of_mem r hq))
        (List.nodup_cons.mp (by simpa using hnodup)).2
        (by
          intro q hq
          rw [contains_false_iff]
          intro hmem
          rcases List.mem_cons.mp hmem with heq | hmem'
          · have hne : r.id ∉ rest.map (fun x => x.id) :=
              (List.nodup_cons.mp (by simpa using hnodup)).1
            exact hne (heq ▸ List.mem_map.mpr ⟨q, hq, rfl⟩)
          · have h3 := hfresh q (List.mem_cons_of_mem r hq)
            rw [contains_false_iff] at h3
            exact h3 hmem')
      rw [htail]
      simp

/-- The reference post-filter preserves the id and the pre-normal fields
and establishes the reference conditions of `NormRunner`. -/
theorem filterRunnerRefs_norm (vids : List String) (r : RawRunner)
    (h : PreNormRunner r) : NormRunner vids (filterRunnerRefs vids r) ∧
      (filterRunnerRefs vids r).id = r.id := by
  obtain ⟨hid, ⟨n, hn⟩, ⟨cm, hcm⟩, ⟨lg, hlg⟩, ⟨sc, hsc⟩, ⟨mr, hmr⟩,
    ⟨m1, hm1, hm1n⟩, ⟨m2, hm2, hm2n⟩, ⟨m3, hm3, hm3n⟩, hsz,
    ⟨cl, hcl, hclnorm, hclnodup⟩, ⟨ids, hids, hidsv⟩,
    ⟨upd, hupd, hupdv⟩⟩ := h
  constructor
  · refine ⟨hid, ⟨n, hn⟩, ⟨cm, hcm⟩, ⟨lg, hlg⟩, ⟨sc, hsc⟩, ⟨mr, hmr⟩,
      ⟨m1, hm1, hm1n⟩, ⟨m2, hm2, hm2n⟩, ⟨m3, hm3, hm3n⟩, hsz,
      ⟨cl, hcl, hclnorm, hclnodup⟩, ?_⟩
    refine ⟨(pyDedup ids).filter (fun pid => vids.contains pid),
      by simp [filterRunnerRefs, hids], ?_, ?_, ?_⟩
    · intro i hi
      have hi1 := List.mem_of_mem_filter hi
      have hi2 := List.of_mem_filter hi
      exact ⟨hidsv i (pyDedup_subset ids i hi1),
        List.mem_of_elem_eq_true hi2⟩
    · exact (pyDedup_nodup ids).filter _
    · refine ⟨(pyDedup upd).filter (fun pid =>
        ((pyDedup ids).filter (fun q => vids.contains q)).contains pid),
        by simp [filterRunnerRefs, hids, hupd], ?_, ?_⟩
      · intro i hi
        have hi1 := List.mem_of_mem_filter hi
        have hi2 := List.of_mem_filter hi
        exact ⟨hupdv i (pyDedup_subset upd i hi1),
          List.mem_of_elem_eq_true hi2⟩
      · exact (pyDedup_nodup upd).filter _
  · simp [filterRunnerRefs]

/-- The reference post-filter is the identity on a runner whose
references are already duplicate-free and resolve. -/
theorem filterRunnerRefs_fixpoint (vids : List String) (r : RawRunner)
    (h : NormRunner vids r) : filterRunnerRefs vids r = r := by
  obtain ⟨hid, ⟨n, hn⟩, ⟨cm, hcm⟩, ⟨lg, hlg⟩, ⟨sc, hsc⟩, ⟨mr, hmr⟩,
    ⟨m1, hm1, hm1n⟩, ⟨m2, hm2, hm2n⟩, ⟨m3, hm3, hm3n⟩, hsz,
    ⟨cl, hcl, hclnorm, hclnodup⟩,
    ⟨ids, hids, hidsv, hidsnodup, ⟨upd, hupd, hupdv, hupdnodup⟩⟩⟩ := h
  have hids1 : pyDedup ids = ids := pyDedup_nodup_id ids hidsnodup
  have hids2 : ids.filter (fun pid => vids.contains pid) = ids :=
    filter_contains_id ids vids (fun x hx => (hidsv x hx).2)
  have hupd1 : pyDedup upd = upd := pyDedup_nodup_id upd hupdnodup
  have hupd2 : upd.filter (fun pid => ids.contains pid) = upd :=
    filter_contains_id upd ids (fun x hx => (hupdv x hx).2)
  cases r
  simp only at hids hupd
  subst hids hupd
  simp [filterRunnerRefs, hids1, hids2, hupd1, hupd2]
  exact ⟨fun a ha => (hidsv a ha).2,
    fun a ha => ⟨(hupdv a ha).2, (hidsv a (hupdv a ha).2).2⟩⟩

/-- What the group member loop guarantees: a duplicate-free list of
valid, resolvable, previously unassigned ids, all marked assigned. -/
theorem groupRunnerIdsLoop_sound (validR : List String) :
    ∀ (raws assigned acc : List String),
      acc.Nodup → (∀ x ∈ acc, x ∈ assigned) →
      (∀ x ∈ acc, validSafeId x = true ∧ x ∈ validR) →
      (groupRunnerIdsLoop validR assigned acc raws).1.Nodup ∧
      (∀ x ∈ (groupRunnerIdsLoop validR assigned acc raws).1,
        validSafeId x = true ∧ x ∈ validR) ∧
      (∀ x ∈ (groupRunnerIdsLoop validR assigned acc raws).1,
        x ∈ acc ∨ x ∉ assigned) ∧
      (∀ x ∈ (groupRunnerIdsLoop validR assigned acc raws).1,
        x ∈ (groupRunnerIdsLoop validR assigned acc raws).2) ∧
      (∀ x ∈ assigned, x ∈ (groupRunnerIdsLoop validR assigned acc raws).2) := by
  intro raws
  induction raws with
  | nil =>
      intro assigned acc hnodup hsub hval
      simp only [groupRunnerIdsLoop]
      refine ⟨by simpa using hnodup, ?_, ?_, ?_, fun x hx => hx⟩
      · intro x hx; exact hval x (by simpa using hx)
      · intro x hx; exact Or.inl (by simpa using hx)
      · intro x hx; exact hsub x (by simpa using hx)
  | cons raw rest ih =>
      intro assigned acc hnodup hsub hval
      by_cases h1 : validSafeId (pyStrip raw) = true
      case neg =>
          have h1f : validSafeId (pyStrip raw) = false := by
            cases h : validSafeId (pyStrip raw)
            · rfl
            · exact absurd h h1
          rw [show groupRunnerIdsLoop validR assigned acc (raw :: rest) =
            groupRunnerIdsLoop validR assigned acc rest from by
            simp [groupRunnerIdsLoop, h1f]]
          exact ih assigned acc hnodup hsub hval
      by_cases h2 : pyStrip raw ∈ validR
      case neg =>
          rw [show groupRunnerIdsLoop validR assigned acc (raw :: rest) =
            groupRunnerIdsLoop validR assigned acc rest from by
            simp [groupRunnerIdsLoop, h1, h2]]
          exact ih assigned acc hnodup hsub hval
      by_cases h3 : pyStrip raw ∈ assigned
      case pos =>
          rw [show groupRunnerIdsLoop validR assigned acc (raw :: rest) =
            groupRunnerIdsLoop validR assigned acc rest from by
            simp [groupRunnerIdsLoop, h1, h2, h3]]
          exact ih assigned acc hnodup hsub hval
      by_cases h4 : pyStrip raw ∈ acc
      case pos =>
          rw [show groupRunnerIdsLoop validR assigned acc (raw :: rest) =
            groupRunnerIdsLoop validR assigned acc rest from by
            simp [groupRunnerIdsLoop, h1, h2, h3, h4]]
          exact ih assigned acc hnodup hsub hval
      have ih2 := ih (pyStrip raw :: assigned) (pyStrip raw :: acc)
        (List.nodup_cons.mpr ⟨h4, hnodup⟩)
        (by
          intro x hx
          rcases List.mem_cons.mp hx with rfl | hx'
          · exact List.mem_cons_self _ _
          · exact List.mem_cons_of_mem _ (hsub x hx'))
        (by
          intro x hx
          rcases List.mem_cons.mp hx with rfl | hx'
          · exact ⟨h1, h2⟩
          · exact hval x hx')
      rw [show groupRunnerIdsLoop validR assigned acc (raw :: rest) =
        groupRunnerIdsLoop validR (pyStrip raw :: assigned)
          (pyStrip raw :: acc) rest from by
        simp [groupRunnerIdsLoop, h1, h2, h3, h4]]
      refine ⟨ih2.1, ih2.2.1, ?_, ih2.2.2.2.1, ?_⟩
      · intro x hx
        rcases ih2.2.2.1 x hx with hacc | hnass
        · rcases List.mem_cons.mp hacc with rfl | hacc'
          · exact Or.inr h3
          · exact Or.inl hacc'
        · exact Or.inr (fun hm => hnass (List.mem_cons_of_mem _ hm))
      · intro x hx
        exact ih2.2.2.2.2 x (List.mem_cons_of_mem _ hx)

/-- The group member loop is the identity on an all-pass member list, and
marks exactly those members assigned. -/
theorem groupRunnerIdsLoop_id (validR : List String) :
    ∀ (mems assigned : List String),
      (∀ x ∈ mems, validSafeId x = true ∧ x ∈ validR ∧ x ∉ assigned) →
      mems.Nodup →
      (groupRunnerIdsLoop validR assigned [] mems).1 = mems ∧
      (∀ y, y ∈ (groupRunnerIdsLoop validR assigned [] mems).2 ↔
        y ∈ assigned ∨ y ∈ mems) := by
  have main : ∀ (mems assigned acc : List String),
      (∀ x ∈ mems, validSafeId x = true ∧ x ∈ validR ∧ x ∉ assigned ∧ x ∉ acc) →
      mems.Nodup →
      (groupRunnerIdsLoop validR assigned acc mems).1 = acc.reverse ++ mems ∧
      (∀ y, y ∈ (groupRunnerIdsLoop validR assigned acc mems).2 ↔
        y ∈ assigned ∨ y ∈ mems) := by
    intro mems
    induction mems with
    | nil =>
        intro assigned acc _ _
        simp [groupRunnerIdsLoop]
    | cons m rest ih =>
        intro assigned acc hall hnodup
        obtain ⟨hv, hr, hna, hnc⟩ := hall m (List.mem_cons_self m rest)
        have hstrip : pyStrip m = m := pyStrip_validSafeId m hv
        have step : groupRunnerIdsLoop validR assigned acc (m :: rest) =
            groupRunnerIdsLoop validR (m :: assigned) (m :: acc) rest := by
          simp [groupRunnerIdsLoop, hstrip, hv, hr, hna, hnc]
        rw [step]
        have ih2 := ih (m :: assigned) (m :: acc)
          (by
            intro x hx
            obtain ⟨xv, xr, xna, xnc⟩ := hall x (List.mem_cons_of_mem m hx)
            have hxm : x ≠ m := by
              intro heq
              exact (List.nodup_cons.mp hnodup).1 (heq ▸ hx)
            exact ⟨xv, xr,
              fun hm => (List.mem_cons.mp hm).elim hxm xna,
              fun hm => (List.mem_cons.mp hm).elim hxm xnc⟩)
          (List.nodup_cons.mp hnodup).2
        refine ⟨?_, ?_⟩
        · rw [ih2.1]
          simp
        · intro y
          rw [ih2.2 y]
          constructor
          · rintro (hy | hy)
            · rcases List.mem_cons.mp hy with rfl | hy'
              · exact Or.inr (List.mem_cons_self _ _)
              · exact Or.inl hy'
            · exact Or.inr (List.mem_cons_of_mem _ hy)
          · rintro (hy | hy)
            · exact Or.inl (List.mem_cons_of_mem _ hy)
            · rcases List.mem_cons.mp hy with rfl | hy'
              · exact Or.inl (List.mem_cons_self _ _)
              · exact Or.inr hy'
  intro mems assigned hall hnodup
  have h := main mems assigned []
    (by intro x hx; obtain ⟨a, b, c⟩ := hall x hx; exact ⟨a, b, c, by simp⟩)
    hnodup
  exact ⟨by simpa using h.1, h.2⟩

/-- The group loop's output under a clean generation run: normal groups
with fresh ids, duplicate-free ids, members disjoint from the incoming
assigned set and pairwise disjoint between groups. -/
theorem saneGroupsLoop_sound (sup : Nat → String) (validR : List String) :
    ∀ (entries : List (RawEntry RawGroup)) (k : Nat)
      (seenG assigned : List String),
      (saneGroupsLoop sup validR k seenG assigned entries).2.2.2 = true →
      (∀ g ∈ (saneGroupsLoop sup validR k seenG assigned entries).1,
        NormGroup validR g ∧ seenG.contains g.id = false ∧
        (∀ x ∈ g.runner_ids.getD [], x ∉ assigned)) ∧
      ((saneGroupsLoop sup validR k seenG assigned entries).1.map
        (fun g => g.id)).Nodup ∧
      List.Pairwise (fun g1 g2 =>
        ∀ x ∈ g1.runner_ids.getD [], x ∉ g2.runner_ids.getD [])
        (saneGroupsLoop sup validR k seenG assigned entries).1 := by
  intro entries
  induction entries with
  | nil =>
      intro k seenG assigned _
      exact ⟨by simp [saneGroupsLoop], by simp [saneGroupsLoop],
        by simp [saneGroupsLoop]⟩
  | cons e rest ih =>
      intro k seenG assigned hok
      cases e with
      | junk =>
          simpa [saneGroupsLoop] using ih k seenG assigned (by
            simpa [saneGroupsLoop] using hok)
      | entry g =>
          simp only [saneGroupsLoop] at hok ⊢
          have hok2 := (Bool.and_eq_true _ _).mp hok
          have hpick := sanitizeEntityId_ok sup k seenG g.id hok2.1
          have hloop := groupRunnerIdsLoop_sound validR
            (g.runner_ids.getD []) assigned [] List.nodup_nil
            (by simp) (by simp)
          have htail := ih (sanitizeEntityId sup k seenG g.id).2.1
            ((sanitizeEntityId sup k seenG g.id).1 :: seenG)
            (groupRunnerIdsLoop validR assigned []
              (g.runner_ids.getD [])).2 hok2.2
          refine ⟨?_, ?_, ?_⟩
          · intro q hq
            rcases List.mem_cons.mp hq with rfl | hq'
            · refine ⟨⟨hpick.1, ?_, ?_⟩, hpick.2, ?_⟩
              · refine ⟨_, rfl, ?_⟩
                by_cases hn : g.name.getD "Group" = "" <;> simp [hn]
              · exact ⟨_, rfl, fun i hi => hloop.2.1 i hi, hloop.1⟩
              · intro x hx
                simp only [Option.getD_some] at hx
                rcases hloop.2.2.1 x hx with hin | hout
                · exact absurd hin (by simp)
                · exact hout
            · obtain ⟨hnorm, hseen, hass⟩ := htail.1 q hq'
              refine ⟨hnorm, ?_, ?_⟩
              · rw [contains_false_iff] at hseen ⊢
                exact fun hm => hseen (List.mem_cons_of_mem _ hm)
              · intro x hx hxa
                exact hass x hx (hloop.2.2.2.2 x hxa)
          · rw [List.map_cons, List.nodup_cons]
            refine ⟨?_, htail.2.1⟩
            intro hmem
            obtain ⟨q, hq, hqid⟩ := List.mem_map.mp hmem
            have h3 := (htail.1 q hq).2.1
            rw [contains_false_iff] at h3
            apply h3
            have hqid2 : q.id = (sanitizeEntityId sup k seenG g.id).1 := hqid
            rw [hqid2]
            exact List.mem_cons_self _ _
          · rw [List.pairwise_cons]
            refine ⟨?_, htail.2.2⟩
            intro g2 hg2 x hx
            simp only [Option.getD_some] at hx
            exact fun hm => (htail.1 g2 hg2).2.2 x hm
              (hloop.2.2.2.1 x hx)

/-- The group loop reproduces a normal-form, duplicate-free,
pairwise-disjoint group list whose members avoid the incoming assigned
set. -/
theorem saneGroupsLoop_id (sup : Nat → String) (validR : List String) :
    ∀ (gl : List RawGroup) (k : Nat) (seenG assigned : List String),
      (∀ g ∈ gl, NormGroup validR g) → (gl.map (fun g => g.id)).Nodup →
      (∀ g ∈ gl, seenG.contains g.id = false) →
      List.Pairwise (fun g1 g2 =>
        ∀ x ∈ g1.runner_ids.getD [], x ∉ g2.runner_ids.getD []) gl →
      (∀ g ∈ gl, ∀ x ∈ g.runner_ids.getD [], x ∉ assigned) →
      (saneGroupsLoop sup validR k seenG assigned (gl.map .entry)).1 = gl := by
  intro gl
  induction gl with
  | nil => intro k seenG assigned _ _ _ _ _; simp [saneGroupsLoop]
  | cons g rest ih =>
      intro k seenG assigned hnorm hnodup hfresh hpair hass
      obtain ⟨hid, ⟨n, hn, hnne⟩, ⟨memsl, hmem, hmemv, hmemnd⟩⟩ :=
        hnorm g (List.mem_cons_self g rest)
      simp only [List.map_cons, saneGroupsLoop]
      rw [sanitizeEntityId_id sup k seenG g.id hid
        (hfresh g (List.mem_cons_self g rest))]
      have hloop := groupRunnerIdsLoop_id validR memsl assigned
        (by
          intro x hx
          exact ⟨(hmemv x hx).1, (hmemv x hx).2,
            hass g (List.mem_cons_self g rest) x (by simp [hmem, hx])⟩)
        hmemnd
      rw [hmem]
      simp only [Option.getD_some]
      rw [hloop.1]
      have hsane : (⟨g.id,
          some (if (g.name.getD "Group") = "" then "Group"
            else g.name.getD "Group"),
          some memsl⟩ : RawGroup) = g := by
        cases g
        simp only at hn hmem
        subst hn hmem
        simp [hnne]
      have htail := ih k (g.id :: seenG)
        (groupRunnerIdsLoop validR assigned [] memsl).2
        (fun q hq => hnorm q (List.mem_cons_of_mem g hq))
        (List.nodup_cons.mp (by simpa using hnodup)).2
        (by
          intro q hq
          rw [contains_false_iff]
          intro hmemq
          rcases List.mem_cons.mp hmemq with heq | hmemq'
          · have hne : g.id ∉ rest.map (fun x => x.id) :=
              (List.nodup_cons.mp (by simpa using hnodup)).1
            exact hne (heq ▸ List.mem_map.mpr ⟨q, hq, rfl⟩)
          · have h3 := hfresh q (List.mem_cons_of_mem g hq)
            rw [contains_false_iff] at h3
            exact h3 hmemq')
        ((List.pairwise_cons.mp hpair).2)
        (by
          intro q hq x hx hxass
          rcases (hloop.2 x).mp hxass with hold | hnew
          · exact hass q (List.mem_cons_of_mem g hq) x hx hold
          · exact (List.pairwise_cons.mp hpair).1 q hq x
              (by simp [hmem, hnew]) hx)
      rw [htail, hsane]

/-- Well-formedness of one sane layout item. -/
def LayoutItemWF (validR validG grouped : List String)
    (item : RawLayoutItem) : Prop :=
  (item.ltype = some "runner" ∧ ∃ i, item.lid = some i ∧
    validSafeId i = true ∧ i ∈ validR ∧ i ∉ grouped) ∨
  (item.ltype = some "group" ∧ ∃ i, item.lid = some i ∧
    validSafeId i = true ∧ i ∈ validG)

/-- The layout loop's output: well-formed, duplicate-free, fresh items,
with the seen sets collecting exactly the kept ids. -/
theorem saneLayoutLoop_sound (validR validG grouped : List String)
    (hvr : ∀ r ∈ validR, validSafeId r = true)
    (hvg : ∀ g ∈ validG, validSafeId g = true) :
    ∀ (entries : List (RawEntry RawLayoutItem)) (seenR seenG : List String),
      (∀ item ∈ (saneLayoutLoop validR validG grouped seenR seenG entries).1,
        LayoutItemWF validR validG grouped item) ∧
      (runnerItemIds
        (saneLayoutLoop validR validG grouped seenR seenG entries).1).Nodup ∧
      (∀ i ∈ runnerItemIds
        (saneLayoutLoop validR validG grouped seenR seenG entries).1,
        i ∉ seenR) ∧
      (groupItemIds
        (saneLayoutLoop validR validG grouped seenR seenG entries).1).Nodup ∧
      (∀ i ∈ groupItemIds
        (saneLayoutLoop validR validG grouped seenR seenG entries).1,
        i ∉ seenG) ∧
      (∀ y, y ∈ (saneLayoutLoop validR validG grouped seenR seenG entries).2.1 ↔
        y ∈ seenR ∨ y ∈ runnerItemIds
          (saneLayoutLoop validR validG grouped seenR seenG entries).1) ∧
      (∀ y, y ∈ (saneLayoutLoop validR validG grouped seenR seenG entries).2.2 ↔
        y ∈ seenG ∨ y ∈ groupItemIds
          (saneLayoutLoop validR validG grouped seenR seenG entries).1) := by
  intro entries
  induction entries with
  | nil =>
      intro seenR seenG
      simp [saneLayoutLoop, runnerItemIds, groupItemIds]
  | cons e rest ih =>
      intro seenR seenG
      cases e with
      | junk => simpa [saneLayoutLoop] using ih seenR seenG
      | entry item =>
          by_cases ht : pyLower (pyStrip (item.ltype.getD "")) = "runner"
          · by_cases hskip : validR.contains (pyStrip (item.lid.getD "")) = false ∨
                grouped.contains (pyStrip (item.lid.getD "")) ∨
                seenR.contains (pyStrip (item.lid.getD ""))
            · rw [show saneLayoutLoop validR validG grouped seenR seenG
                  (.entry item :: rest) =
                saneLayoutLoop validR validG grouped seenR seenG rest from by
                simp only [saneLayoutLoop]
                rw [if_pos ht, if_pos hskip]]
              exact ih seenR seenG
            · push_neg at hskip
              obtain ⟨h1, h2, h3⟩ := hskip
              have h1' : pyStrip (item.lid.getD "") ∈ validR := by
                cases hc : validR.contains (pyStrip (item.lid.getD ""))
                · exact absurd hc h1
                · exact List.mem_of_elem_eq_true hc
              have h2' : pyStrip (item.lid.getD "") ∉ grouped := by
                rw [← contains_false_iff]
                simpa using h2
              have h3' : pyStrip (item.lid.getD "") ∉ seenR := by
                rw [← contains_false_iff]
                simpa using h3
              rw [show saneLayoutLoop validR validG grouped seenR seenG
                  (.entry item :: rest) =
                (({ ltype := some "runner",
                    lid := some (pyStrip (item.lid.getD "")) } : RawLayoutItem) ::
                  (saneLayoutLoop validR validG grouped
                    (pyStrip (item.lid.getD "") :: seenR) seenG rest).1,
                 (saneLayoutLoop validR validG grouped
                    (pyStrip (item.lid.getD "") :: seenR) seenG rest).2.1,
                 (saneLayoutLoop validR validG grouped
                    (pyStrip (item.lid.getD "") :: seenR) seenG rest).2.2) from by
                simp only [saneLayoutLoop]
                rw [if_pos ht, if_neg (by
                  push_neg
                  exact ⟨fun hc => h1 hc, by simpa using h2, by simpa using h3⟩)]]
              have ihr := ih (pyStrip (item.lid.getD "") :: seenR) seenG
              simp only [runnerItemIds, groupItemIds, List.filterMap_cons] at *
              refine ⟨?_, ?_, ?_, ?_, ?_, ?_, ?_⟩
              · intro it hit
                rcases List.mem_cons.mp hit with rfl | hit'
                · exact Or.inl ⟨rfl, _, rfl, hvr _ h1', h1', h2'⟩
                · exact ihr.1 it hit'
              · simp only [reduceIte]
                rw [List.nodup_cons]
                refine ⟨?_, ihr.2.1⟩
                intro hmem
                exact (ihr.2.2.1 _ hmem) (List.mem_cons_self _ _)
              · simp only [reduceIte]
                intro i hi
                rcases List.mem_cons.mp hi with rfl | hi'
                · exact h3'
                · exact fun hm => (ihr.2.2.1 i hi') (List.mem_cons_of_mem _ hm)
              · simpa using ihr.2.2.2.1
              · simpa using ihr.2.2.2.2.1
              · intro y
                simp only [reduceIte]
                rw [ihr.2.2.2.2.2.1 y]
                constructor
                · rintro (hy | hy)
                  · rcases List.mem_cons.mp hy with rfl | hy'
                    · exact Or.inr (List.mem_cons_self _ _)
                    · exact Or.inl hy'
                  · exact Or.inr (List.mem_cons_of_mem _ hy)
                · rintro (hy | hy)
                  · exact Or.inl (List.mem_cons_of_mem _ hy)
                  · rcases List.mem_cons.mp hy with rfl | hy'
                    · exact Or.inl (List.mem_cons_self _ _)
                    · exact Or.inr hy'
              · intro y
                exact by simpa using ihr.2.2.2.2.2.2 y
          · by_cases hg : pyLower (pyStrip (item.ltype.getD "")) = "group"
            · by_cases hskip : validG.contains (pyStrip (item.lid.getD "")) = false ∨
                  seenG.contains (pyStrip (item.lid.getD ""))
              · rw [show saneLayoutLoop validR validG grouped seenR seenG
                    (.entry item :: rest) =
                  saneLayoutLoop validR validG grouped seenR seenG rest from by
                  simp only [saneLayoutLoop]
                  rw [if_neg ht, if_pos hg, if_pos hskip]]
                exact ih seenR seenG
              · push_neg at hskip
                obtain ⟨h1, h2⟩ := hskip
                have h1' : pyStrip (item.lid.getD "") ∈ validG := by
                  cases hc : validG.contains (pyStrip (item.lid.getD ""))
                  · exact absurd hc h1
                  · exact List.mem_of_elem_eq_true hc
                have h2' : pyStrip (item.lid.getD "") ∉ seenG := by
                  rw [← contains_false_iff]
                  simpa using h2
                rw [show saneLayoutLoop validR validG grouped seenR seenG
                    (.entry item :: rest) =
                  (({ ltype := some "group",
                      lid := some (pyStrip (item.lid.getD "")) } : RawLayoutItem) ::
                    (saneLayoutLoop validR validG grouped seenR
                      (pyStrip (item.lid.getD "") :: seenG) rest).1,
                   (saneLayoutLoop validR validG grouped seenR
                      (pyStrip (item.lid.getD "") :: seenG) rest).2.1,
                   (saneLayoutLoop validR validG grouped seenR
                      (pyStrip (item.lid.getD "") :: seenG) rest).2.2) from by
                  simp only [saneLayoutLoop]
                  rw [if_neg ht, if_pos hg, if_neg (by
                    push_neg
                    exact ⟨fun hc => h1 hc, by simpa using h2⟩)]]
                have ihg := ih seenR (pyStrip (item.lid.getD "") :: seenG)
                simp only [runnerItemIds, groupItemIds, List.filterMap_cons] at *
                refine ⟨?_, ?_, ?_, ?_, ?_, ?_, ?_⟩
                · intro it hit
                  rcases List.mem_cons.mp hit with rfl | hit'
                  · exact Or.inr ⟨rfl, _, rfl, hvg _ h1', h1'⟩
                  · exact ihg.1 it hit'
                · simpa using ihg.2.1
                · simpa using ihg.2.2.1
                · simp only [reduceIte]
                  rw [List.nodup_cons]
                  refine ⟨?_, ihg.2.2.2.1⟩
                  intro hmem
                  exact (ihg.2.2.2.2.1 _ hmem) (List.mem_cons_self _ _)
                · simp only [reduceIte]
                  intro i hi
                  rcases List.mem_cons.mp hi with rfl | hi'
                  · exact h2'
                  · exact fun hm => (ihg.2.2.2.2.1 i hi')
                      (List.mem_cons_of_mem _ hm)
                · intro y
                  exact by simpa using ihg.2.2.2.2.2.1 y
                · intro y
                  simp only [reduceIte]
                  rw [ihg.2.2.2.2.2.2 y]
                  constructor
                  · rintro (hy | hy)
                    · rcases List.mem_cons.mp hy with rfl | hy'
                      · exact Or.inr (List.mem_cons_self _ _)
                      · exact Or.inl hy'
                    · exact Or.inr (List.mem_cons_of_mem _ hy)
                  · rintro (hy | hy)
                    · exact Or.inl (List.mem_cons_of_mem _ hy)
                    · rcases List.mem_cons.mp hy with rfl | hy'
                      · exact Or.inl (List.mem_cons_self _ _)
                      · exact Or.inr hy'
            · rw [show saneLayoutLoop validR validG grouped seenR seenG
                  (.entry item :: rest) =
                saneLayoutLoop validR validG grouped seenR seenG rest from by
                simp only [saneLayoutLoop]
                rw [if_neg ht, if_neg hg]]
              exact ih seenR seenG

/-- The layout loop is the identity on a list of well-formed, duplicate-free,
fresh items, and its seen sets collect exactly those items' ids. -/
theorem saneLayoutLoop_id (validR validG grouped : List String) :
    ∀ (ll : List RawLayoutItem) (seenR seenG : List String),
      (∀ item ∈ ll, LayoutItemWF validR validG grouped item) →
      (runnerItemIds ll).Nodup → (∀ i ∈ runnerItemIds ll, i ∉ seenR) →
      (groupItemIds ll).Nodup → (∀ i ∈ groupItemIds ll, i ∉ seenG) →
      (saneLayoutLoop validR validG grouped seenR seenG (ll.map .entry)).1 =
        ll ∧
      (∀ y, y ∈ (saneLayoutLoop validR validG grouped seenR seenG
          (ll.map .entry)).2.1 ↔ y ∈ seenR ∨ y ∈ runnerItemIds ll) ∧
      (∀ y, y ∈ (saneLayoutLoop validR validG grouped seenR seenG
          (ll.map .entry)).2.2 ↔ y ∈ seenG ∨ y ∈ groupItemIds ll) := by
  intro ll
  induction ll with
  | nil =>
      intro seenR seenG _ _ _ _ _
      simp [saneLayoutLoop, runnerItemIds, groupItemIds]
  | cons item rest ih =>
      intro seenR seenG hwf hrn hrf hgn hgf
      rcases hwf item (List.mem_cons_self _ _) with
        ⟨hty, i, hid, hvi, hmem, hng⟩ | ⟨hty, i, hid, hvi, hmem⟩
      · have hstrip : pyStrip i = i := pyStrip_validSafeId i hvi
        have hhead : i ∈ runnerItemIds (item :: rest) := by
          simp [runnerItemIds, List.filterMap_cons, hty, hid]
        have hrids : runnerItemIds (item :: rest) = i :: runnerItemIds rest := by
          simp [runnerItemIds, List.filterMap_cons, hty, hid]
        have hgids : groupItemIds (item :: rest) = groupItemIds rest := by
          have : item.ltype ≠ some "group" := by
            rw [hty]
            intro hc
            exact absurd (Option.some.inj hc) (by decide)
          simp [groupItemIds, List.filterMap_cons, this]
        rw [hrids] at hrn hrf
        rw [hgids] at hgn hgf
        have hins : i ∉ seenR := hrf i (List.mem_cons_self _ _)
        have hstep : saneLayoutLoop validR validG grouped seenR seenG
            ((item :: rest).map .entry) =
          (item ::
            (saneLayoutLoop validR validG grouped (i :: seenR) seenG
              (rest.map .entry)).1,
           (saneLayoutLoop validR validG grouped (i :: seenR) seenG
              (rest.map .entry)).2.1,
           (saneLayoutLoop validR validG grouped (i :: seenR) seenG
              (rest.map .entry)).2.2) := by
          simp only [List.map_cons, saneLayoutLoop]
          rw [hty, hid]
          rw [show pyLower (pyStrip (Option.getD (some "runner") "")) =
            "runner" from by decide]
          rw [show pyStrip (Option.getD (some i) "") = i from hstrip]
          rw [if_pos rfl, if_neg (by
            push_neg
            refine ⟨?_, ?_, ?_⟩
            · intro hc
              exact absurd ((contains_false_iff _ _).mp hc) (by simpa using hmem)
            · simpa using (contains_false_iff grouped i).mpr hng
            · simpa using (contains_false_iff seenR i).mpr hins)]
          cases item with
          | mk lt li =>
              simp at hty hid
              subst hty
              subst hid
              rfl
        have ihr := ih (i :: seenR) seenG
          (fun it hit => hwf it (List.mem_cons_of_mem _ hit))
          (List.nodup_cons.mp hrn).2
          (by
            intro j hj hjm
            rcases List.mem_cons.mp hjm with rfl | hjm'
            · exact (List.nodup_cons.mp hrn).1 hj
            · exact hrf j (List.mem_cons_of_mem _ hj) hjm')
          hgn hgf
        rw [hstep]
        refine ⟨by rw [ihr.1], ?_, ?_⟩
        · intro y
          rw [show ((item :: (saneLayoutLoop validR validG grouped (i :: seenR)
              seenG (rest.map .entry)).1,
             (saneLayoutLoop validR validG grouped (i :: seenR) seenG
              (rest.map .entry)).2.1,
             (saneLayoutLoop validR validG grouped (i :: seenR) seenG
              (rest.map .entry)).2.2) :
              List RawLayoutItem × List String × List String).2.1 =
            (saneLayoutLoop validR validG grouped (i :: seenR) seenG
              (rest.map .entry)).2.1 from rfl]
          rw [ihr.2.1 y, hrids]
          constructor
          · rintro (hy | hy)
            · rcases List.mem_cons.mp hy with rfl | hy'
              · exact Or.inr (List.mem_cons_self _ _)
              · exact Or.inl hy'
            · exact Or.inr (List.mem_cons_of_mem _ hy)
          · rintro (hy | hy)
            · exact Or.inl (List.mem_cons_of_mem _ hy)
            · rcases List.mem_cons.mp hy with rfl | hy'
              · exact Or.inl (List.mem_cons_self _ _)
              · exact Or.inr hy'
        · intro y
          rw [show ((item :: (saneLayoutLoop validR validG grouped (i :: seenR)
              seenG (rest.map .entry)).1,
             (saneLayoutLoop validR validG grouped (i :: seenR) seenG
              (rest.map .entry)).2.1,
             (saneLayoutLoop validR validG grouped (i :: seenR) seenG
              (rest.map .entry)).2.2) :
              List RawLayoutItem × List String × List String).2.2 =
            (saneLayoutLoop validR validG grouped (i :: seenR) seenG
              (rest.map .entry)).2.2 from rfl]
          rw [ihr.2.2 y, hgids]
      · have hstrip : pyStrip i = i := pyStrip_validSafeId i hvi
        have hrids : runnerItemIds (item :: rest) = runnerItemIds rest := by
          have : item.ltype ≠ some "runner" := by
            rw [hty]
            intro hc
            exact absurd (Option.some.inj hc) (by decide)
          simp [runnerItemIds, List.filterMap_cons, this]
        have hgids : groupItemIds (item :: rest) = i :: groupItemIds rest := by
          simp [groupItemIds, List.filterMap_cons, hty, hid]
        rw [hrids] at hrn hrf
        rw [hgids] at hgn hgf
        have hins : i ∉ seenG := hgf i (List.mem_cons_self _ _)
        have hstep : saneLayoutLoop validR validG grouped seenR seenG
            ((item :: rest).map .entry) =
          (item ::
            (saneLayoutLoop validR validG grouped seenR (i :: seenG)
              (rest.map .entry)).1,
           (saneLayoutLoop validR validG grouped seenR (i :: seenG)
              (rest.map .entry)).2.1,
           (saneLayoutLoop validR validG grouped seenR (i :: seenG)
              (rest.map .entry)).2.2) := by
          simp only [List.map_cons, saneLayoutLoop]
          rw [hty, hid]
          rw [show pyLower (pyStrip (Option.getD (some "group") "")) =
            "group" from by decide]
          rw [show pyStrip (Option.getD (some i) "") = i from hstrip]
          rw [if_neg (by decide), if_pos rfl, if_neg (by
            push_neg
            refine ⟨?_, ?_⟩
            · intro hc
              exact absurd ((contains_false_iff _ _).mp hc) (by simpa using hmem)
            · simpa using (contains_false_iff seenG i).mpr hins)]
          cases item with
          | mk lt li =>
              simp at hty hid
              subst hty
              subst hid
              rfl
        have ihg := ih seenR (i :: seenG)
          (fun it hit => hwf it (List.mem_cons_of_mem _ hit))
          hrn hrf
          (List.nodup_cons.mp hgn).2
          (by
            intro j hj hjm
            rcases List.mem_cons.mp hjm with rfl | hjm'
            · exact (List.nodup_cons.mp hgn).1 hj
            · exact hgf j (List.mem_cons_of_mem _ hj) hjm')
        rw [hstep]
        refine ⟨by rw [ihg.1], ?_, ?_⟩
        · intro y
          rw [show ((item :: (saneLayoutLoop validR validG grouped seenR
              (i :: seenG) (rest.map .entry)).1,
             (saneLayoutLoop validR validG grouped seenR (i :: seenG)
              (rest.map .entry)).2.1,
             (saneLayoutLoop validR validG grouped seenR (i :: seenG)
              (rest.map .entry)).2.2) :
              List RawLayoutItem × List String × List String).2.1 =
            (saneLayoutLoop validR validG grouped seenR (i :: seenG)
              (rest.map .entry)).2.1 from rfl]
          rw [ihg.2.1 y, hrids]
        · intro y
          rw [show ((item :: (saneLayoutLoop validR validG grouped seenR
              (i :: seenG) (rest.map .entry)).1,
             (saneLayoutLoop validR validG grouped seenR (i :: seenG)
              (rest.map .entry)).2.1,
             (saneLayoutLoop validR validG grouped seenR (i :: seenG)
              (rest.map .entry)).2.2) :
              List RawLayoutItem × List String × List String).2.2 =
            (saneLayoutLoop validR validG grouped seenR (i :: seenG)
              (rest.map .entry)).2.2 from rfl]
          rw [ihg.2.2 y, hgids]
          constructor
          · rintro (hy | hy)
            · rcases List.mem_cons.mp hy with rfl | hy'
              · exact Or.inr (List.mem_cons_self _ _)
              · exact Or.inl hy'
            · exact Or.inr (List.mem_cons_of_mem _ hy)
          · rintro (hy | hy)
            · exact Or.inl (List.mem_cons_of_mem _ hy)
            · rcases List.mem_cons.mp hy with rfl | hy'
              · exact Or.inl (List.mem_cons_self _ _)
              · exact Or.inr hy'


/-- The runner ids contributed by the layout extension are the ungrouped,
unseen runner ids, in runner order. -/
theorem extendLayout_runnerIds (grouped rids gids seenR seenG : List String) :
    runnerItemIds (extendLayout grouped rids gids seenR seenG) =
      rids.filter (fun rid => !(grouped.contains rid || seenR.contains rid)) := by
  unfold extendLayout runnerItemIds
  rw [List.filterMap_append]
  have h2 : List.filterMap (fun it : RawLayoutItem =>
      if it.ltype = some "runner" then it.lid else none)
      (gids.filterMap (fun gid =>
        if seenG.contains gid then none
        else some ({ ltype := some "group", lid := some gid } : RawLayoutItem)))
      = [] := by
    induction gids with
    | nil => rfl
    | cons g rest ihg =>
        rw [List.filterMap_cons]
        by_cases hs : seenG.contains g = true
        · rw [if_pos hs]
          exact ihg
        · rw [if_neg hs, List.filterMap_cons]
          rw [if_neg (show ¬ (({ ltype := some "group", lid := some g } :
            RawLayoutItem).ltype = some "runner") from by
              intro hcc
              exact absurd (Option.some.inj hcc) (by decide))]
          exact ihg
  rw [h2, List.append_nil]
  induction rids with
  | nil => rfl
  | cons r rest ihr =>
      rw [List.filterMap_cons, List.filter_cons]
      by_cases hc : grouped.contains r = true ∨ seenR.contains r = true
      · have hb : (!(grouped.contains r || seenR.contains r)) = false := by
          rcases hc with hc | hc
          · rw [hc, Bool.true_or, Bool.not_true]
          · rw [hc, Bool.or_true, Bool.not_true]
        rw [if_pos hc, hb]
        simpa using ihr
      · push_neg at hc
        have h1 : grouped.contains r = false := by
          cases hx : grouped.contains r
          · rfl
          · exact absurd hx hc.1
        have h2' : seenR.contains r = false := by
          cases hx : seenR.contains r
          · rfl
          · exact absurd hx hc.2
        have hb : (!(grouped.contains r || seenR.contains r)) = true := by
          rw [h1, h2', Bool.false_or, Bool.not_false]
        rw [if_neg (by
          push_neg
          exact ⟨hc.1, hc.2⟩), hb, List.filterMap_cons]
        rw [if_pos (show ({ ltype := some "runner", lid := some r } :
          RawLayoutItem).ltype = some "runner" from rfl)]
        simpa using ihr

/-- The group ids contributed by the layout extension are the unseen group
ids, in group order. -/
theorem extendLayout_groupIds (grouped rids gids seenR seenG : List String) :
    groupItemIds (extendLayout grouped rids gids seenR seenG) =
      gids.filter (fun gid => !(seenG.contains gid)) := by
  unfold extendLayout groupItemIds
  rw [List.filterMap_append]
  have h1 : List.filterMap (fun it : RawLayoutItem =>
      if it.ltype = some "group" then it.lid else none)
      (rids.filterMap (fun rid =>
        if grouped.contains rid ∨ seenR.contains rid then none
        else some ({ ltype := some "runner", lid := some rid } :
          RawLayoutItem))) = [] := by
    induction rids with
    | nil => rfl
    | cons r rest ihr =>
        rw [List.filterMap_cons]
        by_cases hs : grouped.contains r = true ∨ seenR.contains r = true
        · rw [if_pos hs]
          exact ihr
        · rw [if_neg hs, List.filterMap_cons]
          rw [if_neg (show ¬ (({ ltype := some "runner", lid := some r } :
            RawLayoutItem).ltype = some "group") from by
              intro hcc
              exact absurd (Option.some.inj hcc) (by decide))]
          exact ihr
  rw [h1, List.nil_append]
  induction gids with
  | nil => rfl
  | cons g rest ihg =>
      rw [List.filterMap_cons, List.filter_cons]
      by_cases hc : seenG.contains g = true
      · rw [if_pos hc, hc, Bool.not_true]
        simpa using ihg
      · have hb : seenG.contains g = false := by
          cases hx : seenG.contains g
          · rfl
          · exact absurd hx hc
        rw [if_neg hc, hb, Bool.not_false, List.filterMap_cons]
        rw [if_pos (show ({ ltype := some "group", lid := some g } :
          RawLayoutItem).ltype = some "group" from rfl)]
        simpa using ihg

/-- Every item the layout extension produces is well formed. -/
theorem extendLayout_wf (grouped rids gids seenR seenG : List String)
    (hvr : ∀ r ∈ rids, validSafeId r = true)
    (hvg : ∀ g ∈ gids, validSafeId g = true) :
    ∀ item ∈ extendLayout grouped rids gids seenR seenG,
      LayoutItemWF rids gids grouped item := by
  intro item hitem
  rcases List.mem_append.mp hitem with hmem | hmem
  · rcases List.mem_filterMap.mp hmem with ⟨rid, hrid, heq⟩
    by_cases hc : grouped.contains rid ∨ seenR.contains rid
    · rw [if_pos hc] at heq
      exact absurd heq (by simp)
    · rw [if_neg hc] at heq
      have heq' := Option.some.inj heq
      push_neg at hc
      refine Or.inl ⟨?_, rid, ?_, hvr rid hrid, hrid, ?_⟩
      · rw [← heq']
      · rw [← heq']
      · rw [← contains_false_iff]
        cases hx : grouped.contains rid
        · rfl
        · exact absurd hx (by simpa using hc.1)
  · rcases List.mem_filterMap.mp hmem with ⟨gid, hgid, heq⟩
    by_cases hc : seenG.contains gid = true
    · rw [if_pos hc] at heq
      exact absurd heq (by simp)
    · rw [if_neg hc] at heq
      have heq' := Option.some.inj heq
      exact Or.inr ⟨by rw [← heq'], gid, by rw [← heq'], hvg gid hgid, hgid⟩

/-- When every runner is grouped or already laid out and every group is
already laid out, the layout extension is empty. -/
theorem extendLayout_nil (grouped rids gids seenR seenG : List String)
    (hr : ∀ r ∈ rids, r ∈ grouped ∨ r ∈ seenR)
    (hg : ∀ g ∈ gids, g ∈ seenG) :
    extendLayout grouped rids gids seenR seenG = [] := by
  unfold extendLayout
  rw [List.append_eq_nil]
  constructor
  · rw [List.filterMap_eq_nil_iff]
    intro rid hrid
    rw [if_pos]
    rcases hr rid hrid with hm | hm
    · exact Or.inl (List.elem_eq_true_of_mem hm)
    · exact Or.inr (List.elem_eq_true_of_mem hm)
  · rw [List.filterMap_eq_nil_iff]
    intro gid hgid
    rw [if_pos (List.elem_eq_true_of_mem (hg gid hgid))]

/-- The reference post-filter never touches the runner id. -/
theorem filterRunnerRefs_preserves_id (vids : List String) (r : RawRunner) :
    (filterRunnerRefs vids r).id = r.id := rfl

/-- A fully normal runner is in particular pre-normal. -/
theorem NormRunner_pre (profIds : List String) (r : RawRunner)
    (h : NormRunner profIds r) : PreNormRunner r := by
  obtain ⟨hid, h1, h2, h3, h4, h5, h6, h7, h8, h9, h10,
    ⟨ids, hids, hidsv, hidsnd, ⟨upd, hupd, hupdv, hupdnd⟩⟩⟩ := h
  exact ⟨hid, h1, h2, h3, h4, h5, h6, h7, h8, h9, h10,
    ⟨ids, hids, fun i hi => (hidsv i hi).1⟩,
    ⟨upd, hupd, fun i hi => (hupdv i hi).1⟩⟩

/-- Merging with the defaults leaves a document whose list keys are all
present unchanged. -/
theorem mergeTop_id (d : RawDoc)
    (hp : ∃ v, d.notify_profiles = some v)
    (hr : ∃ v, d.runners = some v)
    (hg : ∃ v, d.runner_groups = some v)
    (hl : ∃ v, d.runner_layout = some v) :
    mergeTop d = d := by
  obtain ⟨vp, hp⟩ := hp
  obtain ⟨vr, hr⟩ := hr
  obtain ⟨vg, hg⟩ := hg
  obtain ⟨vl, hl⟩ := hl
  cases d
  simp only at hp hr hg hl
  subst hp hr hg hl
  simp [mergeTop, DEFAULT_STATE]

/-- When its guard is down, the legacy migration does nothing. -/
theorem legacyMigration_skip (d : RawDoc) (h : migrationFires d = false) :
    legacyMigration d = d := by
  unfold legacyMigration
  rw [if_neg]
  intro hc
  rw [show ((truthyStr d.pushover_user_key ||
      truthyStr d.pushover_api_token) &&
      !truthyList d.notify_profiles) = migrationFires d from rfl] at hc
  rw [h] at hc
  exact absurd hc (by decide)

/-- Pass 1 of the layout stage: the sanitising loop plus the extension
produce a normal layout. -/
theorem layout_sound (validR validG grouped : List String)
    (hvr : ∀ r ∈ validR, validSafeId r = true)
    (hvg : ∀ g ∈ validG, validSafeId g = true)
    (hrnd : validR.Nodup) (hgnd : validG.Nodup)
    (entries : List (RawEntry RawLayoutItem)) :
    NormLayout validR validG grouped
      ((saneLayoutLoop validR validG grouped [] [] entries).1 ++
        extendLayout grouped validR validG
          (saneLayoutLoop validR validG grouped [] [] entries).2.1
          (saneLayoutLoop validR validG grouped [] [] entries).2.2) := by
  have hs := saneLayoutLoop_sound validR validG grouped hvr hvg entries [] []
  obtain ⟨hwf, hrn, _, hgn, _, hcr, hcg⟩ := hs
  have hext := extendLayout_wf grouped validR validG
    (saneLayoutLoop validR validG grouped [] [] entries).2.1
    (saneLayoutLoop validR validG grouped [] [] entries).2.2 hvr hvg
  have hrids := extendLayout_runnerIds grouped validR validG
    (saneLayoutLoop validR validG grouped [] [] entries).2.1
    (saneLayoutLoop validR validG grouped [] [] entries).2.2
  have hgids := extendLayout_groupIds grouped validR validG
    (saneLayoutLoop validR validG grouped [] [] entries).2.1
    (saneLayoutLoop validR validG grouped [] [] entries).2.2
  have hcr' : ∀ y, y ∈ (saneLayoutLoop validR validG grouped [] [] entries).2.1
      ↔ y ∈ runnerItemIds
        (saneLayoutLoop validR validG grouped [] [] entries).1 := by
    intro y
    rw [hcr y]
    simp
  have hcg' : ∀ y, y ∈ (saneLayoutLoop validR validG grouped [] [] entries).2.2
      ↔ y ∈ groupItemIds
        (saneLayoutLoop validR validG grouped [] [] entries).1 := by
    intro y
    rw [hcg y]
    simp
  refine ⟨?_, ?_, ?_, ?_, ?_⟩
  · intro item hitem
    rcases List.mem_append.mp hitem with hm | hm
    · exact hwf item hm
    · exact hext item hm
  · rw [show runnerItemIds
        ((saneLayoutLoop validR validG grouped [] [] entries).1 ++
          extendLayout grouped validR validG
            (saneLayoutLoop validR validG grouped [] [] entries).2.1
            (saneLayoutLoop validR validG grouped [] [] entries).2.2) =
      runnerItemIds (saneLayoutLoop validR validG grouped [] [] entries).1 ++
        runnerItemIds (extendLayout grouped validR validG
          (saneLayoutLoop validR validG grouped [] [] entries).2.1
          (saneLayoutLoop validR validG grouped [] [] entries).2.2) from
      List.filterMap_append _ _ _]
    rw [hrids]
    refine List.Nodup.append hrn (hrnd.filter _) ?_
    intro a ha hb
    have hfb := List.of_mem_filter hb
    have : (saneLayoutLoop validR validG grouped [] [] entries).2.1.contains a
        = false := by
      cases hx : (saneLayoutLoop validR validG grouped [] [] entries).2.1.contains a
      · rfl
      · rw [hx] at hfb
        simp at hfb
    rw [contains_false_iff] at this
    exact this ((hcr' a).mpr ha)
  · rw [show groupItemIds
        ((saneLayoutLoop validR validG grouped [] [] entries).1 ++
          extendLayout grouped validR validG
            (saneLayoutLoop validR validG grouped [] [] entries).2.1
            (saneLayoutLoop validR validG grouped [] [] entries).2.2) =
      groupItemIds (saneLayoutLoop validR validG grouped [] [] entries).1 ++
        groupItemIds (extendLayout grouped validR validG
          (saneLayoutLoop validR validG grouped [] [] entries).2.1
          (saneLayoutLoop validR validG grouped [] [] entries).2.2) from
      List.filterMap_append _ _ _]
    rw [hgids]
    refine List.Nodup.append hgn (hgnd.filter _) ?_
    intro a ha hb
    have hfb := List.of_mem_filter hb
    have : (saneLayoutLoop validR validG grouped [] [] entries).2.2.contains a
        = false := by
      cases hx : (saneLayoutLoop validR validG grouped [] [] entries).2.2.contains a
      · rfl
      · rw [hx] at hfb
        simp at hfb
    rw [contains_false_iff] at this
    exact this ((hcg' a).mpr ha)
  · intro r hrm hng
    rw [show runnerItemIds
        ((saneLayoutLoop validR validG grouped [] [] entries).1 ++
          extendLayout grouped validR validG
            (saneLayoutLoop validR validG grouped [] [] entries).2.1
            (saneLayoutLoop validR validG grouped [] [] entries).2.2) =
      runnerItemIds (saneLayoutLoop validR validG grouped [] [] entries).1 ++
        runnerItemIds (extendLayout grouped validR validG
          (saneLayoutLoop validR validG grouped [] [] entries).2.1
          (saneLayoutLoop validR validG grouped [] [] entries).2.2) from
      List.filterMap_append _ _ _]
    rw [List.mem_append]
    by_cases hseen : r ∈ (saneLayoutLoop validR validG grouped [] [] entries).2.1
    · exact Or.inl ((hcr' r).mp hseen)
    · refine Or.inr ?_
      rw [hrids]
      refine List.mem_filter.mpr ⟨hrm, ?_⟩
      have h1 : grouped.contains r = false := (contains_false_iff _ _).mpr hng
      have h2 : (saneLayoutLoop validR validG grouped [] []
          entries).2.1.contains r = false := (contains_false_iff _ _).mpr hseen
      rw [h1, h2]
      rfl
  · intro g hgm
    rw [show groupItemIds
        ((saneLayoutLoop validR validG grouped [] [] entries).1 ++
          extendLayout grouped validR validG
            (saneLayoutLoop validR validG grouped [] [] entries).2.1
            (saneLayoutLoop validR validG grouped [] [] entries).2.2) =
      groupItemIds (saneLayoutLoop validR validG grouped [] [] entries).1 ++
        groupItemIds (extendLayout grouped validR validG
          (saneLayoutLoop validR validG grouped [] [] entries).2.1
          (saneLayoutLoop validR validG grouped [] [] entries).2.2) from
      List.filterMap_append _ _ _]
    rw [List.mem_append]
    by_cases hseen : g ∈ (saneLayoutLoop validR validG grouped [] [] entries).2.2
    · exact Or.inl ((hcg' g).mp hseen)
    · refine Or.inr ?_
      rw [hgids]
      refine List.mem_filter.mpr ⟨hgm, ?_⟩
      have h2 : (saneLayoutLoop validR validG grouped [] []
          entries).2.2.contains g = false := (contains_false_iff _ _).mpr hseen
      rw [h2]
      rfl

/-- Pass 2 of the layout stage: on a normal layout the loop reproduces the
items and the extension is empty. -/
theorem layout_id (validR validG grouped : List String)
    (ll : List RawLayoutItem) (h : NormLayout validR validG grouped ll) :
    (saneLayoutLoop validR validG grouped [] [] (ll.map .entry)).1 ++
      extendLayout grouped validR validG
        (saneLayoutLoop validR validG grouped [] [] (ll.map .entry)).2.1
        (saneLayoutLoop validR validG grouped [] [] (ll.map .entry)).2.2 =
      ll := by
  obtain ⟨hwf, hrn, hgn, hcovr, hcovg⟩ := h
  have hid := saneLayoutLoop_id validR validG grouped ll [] []
    (fun item hitem => hwf item hitem) hrn (by simp) hgn (by simp)
  have hext : extendLayout grouped validR validG
      (saneLayoutLoop validR validG grouped [] [] (ll.map .entry)).2.1
      (saneLayoutLoop validR validG grouped [] [] (ll.map .entry)).2.2 = [] := by
    refine extendLayout_nil grouped validR validG _ _ ?_ ?_
    · intro r hr
      by_cases hg : r ∈ grouped
      · exact Or.inl hg
      · refine Or.inr ?_
        rw [hid.2.1 r]
        exact Or.inr (hcovr r hr hg)
    · intro g hg
      rw [hid.2.2 g]
      exact Or.inr (hcovg g hg)
  rw [hext, List.append_nil, hid.1]

/-- Pass 1: under a clean generation run, `_merge_defaults` produces a
document in normal form. -/
theorem mergeDefaults_norm (sup : Nat → String) (k : Nat) (x : RawDoc)
    (hok : mergeGenOk sup k x = true) :
    NormDoc (merge_defaults sup k x) := by
  simp only [mergeGenOk, mergeDefaultsAux] at hok
  simp only [merge_defaults, mergeDefaultsAux]
  generalize hM : legacyMigration (mergeTop x) = M at hok ⊢
  have hok2 := (Bool.and_eq_true _ _).mp hok
  have hok3 := (Bool.and_eq_true _ _).mp hok2.1
  have hp := hok3.1
  have hr := hok3.2
  have hg := hok2.2
  have hPs := saneProfilesLoop_sound sup (M.notify_profiles.getD []) k [] hp
  have hRs := saneRunnersLoop_sound sup (M.runners.getD [])
    (saneProfilesLoop sup k [] (M.notify_profiles.getD [])).2.1 [] hr
  have hvn : (((saneProfilesLoop sup k []
      (M.notify_profiles.getD [])).1.map (fun p => p.id)).filter
      validSafeId) =
      (saneProfilesLoop sup k [] (M.notify_profiles.getD [])).1.map
        (fun p => p.id) := by
    rw [List.filter_eq_self]
    intro a ha
    obtain ⟨p, hp', rfl⟩ := List.mem_map.mp ha
    exact ((hPs.1 p hp').1).1
  rw [hvn] at hg ⊢
  have hvr : ((saneRunnersLoop sup
      (saneProfilesLoop sup k [] (M.notify_profiles.getD [])).2.1 []
      (M.runners.getD [])).1.map (filterRunnerRefs
        ((saneProfilesLoop sup k [] (M.notify_profiles.getD [])).1.map
          (fun p => p.id)))).map (fun r => r.id) =
      (saneRunnersLoop sup
        (saneProfilesLoop sup k [] (M.notify_profiles.getD [])).2.1 []
        (M.runners.getD [])).1.map (fun r => r.id) := by
    rw [List.map_map]
    rfl
  rw [hvr] at hg ⊢
  have hGs := saneGroupsLoop_sound sup
    ((saneRunnersLoop sup
      (saneProfilesLoop sup k [] (M.notify_profiles.getD [])).2.1 []
      (M.runners.getD [])).1.map (fun r => r.id))
    (M.runner_groups.getD [])
    (saneRunnersLoop sup
      (saneProfilesLoop sup k [] (M.notify_profiles.getD [])).2.1 []
      (M.runners.getD [])).2.1 [] [] hg
  refine ⟨(saneProfilesLoop sup k [] (M.notify_profiles.getD [])).1,
    (saneRunnersLoop sup
      (saneProfilesLoop sup k [] (M.notify_profiles.getD [])).2.1 []
      (M.runners.getD [])).1.map (filterRunnerRefs
        ((saneProfilesLoop sup k [] (M.notify_profiles.getD [])).1.map
          (fun p => p.id))),
    (saneGroupsLoop sup
      ((saneRunnersLoop sup
        (saneProfilesLoop sup k [] (M.notify_profiles.getD [])).2.1 []
        (M.runners.getD [])).1.map (fun r => r.id))
      (saneRunnersLoop sup
        (saneProfilesLoop sup k [] (M.notify_profiles.getD [])).2.1 []
        (M.runners.getD [])).2.1 [] [] (M.runner_groups.getD [])).1,
    _, rfl, rfl, rfl, rfl, ?_, ?_, ?_, ?_, ?_, ?_, ?_, ?_⟩
  · exact fun p hp' => (hPs.1 p hp').1
  · exact hPs.2
  · intro r hr'
    obtain ⟨q, hq, rfl⟩ := List.mem_map.mp hr'
    exact (filterRunnerRefs_norm _ q (hRs.1 q hq).1).1
  · rw [hvr]
    exact hRs.2
  · intro g hg'
    rw [hvr]
    exact (hGs.1 g hg').1
  · exact hGs.2.1
  · exact hGs.2.2
  · rw [hvr]
    refine layout_sound _ _ _ ?_ ?_ ?_ ?_ _
    · intro r hr'
      obtain ⟨q, hq, rfl⟩ := List.mem_map.mp hr'
      exact (hRs.1 q hq).1.1
    · intro g hg'
      obtain ⟨q, hq, rfl⟩ := List.mem_map.mp hg'
      exact ((hGs.1 q hq).1).1
    · exact hRs.2
    · exact hGs.2.1

/-- Pass 2: `_merge_defaults` is the identity on a normal-form document
whose legacy-migration guard is down. -/
theorem mergeDefaults_fixpoint (sup : Nat → String) (k : Nat) (y : RawDoc)
    (hnd : NormDoc y) (hmig : migrationFires y = false) :
    merge_defaults sup k y = y := by
  obtain ⟨pl, rl, gl, ll, hyp, hyr, hyg, hyl, hpln, hplnd, hrln, hrlnd,
    hgln, hglnd, hpair, hlay⟩ := hnd
  have hP : saneProfilesLoop sup k [] (pl.map .entry) = (pl, k, true) :=
    saneProfilesLoop_id sup pl k [] hpln hplnd (fun p _ => rfl)
  have hvn : (pl.map (fun p => p.id)).filter validSafeId =
      pl.map (fun p => p.id) := by
    rw [List.filter_eq_self]
    intro a ha
    obtain ⟨p, hp', rfl⟩ := List.mem_map.mp ha
    exact (hpln p hp').1
  have hR : saneRunnersLoop sup k [] (rl.map .entry) = (rl, k, true) :=
    saneRunnersLoop_id sup rl k []
      (fun r hr => NormRunner_pre _ r (hrln r hr)) hrlnd (fun r _ => rfl)
  have hSR : rl.map (filterRunnerRefs (pl.map (fun p => p.id))) = rl := by
    have hstep : rl.map (filterRunnerRefs (pl.map (fun p => p.id))) =
        rl.map id :=
      List.map_congr_left (fun r hr =>
        filterRunnerRefs_fixpoint _ r (hrln r hr))
    rw [hstep, List.map_id]
  have hG : (saneGroupsLoop sup (rl.map (fun r => r.id)) k [] []
      (gl.map .entry)).1 = gl :=
    saneGroupsLoop_id sup (rl.map (fun r => r.id)) gl k [] []
      hgln hglnd (fun g _ => rfl) hpair
      (fun g _ x _ hc => absurd hc (List.not_mem_nil x))
  have hL := layout_id (rl.map (fun r => r.id)) (gl.map (fun g => g.id))
    (groupsMemberIds gl) ll hlay
  simp only [groupsMemberIds] at hL
  simp only [merge_defaults, mergeDefaultsAux]
  rw [mergeTop_id y ⟨_, hyp⟩ ⟨_, hyr⟩ ⟨_, hyg⟩ ⟨_, hyl⟩,
    legacyMigration_skip y hmig, hyp, hyr, hyg, hyl]
  simp only [Option.getD_some]
  rw [hP]
  dsimp only
  rw [hvn, hR]
  dsimp only
  rw [hSR, hG, hL]
  cases y
  simp only at hyp hyr hyg hyl
  subst hyp hyr hyg hyl
  rfl

set_option maxRecDepth 10000 in
/-- C7 (counterexample): normalisation as implemented is NOT idempotent on
every stored document.  A document carrying a legacy `pushover_user_key`
next to a profile list whose only entry is not an object defeats the
round-trip: the first pass sees a non-empty profile list (so the one-shot
legacy migration does not fire), drops the junk entry, and keeps the
legacy key; the second pass then sees the key with an empty profile list
and the migration creates a `notify_default` profile, changing the
document.  Both passes are clean generation runs. -/
theorem c7_idempotence_counterexample :
    mergeGenOk c7Sup 0 c7LegacyDoc = true ∧
    mergeGenOk c7Sup 0 (merge_defaults c7Sup 0 c7LegacyDoc) = true ∧
    merge_defaults c7Sup 0 (merge_defaults c7Sup 0 c7LegacyDoc) ≠
      merge_defaults c7Sup 0 c7LegacyDoc := by decide

/-- C7 (amended): load-time normalisation is idempotent on every stored
document, PROVIDED the first pass regenerated no id into a collision
(`mergeGenOk`, true in particular whenever no id had to be regenerated)
and the normalised document does not re-trigger the one-shot legacy
pushover migration (`migrationFires`, guaranteed whenever the document
carries no legacy `pushover_user_key`/`pushover_api_token`, and violated
in the counterexample above).  Under those two conditions a second
normalisation — with any id supply — returns the first pass's output
unchanged: ids sanitised to `^[A-Za-z0-9_-]{1,120}$`, duplicates
regenerated, unknown profile references dropped, each runner in at most
one group, and the layout covering every ungrouped runner and every group
exactly once, preserving prior relative order. -/
theorem c7_normalisation_idempotent (sup sup2 : Nat → String) (k k2 : Nat)
    (x : RawDoc) (hok : mergeGenOk sup k x = true)
    (hmig : migrationFires (merge_defaults sup k x) = false) :
    merge_defaults sup2 k2 (merge_defaults sup k x) =
      merge_defaults sup k x :=
  mergeDefaults_fixpoint sup2 k2 (merge_defaults sup k x)
    (mergeDefaults_norm sup k x hok) hmig

set_option maxRecDepth 10000 in
/-- The amended C7 theorem at a concrete input: the shipped
`DEFAULT_STATE` document normalises cleanly and a second pass is the
identity. -/
theorem c7_normalisation_idempotent_witness :
    mergeGenOk c7Sup 0 DEFAULT_STATE = true ∧
    migrationFires (merge_defaults c7Sup 0 DEFAULT_STATE) = false ∧
    merge_defaults c7Sup 0 (merge_defaults c7Sup 0 DEFAULT_STATE) =
      merge_defaults c7Sup 0 DEFAULT_STATE :=
  ⟨by decide, by decide,
    c7_normalisation_idempotent c7Sup c7Sup 0 0 DEFAULT_STATE
      (by decide) (by decide)⟩
